import Mathlib

/-!
# LibrePCB symbol editor: clipboard snapshot and paste reconciliation

Shallow embedding of

* `libs/librepcb/libraryeditor/sym/fsm/cmd/cmdpastesymbolitems.cpp`
  (`CmdPasteSymbolItems::performExecute`),
* `libs/librepcb/libraryeditor/sym/symbolclipboarddata.cpp`
  (`SymbolClipboardData`),
* `libs/librepcb/libraryeditor/sym/fsm/symboleditorstate_select.cpp`
  (`SymbolEditorState_Select::copySelectedItemsToClipboard`).

Stateful code is written with explicit state passing: the destination symbol
is a value, a command returns the symbol it leaves behind, and a C++ exception
is the `error` case of `Except`.
-/

set_option autoImplicit false

namespace LibrePCB

/-! ## Data model -/

/-- Element identifier (`Uuid`); only equality of identifiers is ever used. -/
abbrev Uuid := Nat

/-- A position (`Point`): two lengths in nanometres. -/
structure Point where
  x : Int
  y : Int
deriving DecidableEq, Repr

/-- Modelled from the spec: `Point::operator+` is not part of the source files
sources; translation adds the offset to each coordinate. -/
def Point.add (p q : Point) : Point := ⟨p.x + q.x, p.y + q.y⟩

instance : Add Point := ⟨Point.add⟩

/-- The default-constructed `Point()`, the origin. -/
def Point.zero : Point := ⟨0, 0⟩

/-- A symbol pin (`SymbolPin`): identifier, name (`CircuitIdentifier`),
position, length (`UnsignedLength`) and rotation (`Angle`). -/
structure SymbolPin where
  uuid : Uuid
  name : String
  position : Point
  length : Nat
  rotation : Int
deriving DecidableEq, Repr

/-- A circle (`Circle`). -/
structure Circle where
  uuid : Uuid
  layerName : String
  lineWidth : Nat
  filled : Bool
  grabArea : Bool
  center : Point
  diameter : Nat
deriving DecidableEq, Repr

/-- One vertex of a `Path`: a position and the angle of the arc that starts
there. -/
structure Vertex where
  pos : Point
  angle : Int
deriving DecidableEq, Repr

/-- A polygon outline (`Path`): its vertices in order. -/
abbrev Path := List Vertex

/-- Modelled from the spec: `Path::translated` is not part of the source files
sources; every point of the path is translated by the offset and nothing else
changes. -/
def Path.translated (p : Path) (offset : Point) : Path :=
  p.map fun v => { v with pos := v.pos + offset }

/-- A polygon (`Polygon`). -/
structure Polygon where
  uuid : Uuid
  layerName : String
  lineWidth : Nat
  filled : Bool
  grabArea : Bool
  path : Path
deriving DecidableEq, Repr

/-- Horizontal text alignment. -/
inductive HAlign where
  | left | center | right
deriving DecidableEq, Repr

/-- Vertical text alignment. -/
inductive VAlign where
  | top | center | bottom
deriving DecidableEq, Repr

/-- Text alignment (`Alignment`). -/
structure Alignment where
  h : HAlign
  v : VAlign
deriving DecidableEq, Repr

/-- A text (`Text`). -/
structure Text where
  uuid : Uuid
  layerName : String
  text : String
  position : Point
  rotation : Int
  height : Nat
  align : Alignment
deriving DecidableEq, Repr

/-- The destination document (`Symbol`): its identifier and one
ordered-by-insertion list per element variant. -/
structure Symbol where
  uuid : Uuid
  pins : List SymbolPin
  circles : List Circle
  polygons : List Polygon
  texts : List Text
deriving DecidableEq, Repr

/-- The clipboard snapshot (`SymbolClipboardData`): the identifier of the
symbol the elements were copied from (`getSymbolUuid()`) and the four lists in
the member order of the class. -/
structure SymbolClipboardData where
  symbolUuid : Uuid
  pins : List SymbolPin
  polygons : List Polygon
  circles : List Circle
  texts : List Text
deriving DecidableEq, Repr

/-! ## Collaborators that are not part of the source files at hand -/

/-- Decimal value of a run of digit characters, most significant first. -/
def digitsValue (ds : List Char) : Nat :=
  ds.foldl (fun acc c => 10 * acc + (c.toNat - 48)) 0

/-- Modelled from the spec: `Toolbox::incrementNumberInString` is not part of
the source files at hand; it increments the trailing numeric suffix of the name and
appends "1" when the name has none. -/
def incrementNumberInString (s : String) : String :=
  let rev := s.toList.reverse
  let digits := (rev.takeWhile Char.isDigit).reverse
  let stem := (rev.dropWhile Char.isDigit).reverse
  if digits.isEmpty then String.mk (s.toList ++ ['1'])
  else String.mk (stem ++ (Nat.repr (digitsValue digits + 1)).toList)

/-- Errors raised while a paste command executes. -/
inductive PasteError where
  /-- The `CircuitIdentifier` constructor rejected an incremented name. -/
  | invalidName (name : String)
  /-- A child command threw while it was executed. -/
  | childFailed
deriving DecidableEq, Repr

/-- A child command of the paste group: the insertion of one prepared copy
(`CmdSymbolPinInsert`, `CmdCircleInsert`, `CmdPolygonInsert`,
`CmdTextInsert`). -/
inductive ChildCmd where
  | pinInsert (pin : SymbolPin)
  | circleInsert (circle : Circle)
  | polygonInsert (polygon : Polygon)
  | textInsert (text : Text)
deriving DecidableEq, Repr

/-- What the source files at hand leave to code outside of them.

* `validName` is the constraint checked by the `CircuitIdentifier`
  constructor, which throws on a string that violates it.
* `childThrows sym cmd` tells whether executing the child `cmd` on the symbol
  `sym` throws. -/
structure Env where
  validName : String → Bool
  childThrows : Symbol → ChildCmd → Bool

/-! ## `CmdPasteSymbolItems::performExecute` -/

/-- Lines 70-74 (and 87-91, 100-104, 113-117): the identifier of a copy.
`contained` is `mSymbol.getXxx().contains(uuid)`; `rnd n` is the value of the
`n`-th call of `Uuid::createRandom()`, and the second component counts the
calls made so far. -/
def chooseUuid (rnd : Nat → Uuid) (symUuid dataUuid : Uuid) (contained : Bool)
    (uuid : Uuid) (n : Nat) : Uuid × Nat :=
  if contained || symUuid != dataUuid then (rnd n, n + 1) else (uuid, n)

/-- Lines 75-79: the name loop
`for (int i = 0; (i < 1000) && mSymbol.getPins().contains(*name); ++i)`.
The first argument is the number of iterations still allowed (`1000 - i`),
`used` is `mSymbol.getPins().contains`. Each iteration builds a
`CircuitIdentifier` from the incremented string, which can throw. -/
def pinNameLoop (validName : String → Bool) (used : String → Bool) :
    Nat → String → Except PasteError String
  | 0, name => .ok name
  | left + 1, name =>
    if used name then
      let next := incrementNumberInString name
      if validName next then pinNameLoop validName used left next
      else .error (.invalidName next)
    else .ok name

/-- One range-based `for` loop of `performExecute`: for every element of a
snapshot list, in order, choose the identifier and build the copy (which can
throw); the copies are returned in the order in which their insertion
commands are appended. The `Nat` threaded through is the number of
`Uuid::createRandom()` calls made so far. -/
def pasteEach {α β : Type} (rnd : Nat → Uuid) (symUuid dataUuid : Uuid)
    (contains : Uuid → Bool) (uuidOf : α → Uuid)
    (copy : Uuid → α → Except PasteError β) :
    List α → Nat → Except PasteError (List β × Nat)
  | [], n => .ok ([], n)
  | a :: rest, n =>
    let choice := chooseUuid rnd symUuid dataUuid (contains (uuidOf a)) (uuidOf a) n
    match copy choice.1 a with
    | .error e => .error e
    | .ok b =>
      match pasteEach rnd symUuid dataUuid contains uuidOf copy rest choice.2 with
      | .error e => .error e
      | .ok (bs, m) => .ok (b :: bs, m)

/-- `mSymbol.getPins().contains(uuid)`. -/
def Symbol.containsPin (sym : Symbol) (uuid : Uuid) : Bool :=
  sym.pins.any fun p => p.uuid == uuid

/-- `mSymbol.getPins().contains(name)`. -/
def Symbol.containsPinName (sym : Symbol) (name : String) : Bool :=
  sym.pins.any fun p => p.name == name

/-- `mSymbol.getCircles().contains(uuid)`. -/
def Symbol.containsCircle (sym : Symbol) (uuid : Uuid) : Bool :=
  sym.circles.any fun c => c.uuid == uuid

/-- `mSymbol.getPolygons().contains(uuid)`. -/
def Symbol.containsPolygon (sym : Symbol) (uuid : Uuid) : Bool :=
  sym.polygons.any fun p => p.uuid == uuid

/-- `mSymbol.getTexts().contains(uuid)`. -/
def Symbol.containsText (sym : Symbol) (uuid : Uuid) : Bool :=
  sym.texts.any fun t => t.uuid == uuid

/-- Lines 75-82: the copy of a pin. -/
def copyPin (env : Env) (sym : Symbol) (offset : Point) (uuid : Uuid)
    (pin : SymbolPin) : Except PasteError SymbolPin :=
  match pinNameLoop env.validName sym.containsPinName 1000 pin.name with
  | .error e => .error e
  | .ok name =>
    .ok { uuid := uuid, name := name, position := pin.position + offset,
          length := pin.length, rotation := pin.rotation }

/-- Lines 92-95: the copy of a circle. -/
def copyCircle (offset : Point) (uuid : Uuid) (circle : Circle) :
    Except PasteError Circle :=
  .ok { uuid := uuid, layerName := circle.layerName, lineWidth := circle.lineWidth,
        filled := circle.filled, grabArea := circle.grabArea,
        center := circle.center + offset, diameter := circle.diameter }

/-- Lines 105-108: the copy of a polygon. -/
def copyPolygon (offset : Point) (uuid : Uuid) (polygon : Polygon) :
    Except PasteError Polygon :=
  .ok { uuid := uuid, layerName := polygon.layerName, lineWidth := polygon.lineWidth,
        filled := polygon.filled, grabArea := polygon.grabArea,
        path := Path.translated polygon.path offset }

/-- Lines 118-121: the copy of a text. -/
def copyText (offset : Point) (uuid : Uuid) (text : Text) :
    Except PasteError Text :=
  .ok { uuid := uuid, layerName := text.layerName, text := text.text,
        position := text.position + offset, rotation := text.rotation,
        height := text.height, align := text.align }

/-- Lines 69-123 of `performExecute`: the four loops, which only append
children to the group (`appendChild(new CmdSymbolPinInsert(...))` and its
three siblings). No child is executed here, so every `contains` query sees the
destination symbol as it was before the paste. An exception leaves the loops
at once. The result is the list of children of the group. -/
def appendChildren (env : Env) (rnd : Nat → Uuid) (sym : Symbol)
    (data : SymbolClipboardData) (offset : Point) :
    Except PasteError (List ChildCmd) :=
  match pasteEach rnd sym.uuid data.symbolUuid sym.containsPin
      SymbolPin.uuid (copyPin env sym offset) data.pins 0 with
  | .error e => .error e
  | .ok (pins, n1) =>
    match pasteEach rnd sym.uuid data.symbolUuid sym.containsCircle
        Circle.uuid (copyCircle offset) data.circles n1 with
    | .error e => .error e
    | .ok (circles, n2) =>
      match pasteEach rnd sym.uuid data.symbolUuid sym.containsPolygon
          Polygon.uuid (copyPolygon offset) data.polygons n2 with
      | .error e => .error e
      | .ok (polygons, n3) =>
        match pasteEach rnd sym.uuid data.symbolUuid sym.containsText
            Text.uuid (copyText offset) data.texts n3 with
        | .error e => .error e
        | .ok (texts, _) =>
          .ok (pins.map .pinInsert ++ circles.map .circleInsert
            ++ polygons.map .polygonInsert ++ texts.map .textInsert)

/-! ## The command group -/

/-- Modelled from the spec: the insertion commands are not part of the source files
sources. "Insert element X" appends the element to the list of its variant
(the lists are ordered by insertion); the second component is the index the
element was put at, which the command records for its undo. -/
def ChildCmd.insert (sym : Symbol) : ChildCmd → Symbol × Nat
  | .pinInsert p => ({ sym with pins := sym.pins ++ [p] }, sym.pins.length)
  | .circleInsert c => ({ sym with circles := sym.circles ++ [c] }, sym.circles.length)
  | .polygonInsert p =>
    ({ sym with polygons := sym.polygons ++ [p] }, sym.polygons.length)
  | .textInsert t => ({ sym with texts := sym.texts ++ [t] }, sym.texts.length)

/-- Modelled from the spec: executing a child either throws, changing nothing
(apply is all-or-nothing at the command level), or performs its insertion. -/
def ChildCmd.execute (env : Env) (sym : Symbol) (cmd : ChildCmd) :
    Except PasteError (Symbol × Nat) :=
  if env.childThrows sym cmd then .error .childFailed else .ok (cmd.insert sym)

/-- Modelled from the spec: the insertion commands are not part of the source files
sources. "Insert element X" reverses to "remove element X": the element at
the recorded index is taken out of the list of its variant. -/
def ChildCmd.undo (sym : Symbol) (index : Nat) : ChildCmd → Symbol
  | .pinInsert _ => { sym with pins := sym.pins.eraseIdx index }
  | .circleInsert _ => { sym with circles := sym.circles.eraseIdx index }
  | .polygonInsert _ => { sym with polygons := sym.polygons.eraseIdx index }
  | .textInsert _ => { sym with texts := sym.texts.eraseIdx index }

/-- Reverses executed children, the most recently executed first. Each entry
is a child with the index its execution recorded. -/
def undoAll (done : List (ChildCmd × Nat)) (sym : Symbol) : Symbol :=
  done.foldl (fun s d => d.1.undo s d.2) sym

/-- Modelled from the spec: `UndoCommandGroup::performExecute` is not part of
the source files at hand. The group applies its children in order; when a child
fails, all previously applied children are reversed, last first, before the
failure propagates. `done` holds the children applied so far, the most recent
first. The result pairs the outcome with the symbol left behind. -/
def UndoCommandGroup.performExecute (env : Env) :
    List ChildCmd → List (ChildCmd × Nat) → Symbol → Except PasteError Unit × Symbol
  | [], _, sym => (.ok (), sym)
  | cmd :: rest, done, sym =>
    match cmd.execute env sym with
    | .error e => (.error e, undoAll done sym)
    | .ok (sym', index) =>
      UndoCommandGroup.performExecute env rest ((cmd, index) :: done) sym'

/-- `CmdPasteSymbolItems::performExecute` (lines 60-127): append one child per
snapshot element, then "execute all child commands". The result pairs the
outcome with the destination symbol left behind; an exception thrown by the
loops propagates before any child was executed. -/
def CmdPasteSymbolItems.performExecute (env : Env) (rnd : Nat → Uuid) (sym : Symbol)
    (data : SymbolClipboardData) (offset : Point) :
    Except PasteError Unit × Symbol :=
  match appendChildren env rnd sym data offset with
  | .error e => (.error e, sym)
  | .ok children => UndoCommandGroup.performExecute env children [] sym

/-- The symbol after all the given children were applied, none throwing. -/
def insertAll (children : List ChildCmd) (sym : Symbol) : Symbol :=
  children.foldl (fun s c => (c.insert s).1) sym

/-! ## Vocabulary of the specification -/

/-- The identifier decision of the paste reconciler for one element: with
`keep` the condition "the destination's identifier equals the snapshot's
origin identifier and the element's identifier is not yet present", the copy
has the original identifier `orig` when `keep` holds and an identifier drawn
from the allocator `rnd` otherwise; and whenever the allocator never returns
`orig`, the copy has the original identifier exactly when `keep` holds. -/
def IdDecision (rnd : Nat → Uuid) (keep : Prop) (orig new : Uuid) : Prop :=
  (keep → new = orig) ∧ (¬ keep → ∃ k, new = rnd k) ∧
    ((∀ k, rnd k ≠ orig) → (new = orig ↔ keep))

/-! ## Concrete inputs used to exercise the theorems -/

/-- Collaborators that accept every name and never make a child throw. -/
def envOk : Env := ⟨fun _ => true, fun _ _ => false⟩

/-- An allocator handing out 100, 101, 102, ... -/
def rndFrom100 : Nat → Uuid := fun n => 100 + n

/-- A pin named "A". -/
def pinA : SymbolPin := ⟨1, "A", ⟨10, 20⟩, 5, 90⟩

/-- A circle. -/
def circle2 : Circle := ⟨2, "sym_outlines", 3, false, true, ⟨-4, 7⟩, 11⟩

/-- A polygon with two vertices. -/
def polygon3 : Polygon :=
  ⟨3, "sym_outlines", 1, true, false, [⟨⟨0, 0⟩, 0⟩, ⟨⟨5, -5⟩, 45⟩]⟩

/-- A text. -/
def text4 : Text := ⟨4, "sym_names", "NAME", ⟨1, 2⟩, 0, 25, ⟨.left, .bottom⟩⟩

/-- A snapshot with one element of each variant, captured from symbol 10. -/
def snapshot10 : SymbolClipboardData := ⟨10, [pinA], [polygon3], [circle2], [text4]⟩

/-- The symbol 10 holding none of the elements of `snapshot10`. -/
def emptySymbol10 : Symbol := ⟨10, [], [], [], []⟩

/-- The symbol 10 holding only the pin "A". -/
def symbolWithA : Symbol := ⟨10, [pinA], [], [], []⟩

/-- A snapshot holding only the pin "A", captured from symbol 10. -/
def snapshotA : SymbolClipboardData := ⟨10, [pinA], [], [], []⟩

/-- An allocator handing out 200, 201, 202, ... -/
def rndFrom200 : Nat → Uuid := fun n => 200 + n

/-- A symbol 10 whose 1001 pins are named "A", inc("A"), ..., inc^1000("A"),
`inc` being `incrementNumberInString`. -/
def crowdedSymbol : Symbol :=
  { uuid := 10
    pins := (List.range 1001).map fun k =>
      { uuid := 1000 + k, name := incrementNumberInString^[k] "A",
        position := ⟨0, 0⟩, length := 0, rotation := 0 }
    circles := [], polygons := [], texts := [] }

/-- All element identifiers of a snapshot. -/
def SymbolClipboardData.uuids (data : SymbolClipboardData) : List Uuid :=
  data.pins.map SymbolPin.uuid ++ data.circles.map Circle.uuid
    ++ data.polygons.map Polygon.uuid ++ data.texts.map Text.uuid

/-- A pin named "A1". -/
def pinA1 : SymbolPin := ⟨5, "A1", ⟨10, 30⟩, 5, 90⟩

/-- A snapshot holding the pins "A" and "A1", captured from symbol 10. -/
def snapshotAA1 : SymbolClipboardData := ⟨10, [pinA, pinA1], [], [], []⟩

/-- The symbol 10 after `snapshot10` was pasted into it with offset (3, 4),
all identifiers kept. -/
def pastedOnce10 : Symbol :=
  { uuid := 10
    pins := [⟨1, "A", ⟨13, 24⟩, 5, 90⟩]
    circles := [⟨2, "sym_outlines", 3, false, true, ⟨-1, 11⟩, 11⟩]
    polygons := [⟨3, "sym_outlines", 1, true, false, [⟨⟨3, 4⟩, 0⟩, ⟨⟨8, -1⟩, 45⟩]⟩]
    texts := [⟨4, "sym_names", "NAME", ⟨4, 6⟩, 0, 25, ⟨.left, .bottom⟩⟩] }

/-- The pin `c` is the copy of the pin `o` moved by `offset`: position
translated, length and rotation unchanged (identifier and name are decided
separately). -/
def PinCopyOf (offset : Point) (o c : SymbolPin) : Prop :=
  c.position = o.position + offset ∧ c.length = o.length ∧ c.rotation = o.rotation

/-- The circle `c` is the copy of the circle `o` moved by `offset`: centre
translated; layer, line width, fill, grab-area flag and diameter unchanged. -/
def CircleCopyOf (offset : Point) (o c : Circle) : Prop :=
  c.center = o.center + offset ∧ c.layerName = o.layerName ∧
    c.lineWidth = o.lineWidth ∧ c.filled = o.filled ∧ c.grabArea = o.grabArea ∧
    c.diameter = o.diameter

/-- The polygon `c` is the copy of the polygon `o` moved by `offset`: the
paths have the same vertices in the same order, every position translated and
every angle unchanged; layer, line width, fill and grab-area flag unchanged. -/
def PolygonCopyOf (offset : Point) (o c : Polygon) : Prop :=
  List.Forall₂ (fun (v w : Vertex) => w.pos = v.pos + offset ∧ w.angle = v.angle)
      o.path c.path ∧
    c.layerName = o.layerName ∧ c.lineWidth = o.lineWidth ∧ c.filled = o.filled ∧
    c.grabArea = o.grabArea

/-- The text `c` is the copy of the text `o` moved by `offset`: position
translated; layer, content, rotation, height and alignment unchanged. -/
def TextCopyOf (offset : Point) (o c : Text) : Prop :=
  c.position = o.position + offset ∧ c.layerName = o.layerName ∧ c.text = o.text ∧
    c.rotation = o.rotation ∧ c.height = o.height ∧ c.align = o.align

/-- Collaborators that accept every name and make the insertion of a circle
throw. -/
def envCircleThrows : Env :=
  ⟨fun _ => true, fun _ cmd => match cmd with | .circleInsert _ => true | _ => false⟩

/-! ## `SymbolEditorState_Select::copySelectedItemsToClipboard` and the cut -/

/-- What the graphics item of the symbol reports as selected
(`getSelectedPins()`, `getSelectedCircles()`, `getSelectedPolygons()`,
`getSelectedTexts()`), each entry standing for the element the selected
graphics item shows. -/
structure SelectedItems where
  pins : List SymbolPin
  circles : List Circle
  polygons : List Polygon
  texts : List Text

/-- Modelled from the spec: the constructor `SymbolClipboardData(const Uuid&)`
called at line 348 is not part of the source files at hand; it makes an empty
snapshot that records the identifier of the owning symbol. -/
def SymbolClipboardData.new (symbolUuid : Uuid) : SymbolClipboardData :=
  ⟨symbolUuid, [], [], [], []⟩

/-- Lines 348-373 of `copySelectedItemsToClipboard`: the snapshot `data` that
is handed to `toMimeData()`. Every selected element is copied as it is and
appended to the list of its variant. -/
def copySelectedItemsToClipboard_data (sym : Symbol) (items : SelectedItems) :
    SymbolClipboardData :=
  let data := SymbolClipboardData.new sym.uuid
  let data := items.pins.foldl (fun d p => { d with pins := d.pins ++ [p] }) data
  let data := items.circles.foldl (fun d c => { d with circles := d.circles ++ [c] }) data
  let data := items.polygons.foldl (fun d p => { d with polygons := d.polygons ++ [p] }) data
  items.texts.foldl (fun d t => { d with texts := d.texts ++ [t] }) data

/-- The selection flags (`isSelected()`) of the graphics items, read per
element. -/
structure Selection where
  pin : SymbolPin → Bool
  circle : Circle → Bool
  polygon : Polygon → Bool
  text : Text → Bool

/-- Modelled from the spec: `CmdRemoveSelectedSymbolItems` is not part of the
source files at hand; Remove takes the selected elements out of the symbol and
leaves the others in place. -/
def CmdRemoveSelectedSymbolItems.performExecute (sym : Symbol) (sel : Selection) :
    Symbol :=
  { sym with
    pins := sym.pins.filter fun p => !sel.pin p
    circles := sym.circles.filter fun c => !sel.circle c
    polygons := sym.polygons.filter fun p => !sel.polygon p
    texts := sym.texts.filter fun t => !sel.text t }

/-- A symbol 10 with two pins, two circles, a polygon and a text. -/
def symbolFull : Symbol :=
  { uuid := 10
    pins := [pinA, pinA1]
    circles := [circle2, ⟨6, "sym_outlines", 3, false, true, ⟨0, 0⟩, 2⟩]
    polygons := [polygon3]
    texts := [text4] }

/-- The selection of the pin "A", the circle 2 and the text 4. -/
def selectionSome : Selection :=
  { pin := fun p => p.uuid == 1
    circle := fun c => c.uuid == 2
    polygon := fun _ => false
    text := fun _ => true }

/-- The selected items of `symbolFull` under `selectionSome`. -/
def itemsSome : SelectedItems := ⟨[pinA], [circle2], [], [text4]⟩

/-! ## `SymbolClipboardData`: serialization -/

/-- Modelled from the spec: the per-element serialization is not part of the
source files at hand. The content of a child node of the payload: a well-formed
element of one of the four variants, read back as it was written, or
something that is not a well-formed element. -/
inductive NodeContent where
  | pin (pin : SymbolPin)
  | polygon (polygon : Polygon)
  | circle (circle : Circle)
  | text (text : Text)
  | malformed
deriving DecidableEq, Repr

/-- Modelled from the spec: `SExpression` is not part of the source files at hand. A
child list of the payload: its tag and its content. -/
structure SExpressionChild where
  name : String
  content : NodeContent
deriving DecidableEq, Repr

/-- Modelled from the spec: `SExpression` is not part of the source files at hand. The
payload is a tagged list: a root tag and the child lists in order. -/
structure SExpression where
  name : String
  children : List SExpressionChild
deriving DecidableEq, Repr

/-- Errors of deserialization. -/
inductive FormatError where
  | malformedElement (tag : String)
  | unexpectedRootTag (tag : String)
deriving DecidableEq, Repr

/-- Modelled from the spec: `SerializableObjectList::serialize` is not part of
the source files at hand. It appends one child per element, in list order, under the
tag of the list. -/
def serializeList {α : Type} (tag : String) (encode : α → NodeContent) (l : List α)
    (root : SExpression) : SExpression :=
  { root with children := root.children ++ l.map fun a => ⟨tag, encode a⟩ }

/-- Modelled from the spec: the constructor `SerializableObjectList(node)` is
not part of the source files at hand. It reads, in order, every child of the node
that carries the tag of the list and throws on a child that is not a
well-formed element; children with other tags are skipped. -/
def loadList {α : Type} (tag : String) (decode : NodeContent → Option α) :
    List SExpressionChild → Except FormatError (List α)
  | [] => .ok []
  | c :: rest =>
    if c.name == tag then
      match decode c.content with
      | none => .error (.malformedElement tag)
      | some a =>
        match loadList tag decode rest with
        | .error e => .error e
        | .ok as => .ok (a :: as)
    else loadList tag decode rest

/-- Reads a pin out of a child node. -/
def NodeContent.toPin : NodeContent → Option SymbolPin
  | .pin p => some p
  | _ => none

/-- Reads a polygon out of a child node. -/
def NodeContent.toPolygon : NodeContent → Option Polygon
  | .polygon p => some p
  | _ => none

/-- Reads a circle out of a child node. -/
def NodeContent.toCircle : NodeContent → Option Circle
  | .circle c => some c
  | _ => none

/-- Reads a text out of a child node. -/
def NodeContent.toText : NodeContent → Option Text
  | .text t => some t
  | _ => none

/-- `SymbolClipboardData::serialize` (lines 68-73): the pins, the polygons, the
circles and the texts are appended to the root, in this order, and nothing
else is. -/
def SymbolClipboardData.serialize (data : SymbolClipboardData) (root : SExpression) :
    SExpression :=
  let root := serializeList "pin" .pin data.pins root
  let root := serializeList "polygon" .polygon data.polygons root
  let root := serializeList "circle" .circle data.circles root
  serializeList "text" .text data.texts root

/-- Modelled from the spec: `serializeToDomElement` of the base class is not
part of the source files at hand; it creates an empty list with the given root tag
and lets the object serialize itself into it. -/
def SymbolClipboardData.serializeToDomElement (data : SymbolClipboardData)
    (name : String) : SExpression :=
  data.serialize ⟨name, []⟩

/-- The payload of `SymbolClipboardData::toMimeData` (lines 53-62): the
serialization under the root tag "librepcb_clipboard_symbol". -/
def SymbolClipboardData.toMimeData (data : SymbolClipboardData) : SExpression :=
  data.serializeToDomElement "librepcb_clipboard_symbol"

/-- The constructor `SymbolClipboardData(const SExpression& node)` (lines
42-44): the initialiser list is `mPins(node), mPolygons(node), mCircles(node),
mTexts(node)`. The origin-symbol identifier is not initialised from the node;
`symbolUuid0` is the value the member has when it is left out of the
initialiser list. -/
def SymbolClipboardData.ofSExpression (symbolUuid0 : Uuid) (node : SExpression) :
    Except FormatError SymbolClipboardData :=
  match loadList "pin" NodeContent.toPin node.children with
  | .error e => .error e
  | .ok pins =>
    match loadList "polygon" NodeContent.toPolygon node.children with
    | .error e => .error e
    | .ok polygons =>
      match loadList "circle" NodeContent.toCircle node.children with
      | .error e => .error e
      | .ok circles =>
        match loadList "text" NodeContent.toText node.children with
        | .error e => .error e
        | .ok texts =>
          .ok { symbolUuid := symbolUuid0, pins := pins, polygons := polygons,
                circles := circles, texts := texts }

/-! ## `SymbolEditorState_Select`: the selection state machine -/

/-- The interaction state (`SubState`). -/
inductive SubState where
  | IDLE | SELECTING | MOVING
deriving DecidableEq, Repr

/-- What the handlers read from a `QGraphicsSceneMouseEvent`, positions
already converted by `Point::fromPx`: `scenePos()`,
`buttonDownScenePos(Qt::LeftButton)` and whether the Ctrl modifier is held. -/
structure MouseEvent where
  scenePos : Point
  buttonDownScenePos : Point
  ctrl : Bool
deriving DecidableEq, Repr

/-- A graphics item of the scene, standing for the element it shows. -/
inductive GraphicsItem where
  | pin (pin : SymbolPin)
  | circle (circle : Circle)
  | polygon (polygon : Polygon)
  | text (text : Text)
deriving DecidableEq, Repr

/-- What one call of `getItemsAtPosition` hands back: the returned count and
the four lists it filled, each with the topmost item first. -/
structure HitResult where
  count : Nat
  pins : List SymbolPin
  circles : List Circle
  polygons : List Polygon
  texts : List Text
deriving DecidableEq, Repr

/-- The number of candidates in the four lists of a hit-test result. -/
def HitResult.total (hit : HitResult) : Nat :=
  hit.pins.length + hit.circles.length + hit.polygons.length + hit.texts.length

/-- The pending "move selected elements" command
(`CmdMoveSelectedSymbolItems`): the gesture-start position it was created
with and its current target position. -/
structure CmdMoveSelectedSymbolItems where
  startPos : Point
  currentPos : Point
deriving DecidableEq, Repr

/-- Modelled from the spec: the constructor
`CmdMoveSelectedSymbolItems(context, startPos)` is not part of the source
files at hand; the new command captures the gesture-start position and has
not moved yet. -/
def CmdMoveSelectedSymbolItems.new (startPos : Point) : CmdMoveSelectedSymbolItems :=
  ⟨startPos, startPos⟩

/-- Modelled from the spec: `setCurrentPosition` is not part of the source
files at hand; it updates the target position of the command. -/
def CmdMoveSelectedSymbolItems.setCurrentPosition (cmd : CmdMoveSelectedSymbolItems)
    (pos : Point) : CmdMoveSelectedSymbolItems :=
  { cmd with currentPos := pos }

/-- Modelled from the spec: `Point::operator-` is not part of the source files
at hand; the vector between two positions, coordinate by coordinate. -/
def Point.sub (p q : Point) : Point := ⟨p.x - q.x, p.y - q.y⟩

instance : Sub Point := ⟨Point.sub⟩

/-- The total displacement of a move command: current position minus start
position. -/
def CmdMoveSelectedSymbolItems.displacement (cmd : CmdMoveSelectedSymbolItems) : Point :=
  cmd.currentPos - cmd.startPos

/-- A command handed to the undo stack by the state machine. A paste command
comes with the values `Uuid::createRandom()` returns while it executes. -/
inductive UndoCmd where
  | move (cmd : CmdMoveSelectedSymbolItems)
  | rotate (angle : Int)
  | remove
  | paste (data : SymbolClipboardData) (offset : Point) (rnd : Nat → Uuid)

/-- The angle `Angle::deg90()`, in degrees. -/
def deg90 : Int := 90

/-- What the state machine leaves to code outside of the source files at hand.

* `paste` are the collaborators of the paste command.
* `symbolUuid0` is the origin-symbol identifier of a snapshot built by the
  constructor from an `SExpression`.
* `toMimeDataThrows data` tells whether `data.toMimeData()` throws
  (`serializeToDomElement` "can throw", line 55).
* `execCmdThrows cmd sym` tells whether `UndoStack::execCmd` throws for the
  command on the symbol, apart from the failures of a paste itself.
* `itemsInRect sym p1 p2` are the selection flags that
  `symbolGraphicsItem.setSelectionRect` sets for the rectangle from `p1` to
  `p2`.
* `moveSelected` and `rotateSelected` are what the move and the rotate
  command do to the symbol for the given selection flags. -/
structure EditorEnv where
  paste : Env
  symbolUuid0 : Uuid
  toMimeDataThrows : SymbolClipboardData → Bool
  execCmdThrows : UndoCmd → Symbol → Bool
  itemsInRect : Symbol → Point → Point → GraphicsItem → Bool
  moveSelected : CmdMoveSelectedSymbolItems → (GraphicsItem → Bool) → Symbol → Symbol
  rotateSelected : Int → (GraphicsItem → Bool) → Symbol → Symbol

/-- The tool `SymbolEditorState_Select` together with the parts of its context
(`mContext`) that the handlers read or write.

* `mState`, `mCmdMoveSelectedItems`: the members of the class.
* `symbol`: `mContext.symbol`.
* `submitted`: the commands handed to `mContext.undoStack.execCmd`, oldest
  first, whether or not their execution succeeded.
* `selectionRect`: the rectangle last given to
  `graphicsScene.setSelectionRect`.
* `selected`: the selection flag (`isSelected()`) of every graphics item.
* `clipboard`: the clipboard content under the MIME type
  "application/x-librepcb-symbol", if any.
* `messageBoxes`: the number of `QMessageBox::critical` shown.
* `dialogs`: the items a properties dialog was opened for, oldest first. -/
structure EditorState where
  mState : SubState
  mCmdMoveSelectedItems : Option CmdMoveSelectedSymbolItems
  symbol : Symbol
  submitted : List UndoCmd
  selectionRect : Point × Point
  selected : GraphicsItem → Bool
  clipboard : Option SExpression
  messageBoxes : Nat
  dialogs : List GraphicsItem

/-- A failed assertion (`Q_ASSERT`): a programming error, not a recoverable
failure. -/
inductive ProgrammingError where
  | assertionFailed
deriving DecidableEq, Repr

/-- The selection flags read per element variant. -/
def selectionOf (selected : GraphicsItem → Bool) : Selection :=
  { pin := fun p => selected (.pin p)
    circle := fun c => selected (.circle c)
    polygon := fun p => selected (.polygon p)
    text := fun t => selected (.text t) }

/-- Modelled from the spec: `getSelectedPins()` and its three siblings of the
symbol graphics item are not part of the source files at hand; the selected
items are the elements of the symbol whose graphics item has its selection
flag set, in the order of the symbol. -/
def selectedItems (sym : Symbol) (selected : GraphicsItem → Bool) : SelectedItems :=
  { pins := sym.pins.filter fun p => selected (.pin p)
    circles := sym.circles.filter fun c => selected (.circle c)
    polygons := sym.polygons.filter fun p => selected (.polygon p)
    texts := sym.texts.filter fun t => selected (.text t) }

/-- Modelled from the spec: the commands other than paste are not part of the
source files at hand. What executing a command does to the symbol: Remove
takes the selected elements out, a paste is
`CmdPasteSymbolItems::performExecute`, and the geometry of move and rotate is
left to the collaborators. `none` stands for an exception. -/
def UndoCmd.execute (env : EditorEnv) (selected : GraphicsItem → Bool) (sym : Symbol) :
    UndoCmd → Option Symbol
  | .move cmd => some (env.moveSelected cmd selected sym)
  | .rotate angle => some (env.rotateSelected angle selected sym)
  | .remove => some (CmdRemoveSelectedSymbolItems.performExecute sym (selectionOf selected))
  | .paste data offset rnd =>
    match CmdPasteSymbolItems.performExecute env.paste rnd sym data offset with
    | (.ok (), s) => some s
    | (.error _, _) => none

/-- Modelled from the spec: `UndoStack::execCmd` is not part of the source
files at hand. It applies the command immediately; when the command fails the
failure propagates and the document is left exactly as it was. The first
component tells whether an exception was thrown. -/
def UndoStack.execCmd (env : EditorEnv) (cmd : UndoCmd) (st : EditorState) :
    Bool × EditorState :=
  let st1 := { st with submitted := st.submitted ++ [cmd] }
  if env.execCmdThrows cmd st.symbol then (true, st1)
  else
    match cmd.execute env st.selected st.symbol with
    | none => (true, st1)
    | some sym => (false, { st1 with symbol := sym })

/-- The pattern `try { mContext.undoStack.execCmd(cmd); } catch (const
Exception& e) { QMessageBox::critical(...); }` shared by the handlers. -/
def tryExecCmd (env : EditorEnv) (cmd : UndoCmd) (st : EditorState) : EditorState :=
  let r := UndoStack.execCmd env cmd st
  if r.1 then { r.2 with messageBoxes := r.2.messageBoxes + 1 } else r.2

/-- Modelled from the spec: the graphics scene is not part of the source files
at hand. `setSelected(flag)` on one graphics item sets the selection flag of
that item and of no other. -/
def setSelected (item : GraphicsItem) (flag : Bool) (st : EditorState) : EditorState :=
  { st with selected := fun i => if i = item then flag else st.selected i }

/-- `setSelectionRect` (lines 419-424): the scene shows the rectangle and the
symbol graphics item selects the items inside it. -/
def setSelectionRect (env : EditorEnv) (p1 p2 : Point) (st : EditorState) : EditorState :=
  { st with
    selectionRect := (p1, p2)
    selected := env.itemsInRect st.symbol p1 p2 }

/-- `clearSelectionRect` (lines 426-432): the selection rectangle becomes the
empty rectangle from `Point()` to `Point()`, and with
`updateItemsSelectionState` the scene gets an empty selection area.
Modelled from the spec: `setSelectionArea(QPainterPath())` is not part of the
source files at hand; it is the "clear selection" of the press transition, after
which no item is selected. -/
def clearSelectionRect (updateItemsSelectionState : Bool) (st : EditorState) :
    EditorState :=
  let st1 := { st with selectionRect := (Point.zero, Point.zero) }
  if updateItemsSelectionState then { st1 with selected := fun _ => false } else st1

/-- `processGraphicsSceneMouseMoved` (lines 72-91). The `MOVING` case has no
`return` and falls through to `default`. -/
def processGraphicsSceneMouseMoved (env : EditorEnv) (e : MouseEvent) (st : EditorState) :
    Bool × EditorState :=
  let startPos := e.buttonDownScenePos
  let currentPos := e.scenePos
  match st.mState with
  | .SELECTING => (true, setSelectionRect env startPos currentPos st)
  | .MOVING =>
    let cmd :=
      match st.mCmdMoveSelectedItems with
      | none => CmdMoveSelectedSymbolItems.new startPos
      | some c => c
    (false, { st with mCmdMoveSelectedItems := some (cmd.setCurrentPosition currentPos) })
  | .IDLE => (false, st)

/-- Lines 112-123 of the press handler: the topmost item under the cursor, or
nothing when the four lists are empty (the `Q_ASSERT(false)` branch). -/
def topMostItem (hit : HitResult) : Option GraphicsItem :=
  match hit.pins with
  | p :: _ => some (.pin p)
  | [] =>
    match hit.texts with
    | t :: _ => some (.text t)
    | [] =>
      match hit.polygons with
      | g :: _ => some (.polygon g)
      | [] =>
        match hit.circles with
        | c :: _ => some (.circle c)
        | [] => none

/-- `processGraphicsSceneLeftMouseButtonPressed` (lines 93-156); `hit` is what
`getItemsAtPosition` returns for the event position. A failed `Q_ASSERT` is an
error: without a topmost item line 124 would read through a null pointer. -/
def processGraphicsSceneLeftMouseButtonPressed (e : MouseEvent) (hit : HitResult)
    (st : EditorState) : Except ProgrammingError (Bool × EditorState) :=
  match st.mState with
  | .IDLE =>
    if hit.count = 0 then
      .ok (true, { clearSelectionRect true st with mState := .SELECTING })
    else
      match topMostItem hit with
      | none => .error .assertionFailed
      | some top =>
        let itemAlreadySelected := st.selected top
        let st1 :=
          if e.ctrl then setSelected top (!itemAlreadySelected) st
          else if !itemAlreadySelected then setSelected top true (clearSelectionRect true st)
          else st
        if st1.mCmdMoveSelectedItems.isSome then .error .assertionFailed
        else .ok (true, { st1 with mState := .MOVING })
  | _ => .ok (false, st)

/-- `processGraphicsSceneLeftMouseButtonReleased` (lines 158-181); the event is
unused (`Q_UNUSED(e)`). In `MOVING`, `mCmdMoveSelectedItems.take()` empties
the member before the command is handed to the undo stack. -/
def processGraphicsSceneLeftMouseButtonReleased (env : EditorEnv) (_e : MouseEvent)
    (st : EditorState) : Bool × EditorState :=
  match st.mState with
  | .SELECTING => (true, { clearSelectionRect false st with mState := .IDLE })
  | .MOVING =>
    let st1 :=
      match st.mCmdMoveSelectedItems with
      | some cmd => tryExecCmd env (.move cmd) { st with mCmdMoveSelectedItems := none }
      | none => st
    (true, { st1 with mState := .IDLE })
  | .IDLE => (false, st)

/-- `openPropertiesDialogOfItemAtPos` (lines 294-344); `hit` is what
`getItemsAtPosition` returns for the position. The modal dialog is recorded;
what the user does inside it is outside of the model. -/
def openPropertiesDialogOfItemAtPos (hit : HitResult) (st : EditorState) :
    Bool × EditorState :=
  match hit.pins with
  | p :: _ => (true, { st with dialogs := st.dialogs ++ [.pin p] })
  | [] =>
    match hit.texts with
    | t :: _ => (true, { st with dialogs := st.dialogs ++ [.text t] })
    | [] =>
      match hit.polygons with
      | g :: _ => (true, { st with dialogs := st.dialogs ++ [.polygon g] })
      | [] =>
        match hit.circles with
        | c :: _ => (true, { st with dialogs := st.dialogs ++ [.circle c] })
        | [] => (false, st)

/-- `processGraphicsSceneLeftMouseButtonDoubleClicked` (lines 183-198), for
Qt 5.3 or later (the block for older versions is not compiled). -/
def processGraphicsSceneLeftMouseButtonDoubleClicked (_e : MouseEvent) (hit : HitResult)
    (st : EditorState) : Bool × EditorState :=
  if st.mState = .IDLE then openPropertiesDialogOfItemAtPos hit st else (false, st)

/-- `rotateSelectedItems` (lines 399-408). -/
def rotateSelectedItems (env : EditorEnv) (angle : Int) (st : EditorState) :
    Bool × EditorState :=
  (true, tryExecCmd env (.rotate angle) st)

/-- `removeSelectedItems` (lines 410-417). -/
def removeSelectedItems (env : EditorEnv) (st : EditorState) : Bool × EditorState :=
  (true, tryExecCmd env .remove st)

/-- The action the user picks in the context menu (`menu.exec`), if any. -/
inductive MenuAction where
  | rotateCCW | remove | properties
deriving DecidableEq, Repr

/-- `openContextMenuAtPos` (lines 271-292); `action` is the user's choice. -/
def openContextMenuAtPos (env : EditorEnv) (action : Option MenuAction) (hit : HitResult)
    (st : EditorState) : Bool × EditorState :=
  match action with
  | some .rotateCCW => rotateSelectedItems env deg90 st
  | some .remove => removeSelectedItems env st
  | some .properties => openPropertiesDialogOfItemAtPos hit st
  | none => (false, st)

/-- `processGraphicsSceneRightMouseButtonReleased` (lines 200-207). -/
def processGraphicsSceneRightMouseButtonReleased (env : EditorEnv) (_e : MouseEvent)
    (action : Option MenuAction) (hit : HitResult) (st : EditorState) :
    Bool × EditorState :=
  if st.mState = .IDLE then openContextMenuAtPos env action hit st else (false, st)

/-- `copySelectedItemsToClipboard` (lines 346-380): inside the `try` block the
snapshot is built and handed to the clipboard; an exception is caught and
shown; the function returns `true` on both paths (line 379). -/
def copySelectedItemsToClipboard (env : EditorEnv) (st : EditorState) :
    Bool × EditorState :=
  let data := copySelectedItemsToClipboard_data st.symbol (selectedItems st.symbol st.selected)
  if env.toMimeDataThrows data then (true, { st with messageBoxes := st.messageBoxes + 1 })
  else (true, { st with clipboard := some data.toMimeData })

/-- Modelled from the spec: `SymbolClipboardData::fromMimeData` is not part of
the source files at hand; it yields no snapshot when the clipboard holds no
payload of the symbol MIME type. Otherwise it deserializes the payload:
a payload lacking the expected root tag (the one `toMimeData` writes) is
rejected with a format error, and a payload with that root tag is handed to the
constructor from an `SExpression`, which can throw. -/
def SymbolClipboardData.fromMimeData (symbolUuid0 : Uuid) :
    Option SExpression → Except FormatError (Option SymbolClipboardData)
  | none => .ok none
  | some node =>
    if node.name = "librepcb_clipboard_symbol" then
      match SymbolClipboardData.ofSExpression symbolUuid0 node with
      | .error e => .error e
      | .ok data => .ok (some data)
    else .error (.unexpectedRootTag node.name)

/-- `pasteFromClipboard` (lines 382-397); `posOffset` is what
`mapGlobalPosToScenePos(QCursor::pos(), true, true)` returns and `rnd` the
values of `Uuid::createRandom()` during the paste. -/
def pasteFromClipboard (env : EditorEnv) (posOffset : Point) (rnd : Nat → Uuid)
    (st : EditorState) : Bool × EditorState :=
  match SymbolClipboardData.fromMimeData env.symbolUuid0 st.clipboard with
  | .error _ => (true, { st with messageBoxes := st.messageBoxes + 1 })
  | .ok none => (true, st)
  | .ok (some data) => (true, tryExecCmd env (.paste data posOffset rnd) st)

/-- `processCut` (lines 209-220). -/
def processCut (env : EditorEnv) (st : EditorState) : Bool × EditorState :=
  match st.mState with
  | .IDLE =>
    let r := copySelectedItemsToClipboard env st
    if r.1 then removeSelectedItems env r.2 else (false, r.2)
  | _ => (false, st)

/-- `processCopy` (lines 222-229). -/
def processCopy (env : EditorEnv) (st : EditorState) : Bool × EditorState :=
  match st.mState with
  | .IDLE => copySelectedItemsToClipboard env st
  | _ => (false, st)

/-- `processPaste` (lines 231-238). -/
def processPaste (env : EditorEnv) (posOffset : Point) (rnd : Nat → Uuid)
    (st : EditorState) : Bool × EditorState :=
  match st.mState with
  | .IDLE => pasteFromClipboard env posOffset rnd st
  | _ => (false, st)

/-- `processRotateCw` (lines 240-247). -/
def processRotateCw (env : EditorEnv) (st : EditorState) : Bool × EditorState :=
  match st.mState with
  | .IDLE => rotateSelectedItems env (-deg90) st
  | _ => (false, st)

/-- `processRotateCcw` (lines 249-256). -/
def processRotateCcw (env : EditorEnv) (st : EditorState) : Bool × EditorState :=
  match st.mState with
  | .IDLE => rotateSelectedItems env deg90 st
  | _ => (false, st)

/-- `processRemove` (lines 258-265). -/
def processRemove (env : EditorEnv) (st : EditorState) : Bool × EditorState :=
  match st.mState with
  | .IDLE => removeSelectedItems env st
  | _ => (false, st)

/-- A child of a payload is malformed when it carries the tag of one of the
four element lists but is not a well-formed element of that variant. -/
def SExpressionChild.Malformed (c : SExpressionChild) : Prop :=
  (c.name = "pin" ∧ c.content.toPin = none) ∨
  (c.name = "polygon" ∧ c.content.toPolygon = none) ∨
  (c.name = "circle" ∧ c.content.toCircle = none) ∨
  (c.name = "text" ∧ c.content.toText = none)

/-- A payload with a foreign root tag holding one well-formed pin. -/
def foreignPayload : SExpression := ⟨"librepcb_symbol", [⟨"pin", .pin pinA⟩]⟩

/-- A payload with the root tag of `toMimeData` whose second child carries the
pin tag without being a pin. -/
def malformedPayload : SExpression :=
  ⟨"librepcb_clipboard_symbol", [⟨"pin", .pin pinA⟩, ⟨"pin", .malformed⟩]⟩

/-- The topmost candidate in the words of the specification: the first pin if
any pin was hit, otherwise the first text, otherwise the first polygon,
otherwise the first circle. -/
def topmostByPriority (hit : HitResult) : Option GraphicsItem :=
  (hit.pins.head?.map GraphicsItem.pin).orElse fun _ =>
    (hit.texts.head?.map GraphicsItem.text).orElse fun _ =>
      (hit.polygons.head?.map GraphicsItem.polygon).orElse fun _ =>
        hit.circles.head?.map GraphicsItem.circle

/-- The state after a run of pointer-move events, handled one after the
other. -/
def processMoves (env : EditorEnv) (moves : List MouseEvent) (st : EditorState) :
    EditorState :=
  moves.foldl (fun s e => (processGraphicsSceneMouseMoved env e s).2) st

/-- Collaborators of the editor under which nothing throws; move and rotate
leave the symbol alone and a selection rectangle selects nothing. -/
def editorEnvOk : EditorEnv :=
  { paste := envOk
    symbolUuid0 := 0
    toMimeDataThrows := fun _ => false
    execCmdThrows := fun _ _ => false
    itemsInRect := fun _ _ _ _ => false
    moveSelected := fun _ _ s => s
    rotateSelected := fun _ _ s => s }

/-- Collaborators of the editor under which `toMimeData` throws. -/
def editorEnvCopyFails : EditorEnv :=
  { editorEnvOk with toMimeDataThrows := fun _ => true }

/-- The tool in its initial state on `symbolFull`: idle, nothing selected,
nothing submitted, empty clipboard. -/
def idleState : EditorState :=
  { mState := .IDLE
    mCmdMoveSelectedItems := none
    symbol := symbolFull
    submitted := []
    selectionRect := (Point.zero, Point.zero)
    selected := fun _ => false
    clipboard := none
    messageBoxes := 0
    dialogs := [] }

/-- The idle tool on `symbolFull` with the pin "A" selected. -/
def idlePinASelected : EditorState :=
  { idleState with selected := fun i => decide (i = .pin pinA) }

/-- The tool in the middle of a drag: moving, with a pending move command. -/
def movingState : EditorState :=
  { idlePinASelected with
    mState := .MOVING
    mCmdMoveSelectedItems := some ⟨⟨0, 0⟩, ⟨5, 5⟩⟩ }

/-- The tool in the middle of a rubber-band selection. -/
def selectingState : EditorState :=
  { idleState with mState := .SELECTING, selectionRect := (⟨0, 0⟩, ⟨5, 5⟩) }

/-- A hit-test result without candidates. -/
def hitNothing : HitResult := ⟨0, [], [], [], []⟩

/-- A hit-test result with the pin "A" above a circle and a text. -/
def hitPinA : HitResult := ⟨3, [pinA], [circle2], [], [text4]⟩

/-- A hit-test result with a text above a circle. -/
def hitText : HitResult := ⟨2, [], [circle2], [], [text4]⟩

/-- A pointer event at (0, 0) without modifier. -/
def eventAtOrigin : MouseEvent := ⟨⟨0, 0⟩, ⟨0, 0⟩, false⟩

/-- A pointer event at (5, 5) of a gesture started at (0, 0). -/
def eventAt5 : MouseEvent := ⟨⟨5, 5⟩, ⟨0, 0⟩, false⟩

/-- A pointer event at (7, 7) of a gesture started at (0, 0). -/
def eventAt7 : MouseEvent := ⟨⟨7, 7⟩, ⟨0, 0⟩, false⟩

/-- A pointer event at (0, 0) with Ctrl held. -/
def eventCtrl : MouseEvent := ⟨⟨0, 0⟩, ⟨0, 0⟩, true⟩

/-! ## `BoardDesignRuleCheckSettings` -/

/-- The enumeration `BoardDesignRuleCheckSettings::AllowedSlots`. -/
inductive AllowedSlots where
  | None | SingleSegmentStraight | MultiSegmentStraight | Any
deriving DecidableEq, Repr

/-- Errors of the settings persistence. -/
inductive SettingsError where
  /-- The `RuntimeError` of line 68: "Unknown allowed slots value". -/
  | unknownAllowedSlots (value : String)
  /-- The child asked for by `getChild` does not exist. -/
  | missingChild (path : String)
  /-- The literal is not of the kind that is deserialized. -/
  | invalidValue
deriving DecidableEq, Repr

/-- `serialize<AllowedSlots>` (lines 38-53): the token written for a value.
The `default` branch is out of reach of the four enumerators. -/
def AllowedSlots.serialize : AllowedSlots → String
  | .None => "none"
  | .SingleSegmentStraight => "single_segment_straight"
  | .MultiSegmentStraight => "multi_segment_straight"
  | .Any => "any"

/-- `deserialize<AllowedSlots>` (lines 55-71) on the value `str` of the node. -/
def AllowedSlots.deserialize (str : String) : Except SettingsError AllowedSlots :=
  if str = "none" then .ok .None
  else if str = "single_segment_straight" then .ok .SingleSegmentStraight
  else if str = "multi_segment_straight" then .ok .MultiSegmentStraight
  else if str = "any" then .ok .Any
  else .error (.unknownAllowedSlots str)

/-- Modelled from the spec: the literal value held by a named child of the
settings node: a length in integer sub-units (nanometres), a boolean, or an
enumerated token. -/
inductive Literal where
  | length (nm : Int)
  | bool (b : Bool)
  | token (s : String)
deriving DecidableEq, Repr

/-- Modelled from the spec: `SExpression` is not part of the source files at
hand. The settings node is a keyed node tree: named children in order, each
holding one literal value. -/
structure SettingsNode where
  children : List (String × Literal)
deriving DecidableEq, Repr

/-- Modelled from the spec: `SExpression::appendChild(name, value)` appends a
child with the given name that holds the serialized value. -/
def SettingsNode.appendChild (root : SettingsNode) (name : String) (value : Literal) :
    SettingsNode :=
  ⟨root.children ++ [(name, value)]⟩

/-- Modelled from the spec: `node.getChild("key/@0")` is the value held by the
first child with the given name; it throws when there is none. -/
def SettingsNode.getChild (node : SettingsNode) (key : String) :
    Except SettingsError Literal :=
  match node.children.find? fun c => c.1 == key with
  | some c => .ok c.2
  | none => .error (.missingChild key)

/-- Modelled from the spec: `deserialize<UnsignedLength>` reads a length
literal and throws on a negative length or on another kind of literal. -/
def deserializeUnsignedLength : Literal → Except SettingsError Nat
  | .length (.ofNat n) => .ok n
  | _ => .error .invalidValue

/-- Modelled from the spec: `deserialize<bool>` reads a boolean literal. -/
def deserializeBool : Literal → Except SettingsError Bool
  | .bool b => .ok b
  | _ => .error .invalidValue

/-- Trailing zeros of a decimal text are dropped up to the digit after the
point; the argument is the text in reverse. -/
def chopTrailingZeros : List Char → List Char
  | [] => []
  | c :: rest =>
    if c = '0' then
      match rest with
      | [] => [c]
      | d :: _ => if d = '.' then c :: rest else chopTrailingZeros rest
    else c :: rest

/-- Modelled from the spec: the text of a length in millimetres
(`Length::toMmString`), a fixed-point decimal with six places whose trailing
zeros are dropped: 200000 nm is "0.2" and 1000000 nm is "1.0". -/
def toMmString (nm : Int) : String :=
  if nm = 0 then "0.0"
  else
    let digits := (toString nm.natAbs).toList
    let padded := List.replicate (7 - digits.length) '0' ++ digits
    let whole := padded.take (padded.length - 6)
    let places := padded.drop (padded.length - 6)
    let str := String.mk (chopTrailingZeros (whole ++ '.' :: places).reverse).reverse
    if nm < 0 then "-" ++ str else str

/-- Modelled from the spec: `SExpression::getValue()` of a child is the text
of the value it holds: the token itself, "true" or "false" for a boolean, and
the millimetre text for a length. -/
def Literal.getValue : Literal → String
  | .token s => s
  | .bool b => if b then "true" else "false"
  | .length nm => toMmString nm

/-- The `deserialize<AllowedSlots>` of lines 55-71 applied to a child:
`node.getValue()` is decoded, whatever kind of value the child holds. -/
def deserializeAllowedSlots (node : Literal) : Except SettingsError AllowedSlots :=
  AllowedSlots.deserialize node.getValue

/-- The value object `BoardDesignRuleCheckSettings`: fifteen unsigned lengths
in nanometres, two booleans and two `AllowedSlots`. -/
structure BoardDesignRuleCheckSettings where
  mMinCopperCopperClearance : Nat
  mMinCopperBoardClearance : Nat
  mMinCopperNpthClearance : Nat
  mMinDrillDrillClearance : Nat
  mMinDrillBoardClearance : Nat
  mMinSilkscreenStopmaskClearance : Nat
  mMinCopperWidth : Nat
  mMinPthAnnularRing : Nat
  mMinNpthDrillDiameter : Nat
  mMinPthDrillDiameter : Nat
  mMinNpthSlotWidth : Nat
  mMinPthSlotWidth : Nat
  mMinSilkscreenWidth : Nat
  mMinSilkscreenTextHeight : Nat
  mMinOutlineToolDiameter : Nat
  mBlindViasAllowed : Bool
  mBuriedViasAllowed : Bool
  mAllowedNpthSlots : AllowedSlots
  mAllowedPthSlots : AllowedSlots
deriving DecidableEq, Repr

/-- The default constructor (lines 77-97). -/
def BoardDesignRuleCheckSettings.default : BoardDesignRuleCheckSettings :=
  { mMinCopperCopperClearance := 200000
    mMinCopperBoardClearance := 300000
    mMinCopperNpthClearance := 250000
    mMinDrillDrillClearance := 350000
    mMinDrillBoardClearance := 500000
    mMinSilkscreenStopmaskClearance := 127000
    mMinCopperWidth := 200000
    mMinPthAnnularRing := 200000
    mMinNpthDrillDiameter := 300000
    mMinPthDrillDiameter := 300000
    mMinNpthSlotWidth := 1000000
    mMinPthSlotWidth := 700000
    mMinSilkscreenWidth := 150000
    mMinSilkscreenTextHeight := 800000
    mMinOutlineToolDiameter := 2000000
    mBlindViasAllowed := false
    mBuriedViasAllowed := false
    mAllowedNpthSlots := .SingleSegmentStraight
    mAllowedPthSlots := .SingleSegmentStraight }

/-- A child that reads as an unsigned length (one entry of the initialiser
list of lines 108-137). -/
def readLength (node : SettingsNode) (key : String) : Except SettingsError Nat :=
  match node.getChild key with
  | .error e => .error e
  | .ok v => deserializeUnsignedLength v

/-- A child that reads as a boolean (lines 138-141). -/
def readBool (node : SettingsNode) (key : String) : Except SettingsError Bool :=
  match node.getChild key with
  | .error e => .error e
  | .ok v => deserializeBool v

/-- A child that reads as an `AllowedSlots` (lines 142-145). -/
def readAllowedSlots (node : SettingsNode) (key : String) :
    Except SettingsError AllowedSlots :=
  match node.getChild key with
  | .error e => .error e
  | .ok v => deserializeAllowedSlots v

/-- The constructor `BoardDesignRuleCheckSettings(const SExpression& node)`
(lines 106-146): every member is read from the child with its key, in the
order of the initialiser list; the first failure is thrown. -/
def BoardDesignRuleCheckSettings.ofNode (node : SettingsNode) :
    Except SettingsError BoardDesignRuleCheckSettings := do
  let a1 ← readLength node "min_copper_copper_clearance"
  let a2 ← readLength node "min_copper_board_clearance"
  let a3 ← readLength node "min_copper_npth_clearance"
  let a4 ← readLength node "min_drill_drill_clearance"
  let a5 ← readLength node "min_drill_board_clearance"
  let a6 ← readLength node "min_silkscreen_stopmask_clearance"
  let a7 ← readLength node "min_copper_width"
  let a8 ← readLength node "min_annular_ring"
  let a9 ← readLength node "min_npth_drill_diameter"
  let a10 ← readLength node "min_pth_drill_diameter"
  let a11 ← readLength node "min_npth_slot_width"
  let a12 ← readLength node "min_pth_slot_width"
  let a13 ← readLength node "min_silkscreen_width"
  let a14 ← readLength node "min_silkscreen_text_height"
  let a15 ← readLength node "min_outline_tool_diameter"
  let b1 ← readBool node "blind_vias_allowed"
  let b2 ← readBool node "buried_vias_allowed"
  let s1 ← readAllowedSlots node "allowed_npth_slots"
  let s2 ← readAllowedSlots node "allowed_pth_slots"
  pure
    { mMinCopperCopperClearance := a1
      mMinCopperBoardClearance := a2
      mMinCopperNpthClearance := a3
      mMinDrillDrillClearance := a4
      mMinDrillBoardClearance := a5
      mMinSilkscreenStopmaskClearance := a6
      mMinCopperWidth := a7
      mMinPthAnnularRing := a8
      mMinNpthDrillDiameter := a9
      mMinPthDrillDiameter := a10
      mMinNpthSlotWidth := a11
      mMinPthSlotWidth := a12
      mMinSilkscreenWidth := a13
      mMinSilkscreenTextHeight := a14
      mMinOutlineToolDiameter := a15
      mBlindViasAllowed := b1
      mBuriedViasAllowed := b2
      mAllowedNpthSlots := s1
      mAllowedPthSlots := s2 }

/-- `BoardDesignRuleCheckSettings::serialize` (lines 155-196); the line breaks
(`ensureLineBreak`) are layout only and hold no value. -/
def BoardDesignRuleCheckSettings.serialize (s : BoardDesignRuleCheckSettings)
    (root : SettingsNode) : SettingsNode :=
  let root := root.appendChild "min_copper_copper_clearance" (.length s.mMinCopperCopperClearance)
  let root := root.appendChild "min_copper_board_clearance" (.length s.mMinCopperBoardClearance)
  let root := root.appendChild "min_copper_npth_clearance" (.length s.mMinCopperNpthClearance)
  let root := root.appendChild "min_drill_drill_clearance" (.length s.mMinDrillDrillClearance)
  let root := root.appendChild "min_drill_board_clearance" (.length s.mMinDrillBoardClearance)
  let root := root.appendChild "min_silkscreen_stopmask_clearance"
    (.length s.mMinSilkscreenStopmaskClearance)
  let root := root.appendChild "min_copper_width" (.length s.mMinCopperWidth)
  let root := root.appendChild "min_annular_ring" (.length s.mMinPthAnnularRing)
  let root := root.appendChild "min_npth_drill_diameter" (.length s.mMinNpthDrillDiameter)
  let root := root.appendChild "min_pth_drill_diameter" (.length s.mMinPthDrillDiameter)
  let root := root.appendChild "min_npth_slot_width" (.length s.mMinNpthSlotWidth)
  let root := root.appendChild "min_pth_slot_width" (.length s.mMinPthSlotWidth)
  let root := root.appendChild "min_silkscreen_width" (.length s.mMinSilkscreenWidth)
  let root := root.appendChild "min_silkscreen_text_height" (.length s.mMinSilkscreenTextHeight)
  let root := root.appendChild "min_outline_tool_diameter" (.length s.mMinOutlineToolDiameter)
  let root := root.appendChild "blind_vias_allowed" (.bool s.mBlindViasAllowed)
  let root := root.appendChild "buried_vias_allowed" (.bool s.mBuriedViasAllowed)
  let root := root.appendChild "allowed_npth_slots" (.token s.mAllowedNpthSlots.serialize)
  root.appendChild "allowed_pth_slots" (.token s.mAllowedPthSlots.serialize)

/-- `BoardDesignRuleCheckSettings::operator==` (lines 226-249). -/
def BoardDesignRuleCheckSettings.eq (a rhs : BoardDesignRuleCheckSettings) : Bool :=
  if a.mMinCopperCopperClearance != rhs.mMinCopperCopperClearance then false
  else if a.mMinCopperBoardClearance != rhs.mMinCopperBoardClearance then false
  else if a.mMinCopperNpthClearance != rhs.mMinCopperNpthClearance then false
  else if a.mMinDrillDrillClearance != rhs.mMinDrillDrillClearance then false
  else if a.mMinDrillBoardClearance != rhs.mMinDrillBoardClearance then false
  else if a.mMinSilkscreenStopmaskClearance != rhs.mMinSilkscreenStopmaskClearance then false
  else if a.mMinCopperWidth != rhs.mMinCopperWidth then false
  else if a.mMinPthAnnularRing != rhs.mMinPthAnnularRing then false
  else if a.mMinNpthDrillDiameter != rhs.mMinNpthDrillDiameter then false
  else if a.mMinPthDrillDiameter != rhs.mMinPthDrillDiameter then false
  else if a.mMinNpthSlotWidth != rhs.mMinNpthSlotWidth then false
  else if a.mMinPthSlotWidth != rhs.mMinPthSlotWidth then false
  else if a.mMinSilkscreenWidth != rhs.mMinSilkscreenWidth then false
  else if a.mMinSilkscreenTextHeight != rhs.mMinSilkscreenTextHeight then false
  else if a.mMinOutlineToolDiameter != rhs.mMinOutlineToolDiameter then false
  else if a.mBlindViasAllowed != rhs.mBlindViasAllowed then false
  else if a.mBuriedViasAllowed != rhs.mBuriedViasAllowed then false
  else if a.mAllowedNpthSlots != rhs.mAllowedNpthSlots then false
  else if a.mAllowedPthSlots != rhs.mAllowedPthSlots then false
  else true

/-! ## Runs of the state machine -/

/-- The constructor `SymbolEditorState_Select(context)` (lines 59-62): the tool
starts in `IDLE`, and the default-constructed `mCmdMoveSelectedItems` is null.
The context parts are taken from `ctx`. -/
def SymbolEditorState_Select.new (ctx : EditorState) : EditorState :=
  { ctx with mState := .IDLE, mCmdMoveSelectedItems := none }

/-- The destructor (lines 64-66): `Q_ASSERT(mCmdMoveSelectedItems.isNull())`. -/
def SymbolEditorState_Select.destroy (st : EditorState) : Except ProgrammingError Unit :=
  if st.mCmdMoveSelectedItems.isNone then .ok () else .error .assertionFailed

/-- One call of an event handler of the tool, together with what the
surroundings answer during the call (hit-test result, menu choice, cursor
offset, random identifiers). -/
inductive Event where
  | mouseMoved (e : MouseEvent)
  | leftMouseButtonPressed (e : MouseEvent) (hit : HitResult)
  | leftMouseButtonReleased (e : MouseEvent)
  | leftMouseButtonDoubleClicked (e : MouseEvent) (hit : HitResult)
  | rightMouseButtonReleased (e : MouseEvent) (action : Option MenuAction) (hit : HitResult)
  | cut
  | copy
  | paste (posOffset : Point) (rnd : Nat → Uuid)
  | rotateCw
  | rotateCcw
  | remove

/-- The handler called for an event. Only the press handler holds assertions
that can fail. -/
def processEvent (env : EditorEnv) (ev : Event) (st : EditorState) :
    Except ProgrammingError (Bool × EditorState) :=
  match ev with
  | .mouseMoved e => .ok (processGraphicsSceneMouseMoved env e st)
  | .leftMouseButtonPressed e hit => processGraphicsSceneLeftMouseButtonPressed e hit st
  | .leftMouseButtonReleased e => .ok (processGraphicsSceneLeftMouseButtonReleased env e st)
  | .leftMouseButtonDoubleClicked e hit =>
    .ok (processGraphicsSceneLeftMouseButtonDoubleClicked e hit st)
  | .rightMouseButtonReleased e action hit =>
    .ok (processGraphicsSceneRightMouseButtonReleased env e action hit st)
  | .cut => .ok (processCut env st)
  | .copy => .ok (processCopy env st)
  | .paste posOffset rnd => .ok (processPaste env posOffset rnd st)
  | .rotateCw => .ok (processRotateCw env st)
  | .rotateCcw => .ok (processRotateCcw env st)
  | .remove => .ok (processRemove env st)

/-- The state after a sequence of events, handled one after the other; a failed
assertion ends the run. -/
def processEvents (env : EditorEnv) : List Event → EditorState →
    Except ProgrammingError EditorState
  | [], st => .ok st
  | ev :: rest, st =>
    match processEvent env ev st with
    | .error err => .error err
    | .ok r => processEvents env rest r.2

/-- The hit-test contract for the presses of a run: the returned count is the
number of candidates in the four lists. -/
def Event.HitContract : Event → Prop
  | .leftMouseButtonPressed _ hit => hit.count = hit.total
  | _ => True

/-- Collaborators of the editor under which every command handed to the undo
stack throws. -/
def editorEnvExecFails : EditorEnv :=
  { editorEnvOk with execCmdThrows := fun _ _ => true }

/-- A hit-test result breaking the contract: a count of one with four empty
lists. -/
def hitInconsistent : HitResult := ⟨1, [], [], [], []⟩

/-- A drag of the pin "A" followed by a rubber-band selection, a copy and a
paste. -/
def gestureEvents : List Event :=
  [.leftMouseButtonPressed eventAtOrigin hitPinA, .mouseMoved eventAt5,
   .mouseMoved eventAt7, .leftMouseButtonReleased eventAt7,
   .leftMouseButtonPressed eventAtOrigin hitNothing, .mouseMoved eventAt5,
   .leftMouseButtonReleased eventAt5, .copy, .paste ⟨1, 1⟩ rndFrom100]

/-- All element identifiers of a symbol. -/
def Symbol.uuids (sym : Symbol) : List Uuid :=
  sym.pins.map SymbolPin.uuid ++ sym.circles.map Circle.uuid
    ++ sym.polygons.map Polygon.uuid ++ sym.texts.map Text.uuid

/-! ## Inputs for the identifier decision across variants and for cut and paste -/

/-- A circle carrying the identifier of the pin "A". -/
def circle1 : Circle := ⟨1, "sym_outlines", 3, false, true, ⟨0, 0⟩, 8⟩

/-- The symbol 10 holding only `circle1`: the identifier 1 is present in the
symbol, though not among its pins. -/
def symbolWithCircle1 : Symbol := ⟨10, [], [circle1], [], []⟩

/-- The idle tool on `symbolFull` with the pin "A", the circle 2 and the text
selected (the selection flags of `selectionSome`). -/
def idleSomeSelected : EditorState :=
  { idleState with
    selected := fun i =>
      match i with
      | .pin p => p.uuid == 1
      | .circle c => c.uuid == 2
      | .polygon _ => false
      | .text _ => true }

/-! # Theorems -/

/-! ## Lemmas on the loops -/

theorem pasteEach_forall₂ {α β : Type} (rnd : Nat → Uuid) (su du : Uuid)
    (contains : Uuid → Bool) (uuidOf : α → Uuid)
    (copy : Uuid → α → Except PasteError β) :
    ∀ (l : List α) (n : Nat) (bs : List β) (m : Nat),
      pasteEach rnd su du contains uuidOf copy l n = .ok (bs, m) →
      List.Forall₂ (fun a b => ∃ k,
        copy (chooseUuid rnd su du (contains (uuidOf a)) (uuidOf a) k).1 a = .ok b) l bs := by
  intro l
  induction l with
  | nil =>
    intro n bs m h
    simp only [pasteEach, Except.ok.injEq, Prod.mk.injEq] at h
    rw [← h.1]
    exact List.Forall₂.nil
  | cons a rest ih =>
    intro n bs m h
    simp only [pasteEach] at h
    split at h
    · exact absurd h (by simp)
    · rename_i b hb
      split at h
      · exact absurd h (by simp)
      · rename_i bs' m' hrest
        simp only [Except.ok.injEq, Prod.mk.injEq] at h
        rw [← h.1]
        exact List.Forall₂.cons ⟨n, hb⟩ (ih _ _ _ hrest)

theorem pasteEach_total {α β : Type} (rnd : Nat → Uuid) (su du : Uuid)
    (contains : Uuid → Bool) (uuidOf : α → Uuid)
    (copy : Uuid → α → Except PasteError β)
    (hcopy : ∀ u a, ∃ b, copy u a = .ok b) :
    ∀ (l : List α) (n : Nat),
      ∃ bs m, pasteEach rnd su du contains uuidOf copy l n = .ok (bs, m) := by
  intro l
  induction l with
  | nil => intro n; exact ⟨[], n, rfl⟩
  | cons a rest ih =>
    intro n
    obtain ⟨b, hb⟩ := hcopy (chooseUuid rnd su du (contains (uuidOf a)) (uuidOf a) n).1 a
    obtain ⟨bs, m, hrest⟩ :=
      ih (chooseUuid rnd su du (contains (uuidOf a)) (uuidOf a) n).2
    exact ⟨b :: bs, m, by simp only [pasteEach, hb, hrest]⟩

theorem pasteEach_error {α β : Type} (rnd : Nat → Uuid) (su du : Uuid)
    (contains : Uuid → Bool) (uuidOf : α → Uuid)
    (copy : Uuid → α → Except PasteError β) :
    ∀ (l : List α) (n : Nat) (e : PasteError),
      pasteEach rnd su du contains uuidOf copy l n = .error e →
      ∃ u a, a ∈ l ∧ copy u a = .error e := by
  intro l
  induction l with
  | nil => intro n e h; simp [pasteEach] at h
  | cons a rest ih =>
    intro n e h
    simp only [pasteEach] at h
    split at h
    · rename_i e' he
      simp only [Except.error.injEq] at h
      subst h
      exact ⟨_, a, List.mem_cons_self _ _, he⟩
    · split at h
      · rename_i e' hrest
        simp only [Except.error.injEq] at h
        subst h
        obtain ⟨u, a', ha', hc⟩ := ih _ _ hrest
        exact ⟨u, a', List.mem_cons_of_mem _ ha', hc⟩
      · exact absurd h (by simp)

theorem chooseUuid_fresh (rnd : Nat → Uuid) (su du : Uuid) (contained : Bool)
    (uuid : Uuid) (n : Nat) (h : contained = true ∨ su ≠ du) :
    chooseUuid rnd su du contained uuid n = (rnd n, n + 1) := by
  unfold chooseUuid
  rcases h with h | h
  · simp [h]
  · simp [h]

theorem chooseUuid_kept (rnd : Nat → Uuid) (su du : Uuid) (contained : Bool)
    (uuid : Uuid) (n : Nat) (hc : contained = false) (hs : su = du) :
    chooseUuid rnd su du contained uuid n = (uuid, n) := by
  unfold chooseUuid
  simp [hc, hs]

theorem pasteEach_allFresh {α β : Type} (rnd : Nat → Uuid) (su du : Uuid)
    (contains : Uuid → Bool) (uuidOf : α → Uuid)
    (copy : Uuid → α → Except PasteError β) (uuidB : β → Uuid)
    (huuid : ∀ u a b, copy u a = .ok b → uuidB b = u) :
    ∀ (l : List α) (n : Nat) (bs : List β) (m : Nat),
      (∀ a ∈ l, contains (uuidOf a) = true ∨ su ≠ du) →
      pasteEach rnd su du contains uuidOf copy l n = .ok (bs, m) →
      m = n + l.length ∧
        bs.map uuidB = (List.range l.length).map (fun i => rnd (n + i)) := by
  intro l
  induction l with
  | nil =>
    intro n bs m _ h
    simp only [pasteEach, Except.ok.injEq, Prod.mk.injEq] at h
    simp [← h.1, ← h.2]
  | cons a rest ih =>
    intro n bs m hall h
    simp only [pasteEach] at h
    rw [chooseUuid_fresh rnd su du _ _ n (hall a (List.mem_cons_self _ _))] at h
    split at h
    · exact absurd h (by simp)
    · rename_i b hb
      split at h
      · exact absurd h (by simp)
      · rename_i bs' m' hrest
        simp only [Except.ok.injEq, Prod.mk.injEq] at h
        obtain ⟨hm, hbs⟩ := ih _ _ _ (fun a' ha' => hall a' (List.mem_cons_of_mem _ ha')) hrest
        refine ⟨?_, ?_⟩
        · rw [← h.2, hm, List.length_cons]; omega
        · rw [← h.1, List.map_cons, hbs, huuid _ _ _ hb, List.length_cons, List.range_succ_eq_map,
            List.map_cons, List.map_map]
          simp only [Nat.add_zero, List.cons.injEq, true_and]
          apply List.map_congr_left
          intro i _
          simp only [Function.comp]
          congr 1
          omega

theorem pasteEach_allKept {α β : Type} (rnd : Nat → Uuid) (su du : Uuid)
    (contains : Uuid → Bool) (uuidOf : α → Uuid)
    (copy : Uuid → α → Except PasteError β) (hs : su = du) :
    ∀ (l : List α) (n : Nat) (bs : List β) (m : Nat),
      (∀ a ∈ l, contains (uuidOf a) = false) →
      pasteEach rnd su du contains uuidOf copy l n = .ok (bs, m) →
      m = n ∧ List.Forall₂ (fun a b => copy (uuidOf a) a = .ok b) l bs := by
  intro l
  induction l with
  | nil =>
    intro n bs m _ h
    simp only [pasteEach, Except.ok.injEq, Prod.mk.injEq] at h
    rw [← h.1, ← h.2]
    exact ⟨rfl, List.Forall₂.nil⟩
  | cons a rest ih =>
    intro n bs m hall h
    simp only [pasteEach] at h
    rw [chooseUuid_kept rnd su du _ _ n (hall a (List.mem_cons_self _ _)) hs] at h
    split at h
    · exact absurd h (by simp)
    · rename_i b hb
      split at h
      · exact absurd h (by simp)
      · rename_i bs' m' hrest
        simp only [Except.ok.injEq, Prod.mk.injEq] at h
        obtain ⟨hm, hbs⟩ := ih _ _ _ (fun a' ha' => hall a' (List.mem_cons_of_mem _ ha')) hrest
        rw [← h.1, ← h.2]
        exact ⟨hm, List.Forall₂.cons hb hbs⟩

/-! ## Lemmas on the name loop -/

theorem pinNameLoop_unused (v : String → Bool) (used : String → Bool) (left : Nat)
    (name : String) (h : used name = false) :
    pinNameLoop v used left name = .ok name := by
  cases left with
  | zero => rfl
  | succ k => simp [pinNameLoop, h]

theorem pinNameLoop_spec (v : String → Bool) (used : String → Bool) :
    ∀ (left : Nat) (name r : String), pinNameLoop v used left name = .ok r →
      ∃ k, k ≤ left ∧ r = incrementNumberInString^[k] name ∧
        (∀ j, j < k → used (incrementNumberInString^[j] name) = true) ∧
        (k < left → used r = false) := by
  intro left
  induction left with
  | zero =>
    intro name r h
    simp only [pinNameLoop, Except.ok.injEq] at h
    exact ⟨0, Nat.le_refl _, by simp [h], by intro j hj; omega, by intro hk; omega⟩
  | succ n ih =>
    intro name r h
    simp only [pinNameLoop] at h
    by_cases hu : used name = true
    · simp only [hu, if_true] at h
      by_cases hv : v (incrementNumberInString name) = true
      · simp only [hv, if_true] at h
        obtain ⟨k, hk, hr, hused, hfree⟩ := ih _ _ h
        refine ⟨k + 1, by omega, ?_, ?_, ?_⟩
        · rw [Function.iterate_succ_apply]; exact hr
        · intro j hj
          cases j with
          | zero => simpa using hu
          | succ i =>
            rw [Function.iterate_succ_apply]
            exact hused i (by omega)
        · intro hlt; exact hfree (by omega)
      · simp [hv] at h
    · simp only [hu] at h
      simp only [Bool.false_eq_true, if_false, Except.ok.injEq] at h
      refine ⟨0, by omega, by simp [h], by intro j hj; omega, ?_⟩
      intro _
      rw [← h]
      simpa using hu

theorem pinNameLoop_error (v : String → Bool) (used : String → Bool) :
    ∀ (left : Nat) (name : String) (e : PasteError),
      pinNameLoop v used left name = .error e →
      ∃ s, e = .invalidName s ∧ v s = false := by
  intro left
  induction left with
  | zero => intro name e h; simp [pinNameLoop] at h
  | succ n ih =>
    intro name e h
    simp only [pinNameLoop] at h
    by_cases hu : used name = true
    · simp only [hu, if_true] at h
      by_cases hv : v (incrementNumberInString name) = true
      · simp only [hv, if_true] at h
        exact ih _ _ h
      · simp only [hv] at h
        simp only [Bool.false_eq_true, if_false, Except.error.injEq] at h
        exact ⟨_, h.symm, by simpa using hv⟩
    · simp [hu] at h

theorem pinNameLoop_all_used (v : String → Bool) (used : String → Bool) :
    ∀ (left : Nat) (name : String),
      (∀ j, j < left → used (incrementNumberInString^[j] name) = true) →
      (∀ j, 1 ≤ j → j ≤ left → v (incrementNumberInString^[j] name) = true) →
      pinNameLoop v used left name = .ok (incrementNumberInString^[left] name) := by
  intro left
  induction left with
  | zero => intro name _ _; rfl
  | succ n ih =>
    intro name hused hvalid
    have h0 : used name = true := by simpa using hused 0 (by omega)
    have h1 : v (incrementNumberInString name) = true := by
      simpa using hvalid 1 (by omega) (by omega)
    simp only [pinNameLoop, h0, h1, if_true]
    rw [Function.iterate_succ_apply]
    apply ih
    · intro j hj
      have := hused (j + 1) (by omega)
      rwa [Function.iterate_succ_apply] at this
    · intro j hj1 hj2
      have := hvalid (j + 1) (by omega) (by omega)
      rwa [Function.iterate_succ_apply] at this

theorem pinNameLoop_least (v : String → Bool) (used : String → Bool)
    (left : Nat) (name r : String) (h : pinNameLoop v used left name = .ok r)
    (k : Nat) (hk : k ≤ left)
    (hfree : used (incrementNumberInString^[k] name) = false)
    (hused : ∀ j, j < k → used (incrementNumberInString^[j] name) = true) :
    r = incrementNumberInString^[k] name := by
  obtain ⟨k', hk', hr, hused', hfree'⟩ := pinNameLoop_spec v used left name r h
  rcases Nat.lt_trichotomy k' k with hlt | heq | hgt
  · have h1 := hused k' hlt
    have h2 := hfree' (by omega)
    rw [hr] at h2
    rw [h1] at h2
    exact absurd h2 (by simp)
  · rw [hr, heq]
  · have h1 := hused' k hgt
    rw [hfree] at h1
    exact absurd h1 (by simp)

/-! ## Lemmas on the command group -/

theorem eraseIdx_append_singleton {α : Type} (l : List α) (a : α) :
    (l ++ [a]).eraseIdx l.length = l := by
  induction l with
  | nil => rfl
  | cons x xs ih => simp [List.eraseIdx, ih]

theorem ChildCmd.undo_insert (sym : Symbol) (cmd : ChildCmd) :
    cmd.undo (cmd.insert sym).1 (cmd.insert sym).2 = sym := by
  cases cmd <;> simp [ChildCmd.undo, ChildCmd.insert, eraseIdx_append_singleton]

theorem group_error_restores (env : Env) (orig : Symbol) :
    ∀ (children : List ChildCmd) (done : List (ChildCmd × Nat)) (sym : Symbol),
      undoAll done sym = orig →
      ∀ (e : PasteError) (s : Symbol),
        UndoCommandGroup.performExecute env children done sym = (.error e, s) →
        s = orig := by
  intro children
  induction children with
  | nil =>
    intro done sym _ e s h
    simp [UndoCommandGroup.performExecute] at h
  | cons cmd rest ih =>
    intro done sym hinv e s h
    simp only [UndoCommandGroup.performExecute, ChildCmd.execute] at h
    by_cases ht : env.childThrows sym cmd = true
    · simp only [ht, if_true, Prod.mk.injEq] at h
      rw [← h.2, hinv]
    · simp only [ht] at h
      refine ih ((cmd, (cmd.insert sym).2) :: done) (cmd.insert sym).1 ?_ e s h
      simp only [undoAll, List.foldl_cons]
      rw [ChildCmd.undo_insert]
      exact hinv

theorem group_ok_insertAll (env : Env) :
    ∀ (children : List ChildCmd) (done : List (ChildCmd × Nat)) (sym s : Symbol),
      UndoCommandGroup.performExecute env children done sym = (.ok (), s) →
      s = insertAll children sym := by
  intro children
  induction children with
  | nil =>
    intro done sym s h
    simp only [UndoCommandGroup.performExecute, Prod.mk.injEq] at h
    simp [insertAll, h.2]
  | cons cmd rest ih =>
    intro done sym s h
    simp only [UndoCommandGroup.performExecute, ChildCmd.execute] at h
    by_cases ht : env.childThrows sym cmd = true
    · simp [ht] at h
    · simp only [ht] at h
      have := ih _ _ _ h
      simpa [insertAll] using this

theorem group_total (env : Env)
    (hno : ∀ s c, env.childThrows s c = false) :
    ∀ (children : List ChildCmd) (done : List (ChildCmd × Nat)) (sym : Symbol),
      UndoCommandGroup.performExecute env children done sym
        = (.ok (), insertAll children sym) := by
  intro children
  induction children with
  | nil => intro done sym; rfl
  | cons cmd rest ih =>
    intro done sym
    simp only [UndoCommandGroup.performExecute, ChildCmd.execute, hno]
    simpa [insertAll] using ih _ _

theorem insertAll_append (xs ys : List ChildCmd) (sym : Symbol) :
    insertAll (xs ++ ys) sym = insertAll ys (insertAll xs sym) := by
  simp [insertAll, List.foldl_append]

theorem insertAll_pins (ps : List SymbolPin) : ∀ (sym : Symbol),
    insertAll (ps.map .pinInsert) sym = { sym with pins := sym.pins ++ ps } := by
  induction ps with
  | nil => intro sym; simp [insertAll]
  | cons p rest ih =>
    intro sym
    have := ih (ChildCmd.insert sym (.pinInsert p)).1
    simp only [insertAll, List.map_cons, List.foldl_cons] at this ⊢
    rw [this]
    simp [ChildCmd.insert]

theorem insertAll_circles (cs : List Circle) : ∀ (sym : Symbol),
    insertAll (cs.map .circleInsert) sym = { sym with circles := sym.circles ++ cs } := by
  induction cs with
  | nil => intro sym; simp [insertAll]
  | cons c rest ih =>
    intro sym
    have := ih (ChildCmd.insert sym (.circleInsert c)).1
    simp only [insertAll, List.map_cons, List.foldl_cons] at this ⊢
    rw [this]
    simp [ChildCmd.insert]

theorem insertAll_polygons (ps : List Polygon) : ∀ (sym : Symbol),
    insertAll (ps.map .polygonInsert) sym = { sym with polygons := sym.polygons ++ ps } := by
  induction ps with
  | nil => intro sym; simp [insertAll]
  | cons p rest ih =>
    intro sym
    have := ih (ChildCmd.insert sym (.polygonInsert p)).1
    simp only [insertAll, List.map_cons, List.foldl_cons] at this ⊢
    rw [this]
    simp [ChildCmd.insert]

theorem insertAll_texts (ts : List Text) : ∀ (sym : Symbol),
    insertAll (ts.map .textInsert) sym = { sym with texts := sym.texts ++ ts } := by
  induction ts with
  | nil => intro sym; simp [insertAll]
  | cons t rest ih =>
    intro sym
    have := ih (ChildCmd.insert sym (.textInsert t)).1
    simp only [insertAll, List.map_cons, List.foldl_cons] at this ⊢
    rw [this]
    simp [ChildCmd.insert]

theorem insertAll_four (ps : List SymbolPin) (cs : List Circle) (gs : List Polygon)
    (ts : List Text) (sym : Symbol) :
    insertAll (ps.map .pinInsert ++ cs.map .circleInsert ++ gs.map .polygonInsert
        ++ ts.map .textInsert) sym
      = { uuid := sym.uuid, pins := sym.pins ++ ps, circles := sym.circles ++ cs,
          polygons := sym.polygons ++ gs, texts := sym.texts ++ ts } := by
  rw [insertAll_append, insertAll_append, insertAll_append, insertAll_pins,
    insertAll_circles, insertAll_polygons, insertAll_texts]

/-! ## Lemmas on `performExecute` -/

theorem appendChildren_ok {env : Env} {rnd : Nat → Uuid} {sym : Symbol}
    {data : SymbolClipboardData} {offset : Point} {children : List ChildCmd}
    (h : appendChildren env rnd sym data offset = .ok children) :
    ∃ ps n1 cs n2 gs n3 ts n4,
      pasteEach rnd sym.uuid data.symbolUuid sym.containsPin SymbolPin.uuid
        (copyPin env sym offset) data.pins 0 = .ok (ps, n1) ∧
      pasteEach rnd sym.uuid data.symbolUuid sym.containsCircle Circle.uuid
        (copyCircle offset) data.circles n1 = .ok (cs, n2) ∧
      pasteEach rnd sym.uuid data.symbolUuid sym.containsPolygon Polygon.uuid
        (copyPolygon offset) data.polygons n2 = .ok (gs, n3) ∧
      pasteEach rnd sym.uuid data.symbolUuid sym.containsText Text.uuid
        (copyText offset) data.texts n3 = .ok (ts, n4) ∧
      children = ps.map .pinInsert ++ cs.map .circleInsert ++ gs.map .polygonInsert
        ++ ts.map .textInsert := by
  unfold appendChildren at h
  split at h
  · exact absurd h (by simp)
  · rename_i ps n1 h1
    split at h
    · exact absurd h (by simp)
    · rename_i cs n2 h2
      split at h
      · exact absurd h (by simp)
      · rename_i gs n3 h3
        split at h
        · exact absurd h (by simp)
        · rename_i ts n4 h4
          simp only [Except.ok.injEq] at h
          exact ⟨ps, n1, cs, n2, gs, n3, ts, n4, h1, h2, h3, h4, h.symm⟩

theorem performExecute_ok {env : Env} {rnd : Nat → Uuid} {sym : Symbol}
    {data : SymbolClipboardData} {offset : Point} {s : Symbol}
    (h : CmdPasteSymbolItems.performExecute env rnd sym data offset = (.ok (), s)) :
    ∃ ps n1 cs n2 gs n3 ts n4,
      pasteEach rnd sym.uuid data.symbolUuid sym.containsPin SymbolPin.uuid
        (copyPin env sym offset) data.pins 0 = .ok (ps, n1) ∧
      pasteEach rnd sym.uuid data.symbolUuid sym.containsCircle Circle.uuid
        (copyCircle offset) data.circles n1 = .ok (cs, n2) ∧
      pasteEach rnd sym.uuid data.symbolUuid sym.containsPolygon Polygon.uuid
        (copyPolygon offset) data.polygons n2 = .ok (gs, n3) ∧
      pasteEach rnd sym.uuid data.symbolUuid sym.containsText Text.uuid
        (copyText offset) data.texts n3 = .ok (ts, n4) ∧
      s = { uuid := sym.uuid, pins := sym.pins ++ ps, circles := sym.circles ++ cs,
            polygons := sym.polygons ++ gs, texts := sym.texts ++ ts } := by
  unfold CmdPasteSymbolItems.performExecute at h
  split at h
  · simp at h
  · rename_i children hc
    obtain ⟨ps, n1, cs, n2, gs, n3, ts, n4, h1, h2, h3, h4, hch⟩ := appendChildren_ok hc
    refine ⟨ps, n1, cs, n2, gs, n3, ts, n4, h1, h2, h3, h4, ?_⟩
    rw [group_ok_insertAll env _ _ _ _ h, hch, insertAll_four]

theorem containsPin_eq_false {sym : Symbol} {u : Uuid} :
    sym.containsPin u = false ↔ u ∉ sym.pins.map SymbolPin.uuid := by
  simp only [Symbol.containsPin, List.any_eq_false, List.mem_map, not_exists, not_and,
    beq_iff_eq]

theorem containsCircle_eq_false {sym : Symbol} {u : Uuid} :
    sym.containsCircle u = false ↔ u ∉ sym.circles.map Circle.uuid := by
  simp only [Symbol.containsCircle, List.any_eq_false, List.mem_map, not_exists, not_and,
    beq_iff_eq]

theorem containsPolygon_eq_false {sym : Symbol} {u : Uuid} :
    sym.containsPolygon u = false ↔ u ∉ sym.polygons.map Polygon.uuid := by
  simp only [Symbol.containsPolygon, List.any_eq_false, List.mem_map, not_exists, not_and,
    beq_iff_eq]

theorem containsText_eq_false {sym : Symbol} {u : Uuid} :
    sym.containsText u = false ↔ u ∉ sym.texts.map Text.uuid := by
  simp only [Symbol.containsText, List.any_eq_false, List.mem_map, not_exists, not_and,
    beq_iff_eq]

theorem containsPinName_eq_false {sym : Symbol} {n : String} :
    sym.containsPinName n = false ↔ n ∉ sym.pins.map SymbolPin.name := by
  simp only [Symbol.containsPinName, List.any_eq_false, List.mem_map, not_exists, not_and,
    beq_iff_eq]

theorem copyPin_uuid {env : Env} {sym : Symbol} {offset : Point} {u : Uuid}
    {a b : SymbolPin} (h : copyPin env sym offset u a = .ok b) : b.uuid = u := by
  unfold copyPin at h
  split at h
  · exact absurd h (by simp)
  · simp only [Except.ok.injEq] at h
    rw [← h]

theorem copyCircle_uuid {offset : Point} {u : Uuid} {a b : Circle}
    (h : copyCircle offset u a = .ok b) : b.uuid = u := by
  simp only [copyCircle, Except.ok.injEq] at h
  rw [← h]

theorem copyPolygon_uuid {offset : Point} {u : Uuid} {a b : Polygon}
    (h : copyPolygon offset u a = .ok b) : b.uuid = u := by
  simp only [copyPolygon, Except.ok.injEq] at h
  rw [← h]

theorem copyText_uuid {offset : Point} {u : Uuid} {a b : Text}
    (h : copyText offset u a = .ok b) : b.uuid = u := by
  simp only [copyText, Except.ok.injEq] at h
  rw [← h]

theorem chooseUuid_decision (rnd : Nat → Uuid) (su du : Uuid) (contained : Bool)
    (orig : Uuid) (k : Nat) :
    IdDecision rnd (su = du ∧ contained = false) orig
      (chooseUuid rnd su du contained orig k).1 := by
  by_cases hk : su = du ∧ contained = false
  · rw [chooseUuid_kept rnd su du contained orig k hk.2 hk.1]
    exact ⟨fun _ => rfl, fun hn => absurd hk hn, fun _ => ⟨fun _ => hk, fun _ => rfl⟩⟩
  · have hf : contained = true ∨ su ≠ du := by
      by_cases hs : su = du
      · left
        cases hc : contained with
        | true => rfl
        | false => exact absurd ⟨hs, hc⟩ hk
      · right; exact hs
    rw [chooseUuid_fresh rnd su du contained orig k hf]
    refine ⟨fun h => absurd h hk, fun _ => ⟨k, rfl⟩, fun hfresh => ?_⟩
    exact ⟨fun h => absurd h (hfresh k), fun h => absurd h hk⟩

theorem pasteEach_decision {α β : Type} (rnd : Nat → Uuid) (su du : Uuid)
    (contains : Uuid → Bool) (uuidOf : α → Uuid)
    (copy : Uuid → α → Except PasteError β) (uuidB : β → Uuid)
    (huuid : ∀ u a b, copy u a = .ok b → uuidB b = u)
    (l : List α) (n : Nat) (bs : List β) (m : Nat)
    (h : pasteEach rnd su du contains uuidOf copy l n = .ok (bs, m)) :
    List.Forall₂ (fun a b =>
      IdDecision rnd (su = du ∧ contains (uuidOf a) = false) (uuidOf a) (uuidB b)) l bs := by
  refine (pasteEach_forall₂ rnd su du contains uuidOf copy l n bs m h).imp ?_
  intro a b ⟨k, hk⟩
  rw [huuid _ _ _ hk]
  exact chooseUuid_decision rnd su du _ _ k

theorem IdDecision.congr {rnd : Nat → Uuid} {keep keep' : Prop} {orig new : Uuid}
    (hiff : keep ↔ keep') (h : IdDecision rnd keep orig new) :
    IdDecision rnd keep' orig new :=
  ⟨fun hk => h.1 (hiff.2 hk), fun hk => h.2.1 (fun hk' => hk (hiff.1 hk')),
    fun hf => (h.2.2 hf).trans hiff⟩

theorem forall₂_map_eq {α β γ : Type} (f : β → γ) (g : α → γ) :
    ∀ (l : List α) (bs : List β), List.Forall₂ (fun a b => f b = g a) l bs →
      bs.map f = l.map g := by
  intro l bs h
  induction h with
  | nil => rfl
  | cons hab _ ih => simp [hab, ih]

theorem forall₂_kept {α β : Type} {rnd : Nat → Uuid} {keep : α → Prop}
    {uuidOf : α → Uuid} {uuidB : β → Uuid} {l : List α} {bs : List β}
    (h : List.Forall₂ (fun a b => IdDecision rnd (keep a) (uuidOf a) (uuidB b)) l bs)
    (hall : ∀ a ∈ l, keep a) : bs.map uuidB = l.map uuidOf := by
  induction h with
  | nil => rfl
  | @cons a b l' bs' hab _ ih =>
    rw [List.map_cons, List.map_cons, hab.1 (hall a (List.mem_cons_self _ _)),
      ih (fun a' ha' => hall a' (List.mem_cons_of_mem _ ha'))]

/-! ## The claims -/

/-- C1, as the code has it (presence is tested in the collection of the
element's own variant): after a successful
`CmdPasteSymbolItems::performExecute` the destination holds its former elements followed by one copy per snapshot
element, and for every pin, circle, polygon and text of the snapshot the copy
carries the original identifier when the destination symbol's identifier
equals the snapshot's origin-symbol identifier and the identifier is not yet
present in the destination's collection of that variant; in every other case
it carries an identifier drawn from the allocator; and when the allocator
never hands out the original identifier, the copy has the original identifier
if and only if that condition holds. In particular, pasting into the origin
symbol when none of the snapshot's identifiers is present preserves every
identifier. -/
theorem C1_identifier_decision (env : Env) (rnd : Nat → Uuid) (sym : Symbol)
    (data : SymbolClipboardData) (offset : Point) (s : Symbol)
    (h : CmdPasteSymbolItems.performExecute env rnd sym data offset = (.ok (), s)) :
    ∃ ps cs gs ts,
      s.pins = sym.pins ++ ps ∧ s.circles = sym.circles ++ cs ∧
      s.polygons = sym.polygons ++ gs ∧ s.texts = sym.texts ++ ts ∧
      List.Forall₂ (fun o c => IdDecision rnd
          (sym.uuid = data.symbolUuid ∧ o.uuid ∉ sym.pins.map SymbolPin.uuid)
          o.uuid c.uuid) data.pins ps ∧
      List.Forall₂ (fun o c => IdDecision rnd
          (sym.uuid = data.symbolUuid ∧ o.uuid ∉ sym.circles.map Circle.uuid)
          o.uuid c.uuid) data.circles cs ∧
      List.Forall₂ (fun o c => IdDecision rnd
          (sym.uuid = data.symbolUuid ∧ o.uuid ∉ sym.polygons.map Polygon.uuid)
          o.uuid c.uuid) data.polygons gs ∧
      List.Forall₂ (fun o c => IdDecision rnd
          (sym.uuid = data.symbolUuid ∧ o.uuid ∉ sym.texts.map Text.uuid)
          o.uuid c.uuid) data.texts ts ∧
      (sym.uuid = data.symbolUuid →
        (∀ o ∈ data.pins, o.uuid ∉ sym.pins.map SymbolPin.uuid) →
        (∀ o ∈ data.circles, o.uuid ∉ sym.circles.map Circle.uuid) →
        (∀ o ∈ data.polygons, o.uuid ∉ sym.polygons.map Polygon.uuid) →
        (∀ o ∈ data.texts, o.uuid ∉ sym.texts.map Text.uuid) →
        ps.map SymbolPin.uuid = data.pins.map SymbolPin.uuid ∧
        cs.map Circle.uuid = data.circles.map Circle.uuid ∧
        gs.map Polygon.uuid = data.polygons.map Polygon.uuid ∧
        ts.map Text.uuid = data.texts.map Text.uuid) := by
  obtain ⟨ps, n1, cs, n2, gs, n3, ts, n4, h1, h2, h3, h4, hs⟩ := performExecute_ok h
  have d1 : List.Forall₂ (fun (o c : SymbolPin) => IdDecision rnd
      (sym.uuid = data.symbolUuid ∧ o.uuid ∉ sym.pins.map SymbolPin.uuid)
      o.uuid c.uuid) data.pins ps :=
    (pasteEach_decision rnd _ _ _ _ _ SymbolPin.uuid (fun _ _ _ hc => copyPin_uuid hc)
      _ _ _ _ h1).imp
      (fun _ _ hd => hd.congr (and_congr Iff.rfl containsPin_eq_false))
  have d2 : List.Forall₂ (fun (o c : Circle) => IdDecision rnd
      (sym.uuid = data.symbolUuid ∧ o.uuid ∉ sym.circles.map Circle.uuid)
      o.uuid c.uuid) data.circles cs :=
    (pasteEach_decision rnd _ _ _ _ _ Circle.uuid (fun _ _ _ hc => copyCircle_uuid hc)
      _ _ _ _ h2).imp
      (fun _ _ hd => hd.congr (and_congr Iff.rfl containsCircle_eq_false))
  have d3 : List.Forall₂ (fun (o c : Polygon) => IdDecision rnd
      (sym.uuid = data.symbolUuid ∧ o.uuid ∉ sym.polygons.map Polygon.uuid)
      o.uuid c.uuid) data.polygons gs :=
    (pasteEach_decision rnd _ _ _ _ _ Polygon.uuid (fun _ _ _ hc => copyPolygon_uuid hc)
      _ _ _ _ h3).imp
      (fun _ _ hd => hd.congr (and_congr Iff.rfl containsPolygon_eq_false))
  have d4 : List.Forall₂ (fun (o c : Text) => IdDecision rnd
      (sym.uuid = data.symbolUuid ∧ o.uuid ∉ sym.texts.map Text.uuid)
      o.uuid c.uuid) data.texts ts :=
    (pasteEach_decision rnd _ _ _ _ _ Text.uuid (fun _ _ _ hc => copyText_uuid hc)
      _ _ _ _ h4).imp
      (fun _ _ hd => hd.congr (and_congr Iff.rfl containsText_eq_false))
  refine ⟨ps, cs, gs, ts, by rw [hs], by rw [hs], by rw [hs], by rw [hs], d1, d2, d3, d4, ?_⟩
  intro hsame hp hc hg ht
  exact ⟨forall₂_kept d1 (fun a ha => ⟨hsame, hp a ha⟩),
    forall₂_kept d2 (fun a ha => ⟨hsame, hc a ha⟩),
    forall₂_kept d3 (fun a ha => ⟨hsame, hg a ha⟩),
    forall₂_kept d4 (fun a ha => ⟨hsame, ht a ha⟩)⟩

/-- Witness of C1: pasting the four-variant snapshot into its empty origin
symbol succeeds. -/
theorem C1_identifier_decision_witness :
    ∃ s, CmdPasteSymbolItems.performExecute envOk rndFrom100 emptySymbol10 snapshot10 ⟨3, 4⟩
        = (.ok (), s) ∧
      ∃ ps cs gs ts,
        s.pins = emptySymbol10.pins ++ ps ∧ s.circles = emptySymbol10.circles ++ cs ∧
        s.polygons = emptySymbol10.polygons ++ gs ∧ s.texts = emptySymbol10.texts ++ ts ∧
        ps.map SymbolPin.uuid = [1] ∧ cs.map Circle.uuid = [2] ∧
        gs.map Polygon.uuid = [3] ∧ ts.map Text.uuid = [4] := by
  refine ⟨_, rfl, ?_⟩
  obtain ⟨ps, cs, gs, ts, h1, h2, h3, h4, _, _, _, _, hkeep⟩ :=
    C1_identifier_decision envOk rndFrom100 emptySymbol10 snapshot10 ⟨3, 4⟩ _ rfl
  obtain ⟨k1, k2, k3, k4⟩ := hkeep rfl (by decide) (by decide) (by decide) (by decide)
  exact ⟨ps, cs, gs, ts, h1, h2, h3, h4, k1, k2, k3, k4⟩

theorem copyPin_ok {env : Env} {sym : Symbol} {offset : Point} {u : Uuid}
    {a b : SymbolPin} (h : copyPin env sym offset u a = .ok b) :
    pinNameLoop env.validName sym.containsPinName 1000 a.name = .ok b.name ∧
      b.uuid = u ∧ b.position = a.position + offset ∧ b.length = a.length ∧
      b.rotation = a.rotation := by
  unfold copyPin at h
  split at h
  · exact absurd h (by simp)
  · rename_i name hn
    simp only [Except.ok.injEq] at h
    rw [← h]
    exact ⟨hn, rfl, rfl, rfl, rfl⟩

theorem containsPinName_eq_true {sym : Symbol} {n : String} :
    sym.containsPinName n = true ↔ n ∈ sym.pins.map SymbolPin.name := by
  simp [Symbol.containsPinName]

/-- C2: a pasted pin whose name is not used by a pin of the destination keeps
its name; a pasted pin whose name is used gets the name `inc^k(n)` for the
smallest `k` with `1 ≤ k ≤ 1000` such that `inc^k(n)` is not a pin name of the
destination, `inc` being `Toolbox::incrementNumberInString`. Pasting a pin
"A" into a symbol that contains a pin "A" yields "A1", and pasting the same
snapshot again yields "A2". -/
theorem C2_pin_name_decision :
    (∀ (env : Env) (rnd : Nat → Uuid) (sym : Symbol) (data : SymbolClipboardData)
        (offset : Point) (s : Symbol),
      CmdPasteSymbolItems.performExecute env rnd sym data offset = (.ok (), s) →
      ∃ ps, s.pins = sym.pins ++ ps ∧
        List.Forall₂ (fun (o c : SymbolPin) =>
          (o.name ∉ sym.pins.map SymbolPin.name → c.name = o.name) ∧
          (∀ k, 1 ≤ k → k ≤ 1000 →
            incrementNumberInString^[k] o.name ∉ sym.pins.map SymbolPin.name →
            (∀ j, j < k →
              incrementNumberInString^[j] o.name ∈ sym.pins.map SymbolPin.name) →
            c.name = incrementNumberInString^[k] o.name)) data.pins ps) ∧
    (∃ s1 s2,
      CmdPasteSymbolItems.performExecute envOk rndFrom100 symbolWithA snapshotA ⟨0, 0⟩
        = (.ok (), s1) ∧
      s1.pins.map SymbolPin.name = ["A", "A1"] ∧
      CmdPasteSymbolItems.performExecute envOk rndFrom200 s1 snapshotA ⟨0, 0⟩
        = (.ok (), s2) ∧
      s2.pins.map SymbolPin.name = ["A", "A1", "A2"]) := by
  refine ⟨?_, ⟨_, _, rfl, by decide, rfl, by decide⟩⟩
  intro env rnd sym data offset s h
  obtain ⟨ps, n1, cs, n2, gs, n3, ts, n4, h1, _, _, _, hs⟩ := performExecute_ok h
  refine ⟨ps, by rw [hs], ?_⟩
  refine (pasteEach_forall₂ _ _ _ _ _ _ _ _ _ _ h1).imp ?_
  intro o c ⟨u, hc⟩
  obtain ⟨hname, _⟩ := copyPin_ok hc
  refine ⟨fun hfree => ?_, fun k _ hk hfree hused => ?_⟩
  · rw [pinNameLoop_unused _ _ _ _ (containsPinName_eq_false.2 hfree)] at hname
    simp only [Except.ok.injEq] at hname
    exact hname.symm
  · exact pinNameLoop_least _ _ _ _ _ hname k hk (containsPinName_eq_false.2 hfree)
      (fun j hj => containsPinName_eq_true.2 (hused j hj))

/-- Witness of C2: the pin "A" pasted into a symbol holding a pin "A" is
named "A1", the result of one increment. -/
theorem C2_pin_name_decision_witness :
    ∃ s, CmdPasteSymbolItems.performExecute envOk rndFrom100 symbolWithA snapshotA ⟨0, 0⟩
        = (.ok (), s) ∧
      ∃ ps, s.pins = symbolWithA.pins ++ ps ∧
        List.Forall₂ (fun (_ c : SymbolPin) => c.name = "A1") [pinA] ps := by
  refine ⟨_, rfl, ?_⟩
  obtain ⟨ps, hps, hall⟩ :=
    C2_pin_name_decision.1 envOk rndFrom100 symbolWithA snapshotA ⟨0, 0⟩ _ rfl
  have hall' : List.Forall₂ _ [pinA] ps := hall
  cases hall' with
  | cons hab htl =>
    cases htl
    refine ⟨_, hps, .cons ?_ .nil⟩
    exact hab.2 1 (by decide) (by decide) (by decide)
      (by intro j hj; interval_cases j; decide)

theorem pinNameLoop_total (v : String → Bool) (used : String → Bool)
    (hv : ∀ s, v s = true) (left : Nat) (name : String) :
    ∃ r, pinNameLoop v used left name = .ok r := by
  cases h : pinNameLoop v used left name with
  | ok r => exact ⟨r, rfl⟩
  | error e =>
    obtain ⟨s, _, hs⟩ := pinNameLoop_error v used left name e h
    rw [hv s] at hs
    exact absurd hs (by simp)

theorem copyPin_total (env : Env) (hv : ∀ s, env.validName s = true) (sym : Symbol)
    (offset : Point) (u : Uuid) (a : SymbolPin) :
    ∃ b, copyPin env sym offset u a = .ok b := by
  obtain ⟨r, hr⟩ := pinNameLoop_total env.validName sym.containsPinName hv 1000 a.name
  simp only [copyPin, hr]
  exact ⟨_, rfl⟩

theorem appendChildren_total (env : Env) (hv : ∀ s, env.validName s = true)
    (rnd : Nat → Uuid) (sym : Symbol) (data : SymbolClipboardData) (offset : Point) :
    ∃ children, appendChildren env rnd sym data offset = .ok children := by
  obtain ⟨ps, n1, h1⟩ := pasteEach_total rnd sym.uuid data.symbolUuid sym.containsPin
    SymbolPin.uuid (copyPin env sym offset) (copyPin_total env hv sym offset) data.pins 0
  obtain ⟨cs, n2, h2⟩ := pasteEach_total rnd sym.uuid data.symbolUuid sym.containsCircle
    Circle.uuid (copyCircle offset) (fun _ _ => ⟨_, rfl⟩) data.circles n1
  obtain ⟨gs, n3, h3⟩ := pasteEach_total rnd sym.uuid data.symbolUuid sym.containsPolygon
    Polygon.uuid (copyPolygon offset) (fun _ _ => ⟨_, rfl⟩) data.polygons n2
  obtain ⟨ts, n4, h4⟩ := pasteEach_total rnd sym.uuid data.symbolUuid sym.containsText
    Text.uuid (copyText offset) (fun _ _ => ⟨_, rfl⟩) data.texts n3
  simp only [appendChildren, h1, h2, h3, h4]
  exact ⟨_, rfl⟩

theorem performExecute_total (env : Env) (hv : ∀ s, env.validName s = true)
    (hno : ∀ s c, env.childThrows s c = false)
    (rnd : Nat → Uuid) (sym : Symbol) (data : SymbolClipboardData) (offset : Point) :
    ∃ s, CmdPasteSymbolItems.performExecute env rnd sym data offset = (.ok (), s) := by
  obtain ⟨children, hc⟩ := appendChildren_total env hv rnd sym data offset
  simp only [CmdPasteSymbolItems.performExecute, hc, group_total env hno]
  exact ⟨_, rfl⟩

theorem crowdedSymbol_names (k : Nat) (hk : k ≤ 1000) :
    incrementNumberInString^[k] "A" ∈ crowdedSymbol.pins.map SymbolPin.name := by
  simp only [crowdedSymbol, List.map_map, List.mem_map, List.mem_range, Function.comp]
  exact ⟨k, by omega, rfl⟩

theorem crowdedSymbol_uuid : crowdedSymbol.containsPin 1 = false := by
  rw [containsPin_eq_false]
  simp only [crowdedSymbol, List.map_map, List.mem_map, List.mem_range, Function.comp,
    not_exists, not_and]
  intro (k : Nat) _ (hk : (1000 : Nat) + k = 1)
  omega

/-- C3 fails on the code: every one of the names "A", inc("A"), ...,
inc^1000("A") is used by a pin of the destination, yet pasting a pin "A"
reports success instead of a name-exhaustion error and appends a pin under
the name inc^1000("A"), which is still in use. -/
theorem C3_exhausted_search_reuses_name :
    (∀ k, k ≤ 1000 →
      incrementNumberInString^[k] "A" ∈ crowdedSymbol.pins.map SymbolPin.name) ∧
    ∃ s c,
      CmdPasteSymbolItems.performExecute envOk rndFrom100 crowdedSymbol snapshotA ⟨0, 0⟩
        = (.ok (), s) ∧
      s.pins = crowdedSymbol.pins ++ [c] ∧
      c.name = incrementNumberInString^[1000] "A" ∧
      c.name ∈ crowdedSymbol.pins.map SymbolPin.name := by
  refine ⟨crowdedSymbol_names, ?_⟩
  have hname : pinNameLoop envOk.validName crowdedSymbol.containsPinName 1000 pinA.name
      = .ok (incrementNumberInString^[1000] "A") :=
    pinNameLoop_all_used _ _ 1000 "A"
      (fun j hj => containsPinName_eq_true.2 (crowdedSymbol_names j (by omega)))
      (fun _ _ _ => rfl)
  obtain ⟨s, hs⟩ := performExecute_total envOk (fun _ => rfl) (fun _ _ => rfl)
    rndFrom100 crowdedSymbol snapshotA ⟨0, 0⟩
  obtain ⟨ps, n1, cs, n2, gs, n3, ts, n4, h1, _, _, _, hseq⟩ := performExecute_ok hs
  have hall : List.Forall₂ _ [pinA] ps := pasteEach_forall₂ _ _ _ _ _ _ _ _ _ _ h1
  cases hall with
  | cons hab htl =>
    cases htl
    obtain ⟨u, hc⟩ := hab
    obtain ⟨hn, _⟩ := copyPin_ok hc
    rw [hname] at hn
    simp only [Except.ok.injEq] at hn
    refine ⟨s, _, hs, by rw [hseq], hn.symm, ?_⟩
    rw [← hn]
    exact crowdedSymbol_names 1000 (Nat.le_refl _)

theorem copyPin_error {env : Env} {sym : Symbol} {offset : Point} {u : Uuid}
    {a : SymbolPin} {e : PasteError} (h : copyPin env sym offset u a = .error e) :
    ∃ n, e = .invalidName n ∧ env.validName n = false := by
  unfold copyPin at h
  split at h
  · rename_i e' he
    simp only [Except.error.injEq] at h
    subst h
    exact pinNameLoop_error _ _ _ _ _ he
  · exact absurd h (by simp)

theorem appendChildren_error {env : Env} {rnd : Nat → Uuid} {sym : Symbol}
    {data : SymbolClipboardData} {offset : Point} {e : PasteError}
    (h : appendChildren env rnd sym data offset = .error e) :
    ∃ n, e = .invalidName n ∧ env.validName n = false := by
  unfold appendChildren at h
  split at h
  · rename_i e' he
    simp only [Except.error.injEq] at h
    subst h
    obtain ⟨u, a, _, hc⟩ := pasteEach_error _ _ _ _ _ _ _ _ _ he
    exact copyPin_error hc
  · split at h
    · rename_i e' he
      obtain ⟨u, a, _, hc⟩ := pasteEach_error _ _ _ _ _ _ _ _ _ he
      simp [copyCircle] at hc
    · split at h
      · rename_i e' he
        obtain ⟨u, a, _, hc⟩ := pasteEach_error _ _ _ _ _ _ _ _ _ he
        simp [copyPolygon] at hc
      · split at h
        · rename_i e' he
          obtain ⟨u, a, _, hc⟩ := pasteEach_error _ _ _ _ _ _ _ _ _ he
          simp [copyText] at hc
        · exact absurd h (by simp)

theorem group_error_kind (env : Env) :
    ∀ (children : List ChildCmd) (done : List (ChildCmd × Nat)) (sym : Symbol)
      (e : PasteError) (s : Symbol),
      UndoCommandGroup.performExecute env children done sym = (.error e, s) →
      e = .childFailed := by
  intro children
  induction children with
  | nil => intro done sym e s h; simp [UndoCommandGroup.performExecute] at h
  | cons cmd rest ih =>
    intro done sym e s h
    simp only [UndoCommandGroup.performExecute, ChildCmd.execute] at h
    by_cases ht : env.childThrows sym cmd = true
    · simp only [ht, if_true, Prod.mk.injEq, Except.error.injEq] at h
      exact h.1.symm
    · simp only [ht] at h
      exact ih _ _ _ _ h

theorem performExecute_error_kind {env : Env} {rnd : Nat → Uuid} {sym : Symbol}
    {data : SymbolClipboardData} {offset : Point} {e : PasteError} {s : Symbol}
    (h : CmdPasteSymbolItems.performExecute env rnd sym data offset = (.error e, s)) :
    e = .childFailed ∨ ∃ n, e = .invalidName n ∧ env.validName n = false := by
  unfold CmdPasteSymbolItems.performExecute at h
  split at h
  · rename_i e' he
    simp only [Prod.mk.injEq, Except.error.injEq] at h
    rw [← h.1]
    exact Or.inr (appendChildren_error he)
  · exact Or.inl (group_error_kind env _ _ _ _ _ h)

/-- The name search of a pasted pin is bounded by 1000 increments and raises
no error of its own. After a successful paste every pasted pin is named `inc^k(n)` for
some `k ≤ 1000` such that the original name and all earlier candidates are
used by pins of the destination, and a name reached with fewer than 1000
increments is not used in the destination. Running out of attempts raises no
error: a paste fails only because a child command threw or because an
incremented name is not a valid identifier, and it succeeds whenever every
name is valid and no child throws. -/
theorem pasted_pin_name_bounded_search (env : Env) (rnd : Nat → Uuid) (sym : Symbol)
    (data : SymbolClipboardData) (offset : Point) :
    (∀ s, CmdPasteSymbolItems.performExecute env rnd sym data offset = (.ok (), s) →
      ∃ ps, s.pins = sym.pins ++ ps ∧
        List.Forall₂ (fun (o c : SymbolPin) => ∃ k, k ≤ 1000 ∧
          c.name = incrementNumberInString^[k] o.name ∧
          (∀ j, j < k →
            incrementNumberInString^[j] o.name ∈ sym.pins.map SymbolPin.name) ∧
          (k < 1000 → c.name ∉ sym.pins.map SymbolPin.name)) data.pins ps) ∧
    (∀ e s, CmdPasteSymbolItems.performExecute env rnd sym data offset = (.error e, s) →
      e = .childFailed ∨ ∃ n, e = .invalidName n ∧ env.validName n = false) ∧
    ((∀ n, env.validName n = true) → (∀ s c, env.childThrows s c = false) →
      ∃ s, CmdPasteSymbolItems.performExecute env rnd sym data offset = (.ok (), s)) := by
  refine ⟨?_, fun e s h => performExecute_error_kind h,
    fun hv hno => performExecute_total env hv hno rnd sym data offset⟩
  intro s h
  obtain ⟨ps, n1, cs, n2, gs, n3, ts, n4, h1, _, _, _, hs⟩ := performExecute_ok h
  refine ⟨ps, by rw [hs], ?_⟩
  refine (pasteEach_forall₂ _ _ _ _ _ _ _ _ _ _ h1).imp ?_
  intro o c ⟨u, hc⟩
  obtain ⟨hname, _⟩ := copyPin_ok hc
  obtain ⟨k, hk, hr, hused, hfree⟩ := pinNameLoop_spec _ _ _ _ _ hname
  exact ⟨k, hk, hr, fun j hj => containsPinName_eq_true.1 (hused j hj),
    fun hlt => containsPinName_eq_false.1 (hfree hlt)⟩

/-- C4 fails on the code: the destination holds one pin "A" and the snapshot
the two distinctly named pins "A" and "A1"; the paste succeeds, names the copy
of "A" after the unused name "A1" and leaves the copy of "A1" alone, so the
destination ends with two pins named "A1". -/
theorem C4_duplicate_pin_names :
    (symbolWithA.pins.map SymbolPin.name).Nodup ∧
    (snapshotAA1.pins.map SymbolPin.name).Nodup ∧
    ∃ s, CmdPasteSymbolItems.performExecute envOk rndFrom100 symbolWithA snapshotAA1 ⟨0, 0⟩
        = (.ok (), s) ∧
      s.pins.map SymbolPin.name = ["A", "A1", "A1"] ∧
      ¬ (s.pins.map SymbolPin.name).Nodup := by
  refine ⟨by decide, by decide, _, rfl, by decide, by decide⟩

theorem containsPin_eq_true {sym : Symbol} {u : Uuid} :
    sym.containsPin u = true ↔ u ∈ sym.pins.map SymbolPin.uuid := by
  simp [Symbol.containsPin]

theorem containsCircle_eq_true {sym : Symbol} {u : Uuid} :
    sym.containsCircle u = true ↔ u ∈ sym.circles.map Circle.uuid := by
  simp [Symbol.containsCircle]

theorem containsPolygon_eq_true {sym : Symbol} {u : Uuid} :
    sym.containsPolygon u = true ↔ u ∈ sym.polygons.map Polygon.uuid := by
  simp [Symbol.containsPolygon]

theorem containsText_eq_true {sym : Symbol} {u : Uuid} :
    sym.containsText u = true ↔ u ∈ sym.texts.map Text.uuid := by
  simp [Symbol.containsText]

theorem pasteEach_kept_uuids {α : Type} (rnd : Nat → Uuid) (su du : Uuid)
    (contains : Uuid → Bool) (uuidOf : α → Uuid)
    (copy : Uuid → α → Except PasteError α)
    (huuid : ∀ u a b, copy u a = .ok b → uuidOf b = u) (hs : su = du)
    (l : List α) (n : Nat) (bs : List α) (m : Nat)
    (hall : ∀ a ∈ l, contains (uuidOf a) = false)
    (h : pasteEach rnd su du contains uuidOf copy l n = .ok (bs, m)) :
    bs.map uuidOf = l.map uuidOf := by
  obtain ⟨_, hf⟩ := pasteEach_allKept rnd su du contains uuidOf copy hs l n bs m hall h
  exact forall₂_map_eq uuidOf uuidOf l bs (hf.imp fun a b hc => huuid _ _ _ hc)

theorem mem_uuids_of_kept {α : Type} (uuidOf : α → Uuid) (old new l : List α)
    (hkept : new.map uuidOf = l.map uuidOf) (a : α) (ha : a ∈ l) :
    uuidOf a ∈ (old ++ new).map uuidOf := by
  rw [List.map_append, hkept]
  exact List.mem_append_right _ (List.mem_map_of_mem _ ha)

/-- C5: let a first paste into the origin symbol, none of the snapshot's
identifiers being present, have succeeded (so that it kept every identifier).
A second successful paste of the same snapshot into the resulting symbol
leaves every list of the symbol as it was and appends the new copies behind
it, and the identifier of every new copy is a value of the allocator: the
copies take `rnd 0, rnd 1, ...` in the order pins, circles, polygons, texts.
Hence, when the allocator never returns an identifier of the snapshot, no new
copy has an identifier of the snapshot. -/
theorem C5_second_paste_allocates (env : Env) (rnd1 rnd2 : Nat → Uuid) (sym : Symbol)
    (data : SymbolClipboardData) (offset1 offset2 : Point) (s1 s2 : Symbol)
    (hsame : sym.uuid = data.symbolUuid)
    (hpins : ∀ o ∈ data.pins, o.uuid ∉ sym.pins.map SymbolPin.uuid)
    (hcircles : ∀ o ∈ data.circles, o.uuid ∉ sym.circles.map Circle.uuid)
    (hpolygons : ∀ o ∈ data.polygons, o.uuid ∉ sym.polygons.map Polygon.uuid)
    (htexts : ∀ o ∈ data.texts, o.uuid ∉ sym.texts.map Text.uuid)
    (h1 : CmdPasteSymbolItems.performExecute env rnd1 sym data offset1 = (.ok (), s1))
    (h2 : CmdPasteSymbolItems.performExecute env rnd2 s1 data offset2 = (.ok (), s2)) :
    ∃ ps cs gs ts,
      s2.uuid = s1.uuid ∧
      s2.pins = s1.pins ++ ps ∧ s2.circles = s1.circles ++ cs ∧
      s2.polygons = s1.polygons ++ gs ∧ s2.texts = s1.texts ++ ts ∧
      ps.map SymbolPin.uuid = (List.range data.pins.length).map (fun i => rnd2 i) ∧
      cs.map Circle.uuid = (List.range data.circles.length).map
        (fun i => rnd2 (data.pins.length + i)) ∧
      gs.map Polygon.uuid = (List.range data.polygons.length).map
        (fun i => rnd2 (data.pins.length + data.circles.length + i)) ∧
      ts.map Text.uuid = (List.range data.texts.length).map
        (fun i => rnd2 (data.pins.length + data.circles.length
          + data.polygons.length + i)) ∧
      ((∀ k, rnd2 k ∉ data.uuids) →
        ∀ u ∈ ps.map SymbolPin.uuid ++ cs.map Circle.uuid ++ gs.map Polygon.uuid
            ++ ts.map Text.uuid, u ∉ data.uuids) := by
  obtain ⟨ps1, m1, cs1, m2, gs1, m3, ts1, m4, p1, p2, p3, p4, hs1⟩ := performExecute_ok h1
  have k1 := pasteEach_kept_uuids rnd1 _ _ _ SymbolPin.uuid _
    (fun _ _ _ hc => copyPin_uuid hc) hsame _ _ _ _
    (fun a ha => containsPin_eq_false.2 (hpins a ha)) p1
  have k2 := pasteEach_kept_uuids rnd1 _ _ _ Circle.uuid _
    (fun _ _ _ hc => copyCircle_uuid hc) hsame _ _ _ _
    (fun a ha => containsCircle_eq_false.2 (hcircles a ha)) p2
  have k3 := pasteEach_kept_uuids rnd1 _ _ _ Polygon.uuid _
    (fun _ _ _ hc => copyPolygon_uuid hc) hsame _ _ _ _
    (fun a ha => containsPolygon_eq_false.2 (hpolygons a ha)) p3
  have k4 := pasteEach_kept_uuids rnd1 _ _ _ Text.uuid _
    (fun _ _ _ hc => copyText_uuid hc) hsame _ _ _ _
    (fun a ha => containsText_eq_false.2 (htexts a ha)) p4
  obtain ⟨ps, n1, cs, n2, gs, n3, ts, n4, q1, q2, q3, q4, hs2⟩ := performExecute_ok h2
  have c1 : ∀ a ∈ data.pins, s1.containsPin a.uuid = true ∨ s1.uuid ≠ data.symbolUuid :=
    fun a ha => Or.inl (containsPin_eq_true.2
      (by rw [hs1]; exact mem_uuids_of_kept SymbolPin.uuid _ _ _ k1 a ha))
  have c2 : ∀ a ∈ data.circles,
      s1.containsCircle a.uuid = true ∨ s1.uuid ≠ data.symbolUuid :=
    fun a ha => Or.inl (containsCircle_eq_true.2
      (by rw [hs1]; exact mem_uuids_of_kept Circle.uuid _ _ _ k2 a ha))
  have c3 : ∀ a ∈ data.polygons,
      s1.containsPolygon a.uuid = true ∨ s1.uuid ≠ data.symbolUuid :=
    fun a ha => Or.inl (containsPolygon_eq_true.2
      (by rw [hs1]; exact mem_uuids_of_kept Polygon.uuid _ _ _ k3 a ha))
  have c4 : ∀ a ∈ data.texts, s1.containsText a.uuid = true ∨ s1.uuid ≠ data.symbolUuid :=
    fun a ha => Or.inl (containsText_eq_true.2
      (by rw [hs1]; exact mem_uuids_of_kept Text.uuid _ _ _ k4 a ha))
  obtain ⟨e1, u1⟩ := pasteEach_allFresh rnd2 _ _ _ _ _ SymbolPin.uuid
    (fun _ _ _ hc => copyPin_uuid hc) _ _ _ _ c1 q1
  obtain ⟨e2, u2⟩ := pasteEach_allFresh rnd2 _ _ _ _ _ Circle.uuid
    (fun _ _ _ hc => copyCircle_uuid hc) _ _ _ _ c2 q2
  obtain ⟨e3, u3⟩ := pasteEach_allFresh rnd2 _ _ _ _ _ Polygon.uuid
    (fun _ _ _ hc => copyPolygon_uuid hc) _ _ _ _ c3 q3
  obtain ⟨e4, u4⟩ := pasteEach_allFresh rnd2 _ _ _ _ _ Text.uuid
    (fun _ _ _ hc => copyText_uuid hc) _ _ _ _ c4 q4
  have w1 : ps.map SymbolPin.uuid = (List.range data.pins.length).map (fun i => rnd2 i) := by
    rw [u1]; simp
  have w2 : cs.map Circle.uuid = (List.range data.circles.length).map
      (fun i => rnd2 (data.pins.length + i)) := by
    rw [u2, e1]; simp
  have w3 : gs.map Polygon.uuid = (List.range data.polygons.length).map
      (fun i => rnd2 (data.pins.length + data.circles.length + i)) := by
    rw [u3, e2, e1]; simp
  have w4 : ts.map Text.uuid = (List.range data.texts.length).map
      (fun i => rnd2 (data.pins.length + data.circles.length
        + data.polygons.length + i)) := by
    rw [u4, e3, e2, e1]; simp
  refine ⟨ps, cs, gs, ts, by rw [hs2], by rw [hs2], by rw [hs2], by rw [hs2], by rw [hs2],
    w1, w2, w3, w4, ?_⟩
  intro hfresh u hu
  rw [w1, w2, w3, w4] at hu
  simp only [List.mem_append, List.mem_map, List.mem_range] at hu
  rcases hu with ((⟨i, _, rfl⟩ | ⟨i, _, rfl⟩) | ⟨i, _, rfl⟩) | ⟨i, _, rfl⟩ <;>
    exact hfresh _

/-- Witness of C5: the four-variant snapshot pasted twice into its empty
origin symbol. -/
theorem C5_second_paste_allocates_witness :
    CmdPasteSymbolItems.performExecute envOk rndFrom100 emptySymbol10 snapshot10 ⟨3, 4⟩
      = (.ok (), pastedOnce10) ∧
    ∃ s2,
      CmdPasteSymbolItems.performExecute envOk rndFrom200 pastedOnce10 snapshot10 ⟨6, 8⟩
        = (.ok (), s2) ∧
      ∃ ps cs gs ts,
        s2.pins = pastedOnce10.pins ++ ps ∧ s2.circles = pastedOnce10.circles ++ cs ∧
        s2.polygons = pastedOnce10.polygons ++ gs ∧ s2.texts = pastedOnce10.texts ++ ts ∧
        ps.map SymbolPin.uuid = [200] ∧ cs.map Circle.uuid = [201] ∧
        gs.map Polygon.uuid = [202] ∧ ts.map Text.uuid = [203] := by
  refine ⟨rfl, _, rfl, ?_⟩
  obtain ⟨ps, cs, gs, ts, _, a1, a2, a3, a4, w1, w2, w3, w4, _⟩ :=
    C5_second_paste_allocates envOk rndFrom100 rndFrom200 emptySymbol10 snapshot10
      ⟨3, 4⟩ ⟨6, 8⟩ pastedOnce10 _ rfl (by decide) (by decide) (by decide) (by decide)
      rfl rfl
  exact ⟨ps, cs, gs, ts, a1, a2, a3, a4, w1, w2, w3, w4⟩

theorem Path.translated_forall₂ (offset : Point) : ∀ (p : Path),
    List.Forall₂ (fun (v w : Vertex) => w.pos = v.pos + offset ∧ w.angle = v.angle)
      p (Path.translated p offset) := by
  intro p
  induction p with
  | nil => exact List.Forall₂.nil
  | cons v rest ih => exact List.Forall₂.cons ⟨rfl, rfl⟩ ih

theorem copyPin_copyOf {env : Env} {sym : Symbol} {offset : Point} {u : Uuid}
    {a b : SymbolPin} (h : copyPin env sym offset u a = .ok b) : PinCopyOf offset a b := by
  obtain ⟨_, _, hp, hl, hr⟩ := copyPin_ok h
  exact ⟨hp, hl, hr⟩

theorem copyCircle_copyOf {offset : Point} {u : Uuid} {a b : Circle}
    (h : copyCircle offset u a = .ok b) : CircleCopyOf offset a b := by
  simp only [copyCircle, Except.ok.injEq] at h
  rw [← h]
  exact ⟨rfl, rfl, rfl, rfl, rfl, rfl⟩

theorem copyPolygon_copyOf {offset : Point} {u : Uuid} {a b : Polygon}
    (h : copyPolygon offset u a = .ok b) : PolygonCopyOf offset a b := by
  simp only [copyPolygon, Except.ok.injEq] at h
  rw [← h]
  exact ⟨Path.translated_forall₂ offset a.path, rfl, rfl, rfl, rfl⟩

theorem copyText_copyOf {offset : Point} {u : Uuid} {a b : Text}
    (h : copyText offset u a = .ok b) : TextCopyOf offset a b := by
  simp only [copyText, Except.ok.injEq] at h
  rw [← h]
  exact ⟨rfl, rfl, rfl, rfl, rfl, rfl⟩

theorem pasteEach_rel {α β : Type} {rnd : Nat → Uuid} {su du : Uuid}
    {contains : Uuid → Bool} {uuidOf : α → Uuid}
    {copy : Uuid → α → Except PasteError β} (R : α → β → Prop)
    (hR : ∀ u a b, copy u a = .ok b → R a b)
    {l : List α} {n : Nat} {bs : List β} {m : Nat}
    (h : pasteEach rnd su du contains uuidOf copy l n = .ok (bs, m)) :
    List.Forall₂ R l bs :=
  (pasteEach_forall₂ rnd su du contains uuidOf copy l n bs m h).imp
    fun _ _ ⟨_, hc⟩ => hR _ _ _ hc

/-- C6: after a successful paste with offset `d` the destination holds its
former elements followed by the copies, one per snapshot element in snapshot
order, and every copy is its original translated by `d`: a pin's position, a
circle's centre and a text's position are the original plus `d`, and every
vertex of a polygon's path is translated by `d`; pin length and rotation;
circle layer, line width, fill, grab-area flag and diameter; polygon layer,
line width, fill, grab-area flag and per-vertex angles; text layer, content,
rotation, height and alignment are those of the original. -/
theorem C6_geometry_translated (env : Env) (rnd : Nat → Uuid) (sym : Symbol)
    (data : SymbolClipboardData) (d : Point) (s : Symbol)
    (h : CmdPasteSymbolItems.performExecute env rnd sym data d = (.ok (), s)) :
    ∃ ps cs gs ts,
      s.pins = sym.pins ++ ps ∧ s.circles = sym.circles ++ cs ∧
      s.polygons = sym.polygons ++ gs ∧ s.texts = sym.texts ++ ts ∧
      List.Forall₂ (PinCopyOf d) data.pins ps ∧
      List.Forall₂ (CircleCopyOf d) data.circles cs ∧
      List.Forall₂ (PolygonCopyOf d) data.polygons gs ∧
      List.Forall₂ (TextCopyOf d) data.texts ts := by
  obtain ⟨ps, n1, cs, n2, gs, n3, ts, n4, h1, h2, h3, h4, hs⟩ := performExecute_ok h
  exact ⟨ps, cs, gs, ts, by rw [hs], by rw [hs], by rw [hs], by rw [hs],
    pasteEach_rel (PinCopyOf d) (fun _ _ _ hc => copyPin_copyOf hc) h1,
    pasteEach_rel (CircleCopyOf d) (fun _ _ _ hc => copyCircle_copyOf hc) h2,
    pasteEach_rel (PolygonCopyOf d) (fun _ _ _ hc => copyPolygon_copyOf hc) h3,
    pasteEach_rel (TextCopyOf d) (fun _ _ _ hc => copyText_copyOf hc) h4⟩

/-- Witness of C6: the four-variant snapshot pasted with offset (3, 4). -/
theorem C6_geometry_translated_witness :
    CmdPasteSymbolItems.performExecute envOk rndFrom100 emptySymbol10 snapshot10 ⟨3, 4⟩
      = (.ok (), pastedOnce10) ∧
    ∃ ps cs gs ts,
      pastedOnce10.pins = emptySymbol10.pins ++ ps ∧
      pastedOnce10.circles = emptySymbol10.circles ++ cs ∧
      pastedOnce10.polygons = emptySymbol10.polygons ++ gs ∧
      pastedOnce10.texts = emptySymbol10.texts ++ ts ∧
      List.Forall₂ (PinCopyOf ⟨3, 4⟩) snapshot10.pins ps ∧
      List.Forall₂ (CircleCopyOf ⟨3, 4⟩) snapshot10.circles cs ∧
      List.Forall₂ (PolygonCopyOf ⟨3, 4⟩) snapshot10.polygons gs ∧
      List.Forall₂ (TextCopyOf ⟨3, 4⟩) snapshot10.texts ts :=
  ⟨rfl, C6_geometry_translated envOk rndFrom100 emptySymbol10 snapshot10 ⟨3, 4⟩
    pastedOnce10 rfl⟩

/-- C7: `performExecute` appends exactly one insertion command per snapshot
element, `|pins| + |circles| + |polygons| + |texts|` children in total: first
the pin insertions, then the circle, polygon and text insertions, each run in
snapshot order (the i-th child of a run inserts the copy of the i-th element
of that list). The appending loops complete whenever every name is valid.
The children belong to the one group that is the paste command, whose
execution is the execution of exactly these children. -/
theorem C7_one_child_per_element (env : Env) (rnd : Nat → Uuid) (sym : Symbol)
    (data : SymbolClipboardData) (d : Point) :
    ((∀ n, env.validName n = true) →
      ∃ children, appendChildren env rnd sym data d = .ok children) ∧
    (∀ children, appendChildren env rnd sym data d = .ok children →
      children.length = data.pins.length + data.circles.length
        + data.polygons.length + data.texts.length ∧
      (∃ ps cs gs ts,
        children = ps.map .pinInsert ++ cs.map .circleInsert
          ++ gs.map .polygonInsert ++ ts.map .textInsert ∧
        List.Forall₂ (PinCopyOf d) data.pins ps ∧
        List.Forall₂ (CircleCopyOf d) data.circles cs ∧
        List.Forall₂ (PolygonCopyOf d) data.polygons gs ∧
        List.Forall₂ (TextCopyOf d) data.texts ts) ∧
      CmdPasteSymbolItems.performExecute env rnd sym data d
        = UndoCommandGroup.performExecute env children [] sym) := by
  refine ⟨fun hv => appendChildren_total env hv rnd sym data d, ?_⟩
  intro children h
  obtain ⟨ps, n1, cs, n2, gs, n3, ts, n4, h1, h2, h3, h4, hc⟩ := appendChildren_ok h
  have r1 : List.Forall₂ (PinCopyOf d) data.pins ps :=
    pasteEach_rel (PinCopyOf d) (fun _ _ _ hc => copyPin_copyOf hc) h1
  have r2 : List.Forall₂ (CircleCopyOf d) data.circles cs :=
    pasteEach_rel (CircleCopyOf d) (fun _ _ _ hc => copyCircle_copyOf hc) h2
  have r3 : List.Forall₂ (PolygonCopyOf d) data.polygons gs :=
    pasteEach_rel (PolygonCopyOf d) (fun _ _ _ hc => copyPolygon_copyOf hc) h3
  have r4 : List.Forall₂ (TextCopyOf d) data.texts ts :=
    pasteEach_rel (TextCopyOf d) (fun _ _ _ hc => copyText_copyOf hc) h4
  refine ⟨?_, ⟨ps, cs, gs, ts, hc, r1, r2, r3, r4⟩, ?_⟩
  · rw [hc]
    simp only [List.length_append, List.length_map]
    rw [r1.length_eq, r2.length_eq, r3.length_eq, r4.length_eq]
  · simp only [CmdPasteSymbolItems.performExecute, h]

/-- Witness of C7: the four-variant snapshot yields four children. -/
theorem C7_one_child_per_element_witness :
    (∀ n, envOk.validName n = true) ∧
    ∃ children, appendChildren envOk rndFrom100 emptySymbol10 snapshot10 ⟨3, 4⟩
        = .ok children ∧ children.length = 1 + 1 + 1 + 1 := by
  refine ⟨fun _ => rfl, ?_⟩
  obtain ⟨children, hc⟩ :=
    (C7_one_child_per_element envOk rndFrom100 emptySymbol10 snapshot10 ⟨3, 4⟩).1
      (fun _ => rfl)
  exact ⟨children, hc,
    ((C7_one_child_per_element envOk rndFrom100 emptySymbol10 snapshot10 ⟨3, 4⟩).2
      children hc).1⟩

/-- C8: whenever `performExecute` reports a failure, be it an exception of
the name derivation while the children are appended or a child that throws
when the group executes (the children executed before it are then undone, the
last first), the destination symbol is exactly what it was before the paste:
same pins, circles, polygons and texts. -/
theorem C8_paste_all_or_nothing (env : Env) (rnd : Nat → Uuid) (sym : Symbol)
    (data : SymbolClipboardData) (d : Point) (e : PasteError) (s : Symbol)
    (h : CmdPasteSymbolItems.performExecute env rnd sym data d = (.error e, s)) :
    s = sym := by
  unfold CmdPasteSymbolItems.performExecute at h
  split at h
  · simp only [Prod.mk.injEq] at h
    exact h.2.symm
  · exact group_error_restores env sym _ [] sym rfl e s h

/-- Witness of C8: the circle insertion throws after the pin insertion was
executed, and the symbol is left empty as before. -/
theorem C8_paste_all_or_nothing_witness :
    ∃ s, CmdPasteSymbolItems.performExecute envCircleThrows rndFrom100 emptySymbol10
        snapshot10 ⟨3, 4⟩ = (.error .childFailed, s) ∧ s = emptySymbol10 :=
  ⟨_, rfl, C8_paste_all_or_nothing envCircleThrows rndFrom100 emptySymbol10 snapshot10
    ⟨3, 4⟩ .childFailed _ rfl⟩

/-! ## Lemmas on cut and paste -/

theorem foldl_append_pins (l : List SymbolPin) : ∀ (d : SymbolClipboardData),
    l.foldl (fun d p => { d with pins := d.pins ++ [p] }) d
      = { d with pins := d.pins ++ l } := by
  induction l with
  | nil => intro d; simp
  | cons p rest ih => intro d; simp [List.foldl_cons, ih]

theorem foldl_append_circles (l : List Circle) : ∀ (d : SymbolClipboardData),
    l.foldl (fun d c => { d with circles := d.circles ++ [c] }) d
      = { d with circles := d.circles ++ l } := by
  induction l with
  | nil => intro d; simp
  | cons p rest ih => intro d; simp [List.foldl_cons, ih]

theorem foldl_append_polygons (l : List Polygon) : ∀ (d : SymbolClipboardData),
    l.foldl (fun d p => { d with polygons := d.polygons ++ [p] }) d
      = { d with polygons := d.polygons ++ l } := by
  induction l with
  | nil => intro d; simp
  | cons p rest ih => intro d; simp [List.foldl_cons, ih]

theorem foldl_append_texts (l : List Text) : ∀ (d : SymbolClipboardData),
    l.foldl (fun d t => { d with texts := d.texts ++ [t] }) d
      = { d with texts := d.texts ++ l } := by
  induction l with
  | nil => intro d; simp
  | cons p rest ih => intro d; simp [List.foldl_cons, ih]

theorem copySelectedItemsToClipboard_data_eq (sym : Symbol) (items : SelectedItems) :
    copySelectedItemsToClipboard_data sym items
      = { symbolUuid := sym.uuid, pins := items.pins, polygons := items.polygons,
          circles := items.circles, texts := items.texts } := by
  simp [copySelectedItemsToClipboard_data, SymbolClipboardData.new, foldl_append_pins,
    foldl_append_circles, foldl_append_polygons, foldl_append_texts]

theorem Point.add_zero (p : Point) : p + (⟨0, 0⟩ : Point) = p := by
  show Point.add p ⟨0, 0⟩ = p
  simp [Point.add]

theorem Path.translated_zero (p : Path) : Path.translated p ⟨0, 0⟩ = p := by
  induction p with
  | nil => rfl
  | cons v rest ih =>
    simp only [Path.translated, List.map_cons] at ih ⊢
    rw [ih, Point.add_zero]

theorem pasteEach_identity {α : Type} (rnd : Nat → Uuid) (su du : Uuid)
    (contains : Uuid → Bool) (uuidOf : α → Uuid)
    (copy : Uuid → α → Except PasteError α) (hs : su = du) :
    ∀ (l : List α) (n : Nat),
      (∀ a ∈ l, contains (uuidOf a) = false) →
      (∀ a ∈ l, copy (uuidOf a) a = .ok a) →
      pasteEach rnd su du contains uuidOf copy l n = .ok (l, n) := by
  intro l
  induction l with
  | nil => intro n _ _; rfl
  | cons a rest ih =>
    intro n hall hcopy
    simp only [pasteEach]
    rw [chooseUuid_kept rnd su du _ _ n (hall a (List.mem_cons_self _ _)) hs]
    simp only [hcopy a (List.mem_cons_self _ _)]
    rw [ih n (fun a' ha' => hall a' (List.mem_cons_of_mem _ ha'))
      (fun a' ha' => hcopy a' (List.mem_cons_of_mem _ ha'))]

theorem not_mem_map_filter_not {α β : Type} (f : α → β) (p : α → Bool) (l : List α)
    (hnodup : (l.map f).Nodup) (a : α) (ha : a ∈ l) (hp : p a = true) :
    f a ∉ (l.filter fun x => !p x).map f := by
  intro hmem
  obtain ⟨q, hq, hfq⟩ := List.mem_map.1 hmem
  obtain ⟨hql, hqp⟩ := List.mem_filter.1 hq
  have heq : q = a := List.inj_on_of_nodup_map hnodup hql ha hfq
  rw [heq, hp] at hqp
  exact absurd hqp (by simp)

theorem filter_not_append_perm {α : Type} (p : α → Bool) (l sel : List α)
    (hsel : sel.Perm (l.filter p)) : ((l.filter fun x => !p x) ++ sel).Perm l := by
  refine (List.Perm.append_left _ hsel).trans ?_
  exact List.perm_append_comm.trans (List.filter_append_perm p l)

theorem copyPin_identity (env : Env) (dest : Symbol) (a : SymbolPin)
    (hname : dest.containsPinName a.name = false) :
    copyPin env dest ⟨0, 0⟩ a.uuid a = .ok a := by
  simp only [copyPin, pinNameLoop_unused _ _ _ _ hname, Point.add_zero]

theorem copyCircle_identity (a : Circle) : copyCircle ⟨0, 0⟩ a.uuid a = .ok a := by
  simp only [copyCircle, Point.add_zero]

theorem copyPolygon_identity (a : Polygon) : copyPolygon ⟨0, 0⟩ a.uuid a = .ok a := by
  simp only [copyPolygon, Path.translated_zero]

theorem copyText_identity (a : Text) : copyText ⟨0, 0⟩ a.uuid a = .ok a := by
  simp only [copyText, Point.add_zero]

/-- The paste command on the snapshot object itself, without the transport
through the clipboard: take a symbol whose identifiers are pairwise distinct
within each variant and whose pin names are pairwise distinct, and any selection of its
elements. Capture the selected elements as `copySelectedItemsToClipboard`
does, remove them, and paste the captured snapshot with offset zero (no child
command throwing). The paste succeeds and the resulting symbol has the
identifier of the original and, in each variant, exactly the elements of the
original (as a permutation: what was cut is re-inserted behind what stayed),
so no element has a new identifier, no pin is renamed and no geometry
changed. -/
theorem snapshot_cut_paste_identity (env : Env) (rnd : Nat → Uuid) (sym : Symbol)
    (sel : Selection) (items : SelectedItems)
    (hno : ∀ s c, env.childThrows s c = false)
    (hpinIds : (sym.pins.map SymbolPin.uuid).Nodup)
    (hcircleIds : (sym.circles.map Circle.uuid).Nodup)
    (hpolygonIds : (sym.polygons.map Polygon.uuid).Nodup)
    (htextIds : (sym.texts.map Text.uuid).Nodup)
    (hnames : (sym.pins.map SymbolPin.name).Nodup)
    (hp : items.pins.Perm (sym.pins.filter sel.pin))
    (hc : items.circles.Perm (sym.circles.filter sel.circle))
    (hg : items.polygons.Perm (sym.polygons.filter sel.polygon))
    (ht : items.texts.Perm (sym.texts.filter sel.text)) :
    ∃ s,
      CmdPasteSymbolItems.performExecute env rnd
          (CmdRemoveSelectedSymbolItems.performExecute sym sel)
          (copySelectedItemsToClipboard_data sym items) ⟨0, 0⟩ = (.ok (), s) ∧
      s.uuid = sym.uuid ∧ s.pins.Perm sym.pins ∧ s.circles.Perm sym.circles ∧
      s.polygons.Perm sym.polygons ∧ s.texts.Perm sym.texts := by
  rw [copySelectedItemsToClipboard_data_eq]
  have mp : ∀ a ∈ items.pins, a ∈ sym.pins ∧ sel.pin a = true :=
    fun a ha => List.mem_filter.1 (hp.mem_iff.1 ha)
  have mc : ∀ a ∈ items.circles, a ∈ sym.circles ∧ sel.circle a = true :=
    fun a ha => List.mem_filter.1 (hc.mem_iff.1 ha)
  have mg : ∀ a ∈ items.polygons, a ∈ sym.polygons ∧ sel.polygon a = true :=
    fun a ha => List.mem_filter.1 (hg.mem_iff.1 ha)
  have mt : ∀ a ∈ items.texts, a ∈ sym.texts ∧ sel.text a = true :=
    fun a ha => List.mem_filter.1 (ht.mem_iff.1 ha)
  have q1 := pasteEach_identity rnd sym.uuid sym.uuid
    (CmdRemoveSelectedSymbolItems.performExecute sym sel).containsPin SymbolPin.uuid
    (copyPin env (CmdRemoveSelectedSymbolItems.performExecute sym sel) ⟨0, 0⟩) rfl
    items.pins 0
    (fun a ha => containsPin_eq_false.2
      (not_mem_map_filter_not SymbolPin.uuid sel.pin sym.pins hpinIds a (mp a ha).1 (mp a ha).2))
    (fun a ha => copyPin_identity env _ a (containsPinName_eq_false.2
      (not_mem_map_filter_not SymbolPin.name sel.pin sym.pins hnames a (mp a ha).1 (mp a ha).2)))
  have q2 := pasteEach_identity rnd sym.uuid sym.uuid
    (CmdRemoveSelectedSymbolItems.performExecute sym sel).containsCircle Circle.uuid
    (copyCircle ⟨0, 0⟩) rfl items.circles 0
    (fun a ha => containsCircle_eq_false.2
      (not_mem_map_filter_not Circle.uuid sel.circle sym.circles hcircleIds a
        (mc a ha).1 (mc a ha).2))
    (fun a _ => copyCircle_identity a)
  have q3 := pasteEach_identity rnd sym.uuid sym.uuid
    (CmdRemoveSelectedSymbolItems.performExecute sym sel).containsPolygon Polygon.uuid
    (copyPolygon ⟨0, 0⟩) rfl items.polygons 0
    (fun a ha => containsPolygon_eq_false.2
      (not_mem_map_filter_not Polygon.uuid sel.polygon sym.polygons hpolygonIds a
        (mg a ha).1 (mg a ha).2))
    (fun a _ => copyPolygon_identity a)
  have q4 := pasteEach_identity rnd sym.uuid sym.uuid
    (CmdRemoveSelectedSymbolItems.performExecute sym sel).containsText Text.uuid
    (copyText ⟨0, 0⟩) rfl items.texts 0
    (fun a ha => containsText_eq_false.2
      (not_mem_map_filter_not Text.uuid sel.text sym.texts htextIds a
        (mt a ha).1 (mt a ha).2))
    (fun a _ => copyText_identity a)
  have hchildren : appendChildren env rnd (CmdRemoveSelectedSymbolItems.performExecute sym sel)
      { symbolUuid := sym.uuid, pins := items.pins, polygons := items.polygons,
        circles := items.circles, texts := items.texts } ⟨0, 0⟩
      = .ok (items.pins.map .pinInsert ++ items.circles.map .circleInsert
          ++ items.polygons.map .polygonInsert ++ items.texts.map .textInsert) := by
    unfold appendChildren
    have hu : (CmdRemoveSelectedSymbolItems.performExecute sym sel).uuid = sym.uuid := rfl
    simp only [hu, q1, q2, q3, q4]
  have hexec : CmdPasteSymbolItems.performExecute env rnd
      (CmdRemoveSelectedSymbolItems.performExecute sym sel)
      { symbolUuid := sym.uuid, pins := items.pins, polygons := items.polygons,
        circles := items.circles, texts := items.texts } ⟨0, 0⟩
      = (.ok (), insertAll (items.pins.map .pinInsert ++ items.circles.map .circleInsert
          ++ items.polygons.map .polygonInsert ++ items.texts.map .textInsert)
          (CmdRemoveSelectedSymbolItems.performExecute sym sel)) := by
    unfold CmdPasteSymbolItems.performExecute
    rw [hchildren]
    exact group_total env hno _ _ _
  refine ⟨_, hexec, ?_⟩
  rw [insertAll_four]
  exact ⟨rfl, filter_not_append_perm sel.pin sym.pins items.pins hp,
    filter_not_append_perm sel.circle sym.circles items.circles hc,
    filter_not_append_perm sel.polygon sym.polygons items.polygons hg,
    filter_not_append_perm sel.text sym.texts items.texts ht⟩

/-! ## Lemmas on the serialization -/

theorem loadList_append_other {α β : Type} (tag tag' : String) (hne : (tag' == tag) = false)
    (decode : NodeContent → Option α) (encode : β → NodeContent) (l : List β) :
    ∀ (rest : List SExpressionChild),
      loadList tag decode (l.map (fun b => ⟨tag', encode b⟩) ++ rest)
        = loadList tag decode rest := by
  induction l with
  | nil => intro rest; rfl
  | cons b bs ih =>
    intro rest
    simp only [List.map_cons, List.cons_append, loadList, hne]
    exact ih rest

theorem loadList_append_same {α : Type} (tag : String)
    (decode : NodeContent → Option α) (encode : α → NodeContent)
    (hround : ∀ a, decode (encode a) = some a) (l : List α) :
    ∀ (rest : List SExpressionChild) (as : List α),
      loadList tag decode rest = .ok as →
      loadList tag decode (l.map (fun a => ⟨tag, encode a⟩) ++ rest) = .ok (l ++ as) := by
  induction l with
  | nil => intro rest as h; simpa using h
  | cons a bs ih =>
    intro rest as h
    simp only [List.map_cons, List.cons_append]
    rw [loadList]
    simp only [beq_self_eq_true, if_true, hround, ih rest as h]

theorem loadList_map_other {α β : Type} (tag tag' : String) (hne : (tag' == tag) = false)
    (decode : NodeContent → Option α) (encode : β → NodeContent) (l : List β) :
    loadList tag decode (l.map (fun b => ⟨tag', encode b⟩)) = .ok [] := by
  have h := loadList_append_other tag tag' hne decode encode l []
  rw [List.append_nil] at h
  rw [h]
  rfl

theorem loadList_map_same {α : Type} (tag : String)
    (decode : NodeContent → Option α) (encode : α → NodeContent)
    (hround : ∀ a, decode (encode a) = some a) (l : List α) :
    loadList tag decode (l.map (fun a => ⟨tag, encode a⟩)) = .ok l := by
  have h := loadList_append_same tag decode encode hround l [] [] rfl
  rw [List.append_nil, List.append_nil] at h
  exact h

theorem serialize_children (data : SymbolClipboardData) (name : String) :
    (data.serializeToDomElement name).children
      = data.pins.map (fun a => ⟨"pin", .pin a⟩)
        ++ (data.polygons.map (fun a => ⟨"polygon", .polygon a⟩)
        ++ (data.circles.map (fun a => ⟨"circle", .circle a⟩)
        ++ data.texts.map (fun a => ⟨"text", .text a⟩))) := by
  simp [SymbolClipboardData.serializeToDomElement, SymbolClipboardData.serialize,
    serializeList]

theorem ofSExpression_serialize (symbolUuid0 : Uuid) (data : SymbolClipboardData)
    (name : String) :
    SymbolClipboardData.ofSExpression symbolUuid0 (data.serializeToDomElement name)
      = .ok { data with symbolUuid := symbolUuid0 } := by
  have hpins : loadList "pin" NodeContent.toPin (data.serializeToDomElement name).children
      = .ok data.pins := by
    rw [serialize_children]
    have h := loadList_append_same "pin" NodeContent.toPin NodeContent.pin (fun _ => rfl)
      data.pins
      (data.polygons.map (fun a => ⟨"polygon", .polygon a⟩)
        ++ (data.circles.map (fun a => ⟨"circle", .circle a⟩)
        ++ data.texts.map (fun a => ⟨"text", .text a⟩))) []
      (by rw [loadList_append_other "pin" "polygon" (by decide),
            loadList_append_other "pin" "circle" (by decide),
            loadList_map_other "pin" "text" (by decide)])
    rw [List.append_nil] at h
    exact h
  have hpolygons : loadList "polygon" NodeContent.toPolygon
      (data.serializeToDomElement name).children = .ok data.polygons := by
    rw [serialize_children, loadList_append_other "polygon" "pin" (by decide)]
    have h := loadList_append_same "polygon" NodeContent.toPolygon NodeContent.polygon
      (fun _ => rfl) data.polygons
      (data.circles.map (fun a => ⟨"circle", .circle a⟩)
        ++ data.texts.map (fun a => ⟨"text", .text a⟩)) []
      (by rw [loadList_append_other "polygon" "circle" (by decide),
            loadList_map_other "polygon" "text" (by decide)])
    rw [List.append_nil] at h
    exact h
  have hcircles : loadList "circle" NodeContent.toCircle
      (data.serializeToDomElement name).children = .ok data.circles := by
    rw [serialize_children, loadList_append_other "circle" "pin" (by decide),
      loadList_append_other "circle" "polygon" (by decide)]
    have h := loadList_append_same "circle" NodeContent.toCircle NodeContent.circle
      (fun _ => rfl) data.circles
      (data.texts.map (fun a => ⟨"text", .text a⟩)) []
      (loadList_map_other "circle" "text" (by decide) _ _ _)
    rw [List.append_nil] at h
    exact h
  have htexts : loadList "text" NodeContent.toText
      (data.serializeToDomElement name).children = .ok data.texts := by
    rw [serialize_children, loadList_append_other "text" "pin" (by decide),
      loadList_append_other "text" "polygon" (by decide),
      loadList_append_other "text" "circle" (by decide)]
    exact loadList_map_same "text" NodeContent.toText NodeContent.text (fun _ => rfl) _
  simp only [SymbolClipboardData.ofSExpression, hpins, hpolygons, hcircles, htexts]

/-- C10 on the code: the round trip through the clipboard payload gives back
the four element lists, each with the same elements in the same order, but
not the origin-symbol identifier. `serialize` writes only the four lists and
the constructor from an `SExpression` reads only the four lists, so the
identifier of the result is whatever the constructor leaves in the member,
independent of the snapshot. Hence, whatever that value is, there are
snapshots that do not survive the round trip, such as one captured from the
symbol with the next identifier; and two snapshots that differ only in the
origin symbol have the same payload. -/
theorem C10_origin_identifier_lost :
    (∀ (symbolUuid0 : Uuid) (data : SymbolClipboardData),
      SymbolClipboardData.ofSExpression symbolUuid0 data.toMimeData
        = .ok { data with symbolUuid := symbolUuid0 }) ∧
    (∀ (symbolUuid0 : Uuid),
      SymbolClipboardData.ofSExpression symbolUuid0
          (SymbolClipboardData.toMimeData
            { snapshot10 with symbolUuid := symbolUuid0 + 1 })
        ≠ .ok { snapshot10 with symbolUuid := symbolUuid0 + 1 }) ∧
    SymbolClipboardData.toMimeData snapshot10
      = SymbolClipboardData.toMimeData { snapshot10 with symbolUuid := 11 } := by
  refine ⟨fun u data => ofSExpression_serialize u data _, fun u => ?_, rfl⟩
  rw [SymbolClipboardData.toMimeData, ofSExpression_serialize]
  intro h
  simp only [Except.ok.injEq, SymbolClipboardData.mk.injEq] at h
  exact Nat.succ_ne_self u h.1.symm

/-! ## Lemmas on deserialization -/

theorem loadList_malformed {α : Type} (tag : String) (decode : NodeContent → Option α) :
    ∀ (l : List SExpressionChild) (c : SExpressionChild), c ∈ l → c.name = tag →
      decode c.content = none → ∃ e, loadList tag decode l = .error e := by
  intro l
  induction l with
  | nil => intro c hc; simp at hc
  | cons x rest ih =>
    intro c hc hname hdec
    rw [loadList]
    by_cases hx : (x.name == tag) = true
    · simp only [hx, if_true]
      cases hd : decode x.content with
      | none => exact ⟨_, rfl⟩
      | some a =>
        simp only []
        rcases List.mem_cons.1 hc with heq | hmem
        · rw [heq, hd] at hdec
          exact absurd hdec (by simp)
        · obtain ⟨e, he⟩ := ih c hmem hname hdec
          exact ⟨e, by rw [he]⟩
    · simp only [hx]
      rcases List.mem_cons.1 hc with heq | hmem
      · rw [heq] at hname
        exact absurd (by simpa using hname) hx
      · simpa using ih c hmem hname hdec

theorem loadList_ok_filter {α : Type} (tag : String) (decode : NodeContent → Option α)
    (encode : α → NodeContent)
    (hdec : ∀ c a, decode c = some a → c = encode a) :
    ∀ (l : List SExpressionChild) (as : List α), loadList tag decode l = .ok as →
      as.map (fun a => (⟨tag, encode a⟩ : SExpressionChild))
        = l.filter fun c => c.name == tag := by
  intro l
  induction l with
  | nil =>
    intro as h
    simp only [loadList, Except.ok.injEq] at h
    simp [← h]
  | cons x rest ih =>
    intro as h
    rw [loadList] at h
    cases hx : (x.name == tag) with
    | true =>
      simp only [hx, if_true] at h
      cases hd : decode x.content with
      | none => simp [hd] at h
      | some a =>
        simp only [hd] at h
        cases hr : loadList tag decode rest with
        | error e => simp [hr] at h
        | ok bs =>
          simp only [hr, Except.ok.injEq] at h
          have hname : x.name = tag := by simpa using hx
          have hcont : x.content = encode a := hdec _ _ hd
          have hxeq : x = ⟨tag, encode a⟩ := by
            cases x
            simp only [SExpressionChild.mk.injEq]
            exact ⟨hname, hcont⟩
          rw [← h, List.map_cons, ih bs hr]
          simp only [List.filter_cons, hx, if_true]
          rw [hxeq]
    | false =>
      simp only [hx] at h
      simp only [List.filter_cons, hx]
      exact ih as (by simpa using h)

theorem loadList_total {α : Type} (tag : String) (decode : NodeContent → Option α) :
    ∀ (l : List SExpressionChild),
      (∀ c ∈ l, c.name = tag → decode c.content ≠ none) →
      ∃ as, loadList tag decode l = .ok as := by
  intro l
  induction l with
  | nil => intro _; exact ⟨[], rfl⟩
  | cons x rest ih =>
    intro hall
    obtain ⟨bs, hbs⟩ := ih (fun c hc => hall c (List.mem_cons_of_mem _ hc))
    rw [loadList]
    by_cases hx : (x.name == tag) = true
    · simp only [hx, if_true]
      cases hd : decode x.content with
      | none =>
        exact absurd hd (hall x (List.mem_cons_self _ _) (by simpa using hx))
      | some a =>
        simp only [hbs]
        exact ⟨_, rfl⟩
    · simp only [hx]
      exact ⟨bs, by simpa using hbs⟩

theorem toPin_eq_some {c : NodeContent} {p : SymbolPin} (h : c.toPin = some p) :
    c = .pin p := by
  cases c <;> simp [NodeContent.toPin] at h
  rw [h]

theorem toPolygon_eq_some {c : NodeContent} {p : Polygon} (h : c.toPolygon = some p) :
    c = .polygon p := by
  cases c <;> simp [NodeContent.toPolygon] at h
  rw [h]

theorem toCircle_eq_some {c : NodeContent} {p : Circle} (h : c.toCircle = some p) :
    c = .circle p := by
  cases c <;> simp [NodeContent.toCircle] at h
  rw [h]

theorem toText_eq_some {c : NodeContent} {p : Text} (h : c.toText = some p) :
    c = .text p := by
  cases c <;> simp [NodeContent.toText] at h
  rw [h]

theorem ofSExpression_ok {u0 : Uuid} {node : SExpression} {d : SymbolClipboardData}
    (h : SymbolClipboardData.ofSExpression u0 node = .ok d) :
    loadList "pin" NodeContent.toPin node.children = .ok d.pins ∧
    loadList "polygon" NodeContent.toPolygon node.children = .ok d.polygons ∧
    loadList "circle" NodeContent.toCircle node.children = .ok d.circles ∧
    loadList "text" NodeContent.toText node.children = .ok d.texts ∧
    d.symbolUuid = u0 := by
  unfold SymbolClipboardData.ofSExpression at h
  split at h
  · exact absurd h (by simp)
  · rename_i ps h1
    split at h
    · exact absurd h (by simp)
    · rename_i gs h2
      split at h
      · exact absurd h (by simp)
      · rename_i cs h3
        split at h
        · exact absurd h (by simp)
        · rename_i ts h4
          simp only [Except.ok.injEq] at h
          rw [← h]
          exact ⟨h1, h2, h3, h4, rfl⟩

theorem ofSExpression_of_lists {u0 : Uuid} {node : SExpression}
    {ps : List SymbolPin} {gs : List Polygon} {cs : List Circle} {ts : List Text}
    (h1 : loadList "pin" NodeContent.toPin node.children = .ok ps)
    (h2 : loadList "polygon" NodeContent.toPolygon node.children = .ok gs)
    (h3 : loadList "circle" NodeContent.toCircle node.children = .ok cs)
    (h4 : loadList "text" NodeContent.toText node.children = .ok ts) :
    SymbolClipboardData.ofSExpression u0 node
      = .ok { symbolUuid := u0, pins := ps, polygons := gs, circles := cs, texts := ts } := by
  simp only [SymbolClipboardData.ofSExpression, h1, h2, h3, h4]

/-- C11 fails on the code: a payload whose root tag is "librepcb_symbol", not
the "librepcb_clipboard_symbol" written by `toMimeData`, is deserialized into
a snapshot. -/
theorem C11_counterexample :
    foreignPayload.name ≠ (SymbolClipboardData.toMimeData snapshotA).name ∧
    (SymbolClipboardData.toMimeData snapshotA).name = "librepcb_clipboard_symbol" ∧
    SymbolClipboardData.ofSExpression 0 foreignPayload
      = .ok { symbolUuid := 0, pins := [pinA], polygons := [], circles := [], texts := [] } := by
  refine ⟨by decide, rfl, rfl⟩

/-- C11, as the code has it: the constructor from an `SExpression` fails with
a format error and yields no snapshot whenever a child carrying the tag of
one of the four element lists is malformed, and succeeds when there is no
such child. A snapshot it returns is never partial: each of its four lists
holds exactly the children with the tag of that list, in payload order. The
root tag is not inspected: the outcome is the same under every root tag. -/
theorem C11_deserialize_checks_elements_only (u0 : Uuid) (node : SExpression) :
    ((∃ c ∈ node.children, c.Malformed) →
      ∃ e, SymbolClipboardData.ofSExpression u0 node = .error e) ∧
    ((∀ c ∈ node.children, ¬ c.Malformed) →
      ∃ d, SymbolClipboardData.ofSExpression u0 node = .ok d) ∧
    (∀ d, SymbolClipboardData.ofSExpression u0 node = .ok d →
      d.pins.map (fun a => (⟨"pin", .pin a⟩ : SExpressionChild))
        = node.children.filter (fun c => c.name == "pin") ∧
      d.polygons.map (fun a => (⟨"polygon", .polygon a⟩ : SExpressionChild))
        = node.children.filter (fun c => c.name == "polygon") ∧
      d.circles.map (fun a => (⟨"circle", .circle a⟩ : SExpressionChild))
        = node.children.filter (fun c => c.name == "circle") ∧
      d.texts.map (fun a => (⟨"text", .text a⟩ : SExpressionChild))
        = node.children.filter (fun c => c.name == "text")) ∧
    (∀ name, SymbolClipboardData.ofSExpression u0 { node with name := name }
      = SymbolClipboardData.ofSExpression u0 node) := by
  refine ⟨?_, ?_, ?_, fun _ => rfl⟩
  · rintro ⟨c, hc, hm⟩
    cases hres : SymbolClipboardData.ofSExpression u0 node with
    | error e => exact ⟨e, rfl⟩
    | ok d =>
      obtain ⟨h1, h2, h3, h4, _⟩ := ofSExpression_ok hres
      rcases hm with ⟨hn, hd⟩ | ⟨hn, hd⟩ | ⟨hn, hd⟩ | ⟨hn, hd⟩
      · obtain ⟨e, he⟩ := loadList_malformed "pin" NodeContent.toPin _ c hc hn hd
        rw [he] at h1
        exact absurd h1 (by simp)
      · obtain ⟨e, he⟩ := loadList_malformed "polygon" NodeContent.toPolygon _ c hc hn hd
        rw [he] at h2
        exact absurd h2 (by simp)
      · obtain ⟨e, he⟩ := loadList_malformed "circle" NodeContent.toCircle _ c hc hn hd
        rw [he] at h3
        exact absurd h3 (by simp)
      · obtain ⟨e, he⟩ := loadList_malformed "text" NodeContent.toText _ c hc hn hd
        rw [he] at h4
        exact absurd h4 (by simp)
  · intro hall
    obtain ⟨ps, h1⟩ := loadList_total "pin" NodeContent.toPin node.children
      (fun c hc hn hd => hall c hc (Or.inl ⟨hn, hd⟩))
    obtain ⟨gs, h2⟩ := loadList_total "polygon" NodeContent.toPolygon node.children
      (fun c hc hn hd => hall c hc (Or.inr (Or.inl ⟨hn, hd⟩)))
    obtain ⟨cs, h3⟩ := loadList_total "circle" NodeContent.toCircle node.children
      (fun c hc hn hd => hall c hc (Or.inr (Or.inr (Or.inl ⟨hn, hd⟩))))
    obtain ⟨ts, h4⟩ := loadList_total "text" NodeContent.toText node.children
      (fun c hc hn hd => hall c hc (Or.inr (Or.inr (Or.inr ⟨hn, hd⟩))))
    exact ⟨_, ofSExpression_of_lists h1 h2 h3 h4⟩
  · intro d hd
    obtain ⟨h1, h2, h3, h4, _⟩ := ofSExpression_ok hd
    exact ⟨loadList_ok_filter "pin" NodeContent.toPin NodeContent.pin
        (fun _ _ h => toPin_eq_some h) _ _ h1,
      loadList_ok_filter "polygon" NodeContent.toPolygon NodeContent.polygon
        (fun _ _ h => toPolygon_eq_some h) _ _ h2,
      loadList_ok_filter "circle" NodeContent.toCircle NodeContent.circle
        (fun _ _ h => toCircle_eq_some h) _ _ h3,
      loadList_ok_filter "text" NodeContent.toText NodeContent.text
        (fun _ _ h => toText_eq_some h) _ _ h4⟩

/-- Witness of C11: a payload whose second child carries the pin tag without
being a pin is rejected, and the payload written by `toMimeData` is read. -/
theorem C11_deserialize_checks_elements_only_witness :
    (∃ c ∈ malformedPayload.children, c.Malformed) ∧
    (∃ e, SymbolClipboardData.ofSExpression 0 malformedPayload = .error e) ∧
    (∀ c ∈ (SymbolClipboardData.toMimeData snapshot10).children, ¬ c.Malformed) ∧
    (∃ d, SymbolClipboardData.ofSExpression 0 (SymbolClipboardData.toMimeData snapshot10)
      = .ok d) := by
  have hm : ∃ c ∈ malformedPayload.children, c.Malformed :=
    ⟨⟨"pin", .malformed⟩, by decide, Or.inl ⟨rfl, rfl⟩⟩
  have hw : ∀ c ∈ (SymbolClipboardData.toMimeData snapshot10).children, ¬ c.Malformed := by
    intro c hc
    have hc' : c ∈ [(⟨"pin", .pin pinA⟩ : SExpressionChild), ⟨"polygon", .polygon polygon3⟩,
        ⟨"circle", .circle circle2⟩, ⟨"text", .text text4⟩] := hc
    simp only [List.mem_cons, List.mem_singleton, List.not_mem_nil, or_false] at hc'
    rcases hc' with rfl | rfl | rfl | rfl <;>
      simp [SExpressionChild.Malformed, NodeContent.toPin, NodeContent.toPolygon,
        NodeContent.toCircle, NodeContent.toText]
  exact ⟨hm, (C11_deserialize_checks_elements_only 0 malformedPayload).1 hm, hw,
    (C11_deserialize_checks_elements_only 0
      (SymbolClipboardData.toMimeData snapshot10)).2.1 hw⟩

/-! ## The state machine: claims -/

/-- C12: in the Selecting and Moving states each of `processCut`,
`processCopy`, `processPaste`, `processRotateCw`, `processRotateCcw` and
`processRemove` returns false and leaves the whole tool and its context as
they were: nothing is handed to the undo stack, the clipboard, the symbol,
the interaction state and the pending move command are unchanged. -/
theorem C12_not_handled_outside_idle (env : EditorEnv) (posOffset : Point)
    (rnd : Nat → Uuid) (st : EditorState)
    (h : st.mState = .SELECTING ∨ st.mState = .MOVING) :
    processCut env st = (false, st) ∧ processCopy env st = (false, st) ∧
    processPaste env posOffset rnd st = (false, st) ∧
    processRotateCw env st = (false, st) ∧ processRotateCcw env st = (false, st) ∧
    processRemove env st = (false, st) := by
  rcases h with h | h <;>
    simp [processCut, processCopy, processPaste, processRotateCw, processRotateCcw,
      processRemove, h]

/-- Witness of C12: the six commands issued in the middle of a drag. -/
theorem C12_not_handled_outside_idle_witness :
    movingState.mState = .MOVING ∧
    processCut editorEnvOk movingState = (false, movingState) ∧
    processCopy editorEnvOk movingState = (false, movingState) ∧
    processPaste editorEnvOk ⟨1, 1⟩ rndFrom100 movingState = (false, movingState) ∧
    processRotateCw editorEnvOk movingState = (false, movingState) ∧
    processRotateCcw editorEnvOk movingState = (false, movingState) ∧
    processRemove editorEnvOk movingState = (false, movingState) :=
  ⟨rfl, C12_not_handled_outside_idle editorEnvOk ⟨1, 1⟩ rndFrom100 movingState (Or.inr rfl)⟩

/-- C13 fails on the code: the tool is idle with the pin "A" selected and
`toMimeData` throws, so the copy step fails (the clipboard stays empty and a
message box is shown); `copySelectedItemsToClipboard` still returns true, and
`processCut` goes on to hand a remove command to the undo stack, which takes
the pin "A" out of the symbol. -/
theorem C13_cut_removes_after_failed_copy :
    idlePinASelected.mState = .IDLE ∧
    pinA ∈ idlePinASelected.symbol.pins ∧
    idlePinASelected.selected (.pin pinA) = true ∧
    copySelectedItemsToClipboard editorEnvCopyFails idlePinASelected
      = (true, { idlePinASelected with messageBoxes := 1 }) ∧
    (processCut editorEnvCopyFails idlePinASelected).1 = true ∧
    (processCut editorEnvCopyFails idlePinASelected).2.clipboard = none ∧
    (processCut editorEnvCopyFails idlePinASelected).2.submitted = [.remove] ∧
    (processCut editorEnvCopyFails idlePinASelected).2.symbol.pins = [pinA1] ∧
    pinA ∉ (processCut editorEnvCopyFails idlePinASelected).2.symbol.pins := by
  refine ⟨rfl, by decide, by decide, rfl, rfl, rfl, rfl, ?_, ?_⟩
  · decide
  · decide

theorem topMostItem_eq_priority (hit : HitResult) :
    topMostItem hit = topmostByPriority hit := by
  unfold topMostItem topmostByPriority
  cases hit.pins <;> cases hit.texts <;> cases hit.polygons <;> cases hit.circles <;> rfl

theorem topMostItem_isSome (hit : HitResult) (h : 0 < hit.total) :
    ∃ top, topMostItem hit = some top := by
  unfold HitResult.total at h
  unfold topMostItem
  cases hp : hit.pins with
  | cons p _ => exact ⟨_, rfl⟩
  | nil =>
    cases ht : hit.texts with
    | cons t _ => exact ⟨_, rfl⟩
    | nil =>
      cases hg : hit.polygons with
      | cons g _ => exact ⟨_, rfl⟩
      | nil =>
        cases hc : hit.circles with
        | cons c _ => exact ⟨_, rfl⟩
        | nil =>
          rw [hp, ht, hg, hc] at h
          simp at h

theorem press_idle_hit (e : MouseEvent) (hit : HitResult) (st : EditorState)
    (top : GraphicsItem) (hidle : st.mState = .IDLE)
    (hcmd : st.mCmdMoveSelectedItems = none) (hcount : hit.count ≠ 0)
    (htop : topMostItem hit = some top) :
    processGraphicsSceneLeftMouseButtonPressed e hit st
      = .ok (true,
          { (if e.ctrl then setSelected top (!st.selected top) st
              else if !st.selected top then setSelected top true (clearSelectionRect true st)
              else st) with mState := .MOVING }) := by
  have hnone : (if e.ctrl then setSelected top (!st.selected top) st
      else if !st.selected top then setSelected top true (clearSelectionRect true st)
      else st).mCmdMoveSelectedItems = none := by
    by_cases hc : e.ctrl = true
    · simp [hc, setSelected, hcmd]
    · by_cases hs : st.selected top = true
      · simp [hc, hs, hcmd]
      · simp [hc, hs, setSelected, clearSelectionRect, hcmd]
  unfold processGraphicsSceneLeftMouseButtonPressed
  simp only [hidle, hcount, if_false, htop, hnone, Option.isSome_none, Bool.false_eq_true]

/-- C14: for a press in Idle, the handler moves to Selecting when the
hit-test returns no candidate, and, the returned count being the number of
candidates in the four lists and no move command pending, to Moving when it
returns at least one; in both cases it returns true, hands nothing to the
undo stack and leaves the tool without a move command. In Selecting or
Moving the press returns false and changes nothing, neither the state nor
the selection. -/
theorem C14_press_transition (e : MouseEvent) (hit : HitResult) (st : EditorState) :
    (st.mState = .IDLE → hit.count = 0 →
      ∃ st', processGraphicsSceneLeftMouseButtonPressed e hit st = .ok (true, st') ∧
        st'.mState = .SELECTING ∧
        st'.mCmdMoveSelectedItems = st.mCmdMoveSelectedItems ∧
        st'.submitted = st.submitted) ∧
    (st.mState = .IDLE → st.mCmdMoveSelectedItems = none → hit.count = hit.total →
      hit.count ≠ 0 →
      ∃ st', processGraphicsSceneLeftMouseButtonPressed e hit st = .ok (true, st') ∧
        st'.mState = .MOVING ∧ st'.mCmdMoveSelectedItems = none ∧
        st'.submitted = st.submitted) ∧
    (st.mState ≠ .IDLE →
      processGraphicsSceneLeftMouseButtonPressed e hit st = .ok (false, st)) := by
  refine ⟨?_, ?_, ?_⟩
  · intro hidle hcount
    refine ⟨{ clearSelectionRect true st with mState := .SELECTING }, ?_, rfl, ?_, ?_⟩
    · simp [processGraphicsSceneLeftMouseButtonPressed, hidle, hcount]
    · simp [clearSelectionRect]
    · simp [clearSelectionRect]
  · intro hidle hcmd hcontract hcount
    obtain ⟨top, htop⟩ := topMostItem_isSome hit (by omega)
    refine ⟨_, press_idle_hit e hit st top hidle hcmd hcount htop, rfl, ?_, ?_⟩
    · by_cases hc : e.ctrl = true
      · simp [hc, setSelected, hcmd]
      · by_cases hs : st.selected top = true
        · simp [hc, hs, hcmd]
        · simp [hc, hs, setSelected, clearSelectionRect, hcmd]
    · by_cases hc : e.ctrl = true
      · simp [hc, setSelected]
      · by_cases hs : st.selected top = true
        · simp [hc, hs]
        · simp [hc, hs, setSelected, clearSelectionRect]
  · intro hne
    unfold processGraphicsSceneLeftMouseButtonPressed
    cases hs : st.mState with
    | IDLE => exact absurd hs hne
    | SELECTING => rfl
    | MOVING => rfl

/-- Witness of C14: a press on empty space, a press on the pin "A", and a
press during a drag. -/
theorem C14_press_transition_witness :
    (∃ st', processGraphicsSceneLeftMouseButtonPressed eventAtOrigin hitNothing idleState
        = .ok (true, st') ∧ st'.mState = .SELECTING) ∧
    (∃ st', processGraphicsSceneLeftMouseButtonPressed eventAtOrigin hitPinA idleState
        = .ok (true, st') ∧ st'.mState = .MOVING ∧ st'.mCmdMoveSelectedItems = none) ∧
    processGraphicsSceneLeftMouseButtonPressed eventAtOrigin hitPinA movingState
      = .ok (false, movingState) := by
  obtain ⟨h1, h2, h3⟩ := C14_press_transition eventAtOrigin hitNothing idleState
  obtain ⟨s1, a1, a2, _⟩ := h1 rfl rfl
  obtain ⟨_, k2, _⟩ := C14_press_transition eventAtOrigin hitPinA idleState
  obtain ⟨s2, b1, b2, b3, _⟩ := k2 rfl rfl rfl (by decide)
  exact ⟨⟨s1, a1, a2⟩, ⟨s2, b1, b2, b3⟩,
    (C14_press_transition eventAtOrigin hitPinA movingState).2.2 (by decide)⟩

/-- C15: for a press in Idle on a hit with topmost element `top` (no move
command pending): with Ctrl held the selection flag of `top` is negated and
the flag of every other element is unchanged; without Ctrl, if `top` was not
selected the resulting selection is exactly the singleton of `top`, and if it
was selected the selection is unchanged. -/
theorem C15_press_selection_effect (e : MouseEvent) (hit : HitResult) (st : EditorState)
    (top : GraphicsItem) (hidle : st.mState = .IDLE)
    (hcmd : st.mCmdMoveSelectedItems = none) (hcount : hit.count ≠ 0)
    (htop : topMostItem hit = some top) :
    ∃ st', processGraphicsSceneLeftMouseButtonPressed e hit st = .ok (true, st') ∧
      (e.ctrl = true →
        st'.selected top = !st.selected top ∧
        ∀ i, i ≠ top → st'.selected i = st.selected i) ∧
      (e.ctrl = false → st.selected top = false →
        ∀ i, st'.selected i = decide (i = top)) ∧
      (e.ctrl = false → st.selected top = true → st'.selected = st.selected) := by
  refine ⟨_, press_idle_hit e hit st top hidle hcmd hcount htop, ?_, ?_, ?_⟩
  · intro hc
    simp only [hc, if_true, setSelected]
    exact ⟨by simp, fun i hi => by simp [hi]⟩
  · intro hc hs i
    simp only [hc, hs, setSelected, clearSelectionRect, Bool.false_eq_true, if_false,
      Bool.not_false, if_true]
    by_cases hi : i = top
    · simp [hi]
    · simp [hi]
  · intro hc hs
    simp [hc, hs]

/-- Witness of C15: a Ctrl press on the selected pin "A" deselects it. -/
theorem C15_press_selection_effect_witness :
    ∃ st', processGraphicsSceneLeftMouseButtonPressed eventCtrl hitPinA idlePinASelected
        = .ok (true, st') ∧
      st'.selected (.pin pinA) = false ∧
      ∀ i, i ≠ .pin pinA → st'.selected i = idlePinASelected.selected i := by
  obtain ⟨st', h, hctrl, _, _⟩ := C15_press_selection_effect eventCtrl hitPinA
    idlePinASelected (.pin pinA) rfl rfl (by decide) rfl
  obtain ⟨h1, h2⟩ := hctrl rfl
  exact ⟨st', h, by rw [h1]; decide, h2⟩

theorem openPropertiesDialog_eq (hit : HitResult) (st : EditorState) :
    openPropertiesDialogOfItemAtPos hit st
      = match topMostItem hit with
        | some top => (true, { st with dialogs := st.dialogs ++ [top] })
        | none => (false, st) := by
  unfold openPropertiesDialogOfItemAtPos topMostItem
  cases hit.pins <;> cases hit.texts <;> cases hit.polygons <;> cases hit.circles <;> rfl

/-- C16: for every hit-test result with at least one candidate the topmost
element by priority (first pin, else first text, else first polygon, else
first circle) exists, and both handlers act on it: a press in Idle (count not
zero, no move command pending) toggles its selection flag with Ctrl and
leaves it selected without Ctrl, and a double click in Idle opens the
properties dialog for it. -/
theorem C16_topmost_priority (e : MouseEvent) (hit : HitResult) (st : EditorState)
    (hcandidates : 0 < hit.total) (hidle : st.mState = .IDLE)
    (hcmd : st.mCmdMoveSelectedItems = none) (hcount : hit.count ≠ 0) :
    ∃ top, topmostByPriority hit = some top ∧
      (∃ st', processGraphicsSceneLeftMouseButtonPressed e hit st = .ok (true, st') ∧
        (e.ctrl = true → st'.selected top = !st.selected top) ∧
        (e.ctrl = false → st'.selected top = true)) ∧
      processGraphicsSceneLeftMouseButtonDoubleClicked e hit st
        = (true, { st with dialogs := st.dialogs ++ [top] }) ∧
      openPropertiesDialogOfItemAtPos hit st
        = (true, { st with dialogs := st.dialogs ++ [top] }) := by
  obtain ⟨top, htop⟩ := topMostItem_isSome hit hcandidates
  have hdialog : openPropertiesDialogOfItemAtPos hit st
      = (true, { st with dialogs := st.dialogs ++ [top] }) := by
    rw [openPropertiesDialog_eq, htop]
  refine ⟨top, by rw [← topMostItem_eq_priority, htop], ?_, ?_, hdialog⟩
  · refine ⟨_, press_idle_hit e hit st top hidle hcmd hcount htop, ?_, ?_⟩
    · intro hc
      simp [hc, setSelected]
    · intro hc
      by_cases hs : st.selected top = true
      · simp [hc, hs]
      · simp [hc, hs, setSelected]
  · simp only [processGraphicsSceneLeftMouseButtonDoubleClicked, hidle, if_true, hdialog]

/-- Witness of C16: with a text above a circle and no pin, both handlers act
on the text. -/
theorem C16_topmost_priority_witness :
    ∃ top, topmostByPriority hitText = some top ∧ top = .text text4 ∧
      (∃ st', processGraphicsSceneLeftMouseButtonPressed eventAtOrigin hitText idleState
        = .ok (true, st') ∧ st'.selected top = true) ∧
      processGraphicsSceneLeftMouseButtonDoubleClicked eventAtOrigin hitText idleState
        = (true, { idleState with dialogs := idleState.dialogs ++ [top] }) := by
  obtain ⟨top, h1, ⟨st', h2, _, h3⟩, h4, _⟩ :=
    C16_topmost_priority eventAtOrigin hitText idleState (by decide) rfl rfl (by decide)
  have htop : top = .text text4 := by
    have h : topmostByPriority hitText = some (.text text4) := rfl
    rw [h] at h1
    exact (Option.some.inj h1).symm
  exact ⟨top, h1, htop, ⟨st', h2, h3 rfl⟩, h4⟩

theorem tryExecCmd_fields (env : EditorEnv) (cmd : UndoCmd) (st : EditorState) :
    (tryExecCmd env cmd st).submitted = st.submitted ++ [cmd] ∧
    (tryExecCmd env cmd st).mState = st.mState ∧
    (tryExecCmd env cmd st).mCmdMoveSelectedItems = st.mCmdMoveSelectedItems ∧
    (tryExecCmd env cmd st).selected = st.selected ∧
    (tryExecCmd env cmd st).selectionRect = st.selectionRect ∧
    (tryExecCmd env cmd st).clipboard = st.clipboard := by
  unfold tryExecCmd UndoStack.execCmd
  by_cases ht : env.execCmdThrows cmd st.symbol = true
  · simp [ht]
  · cases he : cmd.execute env st.selected st.symbol <;> simp [ht, he]

/-- C17: a left-button release in Selecting makes the state Idle. In Moving
it makes the state Idle whether or not the undo stack throws; the pending
move command, if one was created, is handed to the undo stack (exactly it,
once) and otherwise nothing is; afterwards no move command is pending. A
press on an element followed at once by the release hands nothing over. In
Idle the release returns false and changes nothing. -/
theorem C17_release_transition (env : EditorEnv) (e : MouseEvent) (st : EditorState) :
    (st.mState = .SELECTING →
      processGraphicsSceneLeftMouseButtonReleased env e st
        = (true, { clearSelectionRect false st with mState := .IDLE })) ∧
    (st.mState = .MOVING → ∀ cmd, st.mCmdMoveSelectedItems = some cmd →
      (processGraphicsSceneLeftMouseButtonReleased env e st).1 = true ∧
      (processGraphicsSceneLeftMouseButtonReleased env e st).2.mState = .IDLE ∧
      (processGraphicsSceneLeftMouseButtonReleased env e st).2.submitted
        = st.submitted ++ [.move cmd] ∧
      (processGraphicsSceneLeftMouseButtonReleased env e st).2.mCmdMoveSelectedItems
        = none) ∧
    (st.mState = .MOVING → st.mCmdMoveSelectedItems = none →
      processGraphicsSceneLeftMouseButtonReleased env e st
        = (true, { st with mState := .IDLE })) ∧
    (st.mState = .IDLE → st.mCmdMoveSelectedItems = none →
      ∀ (e0 : MouseEvent) (hit : HitResult) (st1 : EditorState),
        processGraphicsSceneLeftMouseButtonPressed e0 hit st = .ok (true, st1) →
        st1.mState = .MOVING →
        (processGraphicsSceneLeftMouseButtonReleased env e st1).2.submitted = st.submitted ∧
        (processGraphicsSceneLeftMouseButtonReleased env e st1).2.mState = .IDLE) ∧
    (st.mState = .IDLE →
      processGraphicsSceneLeftMouseButtonReleased env e st = (false, st)) := by
  refine ⟨?_, ?_, ?_, ?_, ?_⟩
  · intro h
    simp [processGraphicsSceneLeftMouseButtonReleased, h]
  · intro h cmd hcmd
    obtain ⟨ms, mc, sy, su, sr, se, cl, mb, dl⟩ := st
    simp only at h hcmd
    subst h hcmd
    obtain ⟨f1, _, f3, _⟩ := tryExecCmd_fields env (.move cmd)
      { mState := .MOVING, mCmdMoveSelectedItems := none, symbol := sy, submitted := su,
        selectionRect := sr, selected := se, clipboard := cl, messageBoxes := mb,
        dialogs := dl }
    simp only [processGraphicsSceneLeftMouseButtonReleased]
    exact ⟨trivial, trivial, f1, f3⟩
  · intro h hcmd
    simp [processGraphicsSceneLeftMouseButtonReleased, h, hcmd]
  · intro hidle hcmd e0 hit st1 hpress hmoving
    have hcount : hit.count ≠ 0 := by
      intro h0
      simp [processGraphicsSceneLeftMouseButtonPressed, hidle, h0] at hpress
      rw [← hpress] at hmoving
      simp at hmoving
    cases htop : topMostItem hit with
    | none =>
      simp [processGraphicsSceneLeftMouseButtonPressed, hidle, hcount, htop] at hpress
    | some top =>
      rw [press_idle_hit e0 hit st top hidle hcmd hcount htop] at hpress
      simp only [Except.ok.injEq, Prod.mk.injEq, true_and] at hpress
      have hc1 : st1.mCmdMoveSelectedItems = none := by
        rw [← hpress]
        by_cases hc : e0.ctrl = true
        · simp [hc, setSelected, hcmd]
        · by_cases hs : st.selected top = true
          · simp [hc, hs, hcmd]
          · simp [hc, hs, setSelected, clearSelectionRect, hcmd]
      have hs1 : st1.submitted = st.submitted := by
        rw [← hpress]
        by_cases hc : e0.ctrl = true
        · simp [hc, setSelected]
        · by_cases hs : st.selected top = true
          · simp [hc, hs]
          · simp [hc, hs, setSelected, clearSelectionRect]
      simp [processGraphicsSceneLeftMouseButtonReleased, hmoving, hc1, hs1]
  · intro h
    simp [processGraphicsSceneLeftMouseButtonReleased, h]

/-- Witness of C17: the release that ends a drag with a pending command, and a
press on the pin "A" followed at once by the release. -/
theorem C17_release_transition_witness :
    (processGraphicsSceneLeftMouseButtonReleased editorEnvOk eventAt5 movingState).2.mState
        = .IDLE ∧
    (processGraphicsSceneLeftMouseButtonReleased editorEnvOk eventAt5 movingState).2.submitted
        = movingState.submitted ++ [.move ⟨⟨0, 0⟩, ⟨5, 5⟩⟩] ∧
    (processGraphicsSceneLeftMouseButtonReleased editorEnvOk eventAt5
        movingState).2.mCmdMoveSelectedItems = none ∧
    processGraphicsSceneLeftMouseButtonReleased editorEnvOk eventAt5 selectingState
      = (true, { clearSelectionRect false selectingState with mState := .IDLE }) ∧
    processGraphicsSceneLeftMouseButtonReleased editorEnvOk eventAt5 idleState
      = (false, idleState) := by
  obtain ⟨h1, h2, _, _, h5⟩ := C17_release_transition editorEnvOk eventAt5 movingState
  obtain ⟨_, a2, a3, a4⟩ := h2 rfl ⟨⟨0, 0⟩, ⟨5, 5⟩⟩ rfl
  exact ⟨a2, a3, a4, (C17_release_transition editorEnvOk eventAt5 selectingState).1 rfl,
    (C17_release_transition editorEnvOk eventAt5 idleState).2.2.2.2 rfl⟩

/-- C18: a pointer-move event in Moving keeps the state Moving and hands
nothing to the undo stack (the symbol is untouched as well). When no move
command is pending, the event creates it with the button-down position the
event reports as start position and the event position as current position;
when one is pending, it is kept, start position unchanged, with the event
position as current position. -/
theorem C18_move_updates_pending_command (env : EditorEnv) (e : MouseEvent)
    (st : EditorState) (h : st.mState = .MOVING) :
    (processGraphicsSceneMouseMoved env e st).2.mState = .MOVING ∧
    (processGraphicsSceneMouseMoved env e st).2.submitted = st.submitted ∧
    (processGraphicsSceneMouseMoved env e st).2.symbol = st.symbol ∧
    (st.mCmdMoveSelectedItems = none →
      (processGraphicsSceneMouseMoved env e st).2.mCmdMoveSelectedItems
        = some ⟨e.buttonDownScenePos, e.scenePos⟩) ∧
    (∀ cmd, st.mCmdMoveSelectedItems = some cmd →
      (processGraphicsSceneMouseMoved env e st).2.mCmdMoveSelectedItems
        = some ⟨cmd.startPos, e.scenePos⟩) := by
  refine ⟨?_, ?_, ?_, ?_, ?_⟩
  · simp [processGraphicsSceneMouseMoved, h]
  · simp [processGraphicsSceneMouseMoved, h]
  · simp [processGraphicsSceneMouseMoved, h]
  · intro hn
    simp [processGraphicsSceneMouseMoved, h, hn, CmdMoveSelectedSymbolItems.new,
      CmdMoveSelectedSymbolItems.setCurrentPosition]
  · intro cmd hc
    simp [processGraphicsSceneMouseMoved, h, hc,
      CmdMoveSelectedSymbolItems.setCurrentPosition]

/-- Witness of C18: a second move event of a drag that started at (0, 0). -/
theorem C18_move_updates_pending_command_witness :
    movingState.mState = .MOVING ∧
    (processGraphicsSceneMouseMoved editorEnvOk eventAt7 movingState).2.mState = .MOVING ∧
    (processGraphicsSceneMouseMoved editorEnvOk eventAt7 movingState).2.submitted = [] ∧
    (processGraphicsSceneMouseMoved editorEnvOk eventAt7
        movingState).2.mCmdMoveSelectedItems = some ⟨⟨0, 0⟩, ⟨7, 7⟩⟩ := by
  obtain ⟨h1, h2, _, _, h5⟩ :=
    C18_move_updates_pending_command editorEnvOk eventAt7 movingState rfl
  exact ⟨rfl, h1, h2, h5 _ rfl⟩

/-- C19 fails on the code: the tool is idle with the pin "A" selected; after a
press on empty space and the release the tool is idle again with an empty
selection rectangle, but the pin "A" is no longer selected. -/
theorem C19_counterexample :
    idlePinASelected.mState = .IDLE ∧ hitNothing.count = 0 ∧ hitNothing.total = 0 ∧
    idlePinASelected.selected (.pin pinA) = true ∧
    ∃ st1 st2,
      processGraphicsSceneLeftMouseButtonPressed eventAtOrigin hitNothing idlePinASelected
        = .ok (true, st1) ∧
      processGraphicsSceneLeftMouseButtonReleased editorEnvOk eventAtOrigin st1
        = (true, st2) ∧
      st2.mState = .IDLE ∧ st2.selectionRect = (Point.zero, Point.zero) ∧
      st2.selected (.pin pinA) = false := by
  refine ⟨rfl, rfl, rfl, by decide, _, _, rfl, rfl, rfl, rfl, rfl⟩

/-- C19, as the code has it: from Idle, for every prior selection, a press on
empty space (the hit-test returns no candidate) followed by the release
returns the tool to Idle with an empty selection rectangle and with no
element selected: the press clears the selection. Nothing is handed to the
undo stack and the symbol is untouched. The set of selected elements is
therefore unchanged exactly when it was empty before the press. -/
theorem C19_press_release_on_empty_space (env : EditorEnv) (e1 e2 : MouseEvent)
    (hit : HitResult) (st : EditorState) (hidle : st.mState = .IDLE)
    (hcount : hit.count = 0) :
    ∃ st1 st2,
      processGraphicsSceneLeftMouseButtonPressed e1 hit st = .ok (true, st1) ∧
      processGraphicsSceneLeftMouseButtonReleased env e2 st1 = (true, st2) ∧
      st2.mState = .IDLE ∧ st2.selectionRect = (Point.zero, Point.zero) ∧
      (∀ i, st2.selected i = false) ∧
      st2.submitted = st.submitted ∧ st2.symbol = st.symbol ∧
      (st2.selected = st.selected ↔ ∀ i, st.selected i = false) := by
  refine ⟨{ clearSelectionRect true st with mState := .SELECTING },
    { clearSelectionRect false { clearSelectionRect true st with mState := .SELECTING }
        with mState := .IDLE }, ?_, ?_, rfl, ?_, ?_, ?_, ?_, ?_⟩
  · simp [processGraphicsSceneLeftMouseButtonPressed, hidle, hcount]
  · simp [processGraphicsSceneLeftMouseButtonReleased]
  · simp [clearSelectionRect]
  · intro i
    simp [clearSelectionRect]
  · simp [clearSelectionRect]
  · simp [clearSelectionRect]
  · simp only [clearSelectionRect, if_true, Bool.false_eq_true, if_false]
    constructor
    · intro h i
      rw [← h]
    · intro h
      funext i
      rw [h i]

/-- Witness of C19: a press on empty space and the release, nothing being
selected before. -/
theorem C19_press_release_on_empty_space_witness :
    ∃ st1 st2,
      processGraphicsSceneLeftMouseButtonPressed eventAtOrigin hitNothing idleState
        = .ok (true, st1) ∧
      processGraphicsSceneLeftMouseButtonReleased editorEnvOk eventAt5 st1 = (true, st2) ∧
      st2.mState = .IDLE ∧ st2.selectionRect = (Point.zero, Point.zero) ∧
      st2.selected = idleState.selected := by
  obtain ⟨st1, st2, h1, h2, h3, h4, _, _, _, h8⟩ :=
    C19_press_release_on_empty_space editorEnvOk eventAtOrigin eventAt5 hitNothing
      idleState rfl rfl
  exact ⟨st1, st2, h1, h2, h3, h4, h8.2 (fun _ => rfl)⟩

theorem moved_in_moving (env : EditorEnv) (e : MouseEvent) (st : EditorState)
    (h : st.mState = .MOVING) :
    (processGraphicsSceneMouseMoved env e st).2.mState = .MOVING ∧
    (processGraphicsSceneMouseMoved env e st).2.submitted = st.submitted ∧
    (processGraphicsSceneMouseMoved env e st).2.symbol = st.symbol ∧
    (st.mCmdMoveSelectedItems = none →
      (processGraphicsSceneMouseMoved env e st).2.mCmdMoveSelectedItems
        = some ⟨e.buttonDownScenePos, e.scenePos⟩) ∧
    (∀ cmd, st.mCmdMoveSelectedItems = some cmd →
      (processGraphicsSceneMouseMoved env e st).2.mCmdMoveSelectedItems
        = some ⟨cmd.startPos, e.scenePos⟩) := by
  refine ⟨?_, ?_, ?_, ?_, ?_⟩
  · simp [processGraphicsSceneMouseMoved, h]
  · simp [processGraphicsSceneMouseMoved, h]
  · simp [processGraphicsSceneMouseMoved, h]
  · intro hn
    simp [processGraphicsSceneMouseMoved, h, hn, CmdMoveSelectedSymbolItems.new,
      CmdMoveSelectedSymbolItems.setCurrentPosition]
  · intro cmd hc
    simp [processGraphicsSceneMouseMoved, h, hc,
      CmdMoveSelectedSymbolItems.setCurrentPosition]

theorem processMoves_moving (env : EditorEnv) :
    ∀ (moves : List MouseEvent) (st : EditorState) (cmd : CmdMoveSelectedSymbolItems),
      st.mState = .MOVING → st.mCmdMoveSelectedItems = some cmd →
      (processMoves env moves st).mState = .MOVING ∧
      (processMoves env moves st).submitted = st.submitted ∧
      (processMoves env moves st).mCmdMoveSelectedItems
        = some ⟨cmd.startPos, ((moves.map MouseEvent.scenePos).getLast?).getD cmd.currentPos⟩ := by
  intro moves
  induction moves with
  | nil =>
    intro st cmd hm hc
    exact ⟨hm, rfl, by simp [processMoves, hc]⟩
  | cons m rest ih =>
    intro st cmd hm hc
    obtain ⟨a1, a2, _, _, a5⟩ := moved_in_moving env m st hm
    obtain ⟨b1, b2, b3⟩ := ih (processGraphicsSceneMouseMoved env m st).2
      ⟨cmd.startPos, m.scenePos⟩ a1 (a5 cmd hc)
    have hstep : processMoves env (m :: rest) st
        = processMoves env rest (processGraphicsSceneMouseMoved env m st).2 := rfl
    rw [hstep]
    refine ⟨b1, by rw [b2, a2], ?_⟩
    rw [b3]
    cases rest with
    | nil => simp
    | cons r rs =>
      simp only [List.map_cons, List.getLast?_cons_cons]
      cases hl : (r.scenePos :: rs.map MouseEvent.scenePos).getLast? with
      | none => simp at hl
      | some v => rfl

theorem press_to_moving (e0 : MouseEvent) (hit : HitResult) (st st1 : EditorState)
    (hidle : st.mState = .IDLE) (hcmd : st.mCmdMoveSelectedItems = none)
    (hpress : processGraphicsSceneLeftMouseButtonPressed e0 hit st = .ok (true, st1))
    (hmoving : st1.mState = .MOVING) :
    st1.mCmdMoveSelectedItems = none ∧ st1.submitted = st.submitted := by
  have hcount : hit.count ≠ 0 := by
    intro h0
    simp [processGraphicsSceneLeftMouseButtonPressed, hidle, h0] at hpress
    rw [← hpress] at hmoving
    simp at hmoving
  cases htop : topMostItem hit with
  | none =>
    simp [processGraphicsSceneLeftMouseButtonPressed, hidle, hcount, htop] at hpress
  | some top =>
    rw [press_idle_hit e0 hit st top hidle hcmd hcount htop] at hpress
    simp only [Except.ok.injEq, Prod.mk.injEq, true_and] at hpress
    rw [← hpress]
    by_cases hc : e0.ctrl = true
    · simp [hc, setSelected, hcmd]
    · by_cases hs : st.selected top = true
      · simp [hc, hs, hcmd]
      · simp [hc, hs, setSelected, clearSelectionRect, hcmd]

theorem release_moving_pending (env : EditorEnv) (e : MouseEvent) (st : EditorState)
    (cmd : CmdMoveSelectedSymbolItems) (h : st.mState = .MOVING)
    (hcmd : st.mCmdMoveSelectedItems = some cmd) :
    (processGraphicsSceneLeftMouseButtonReleased env e st).1 = true ∧
    (processGraphicsSceneLeftMouseButtonReleased env e st).2.mState = .IDLE ∧
    (processGraphicsSceneLeftMouseButtonReleased env e st).2.submitted
      = st.submitted ++ [.move cmd] ∧
    (processGraphicsSceneLeftMouseButtonReleased env e st).2.mCmdMoveSelectedItems
      = none := by
  obtain ⟨ms, mc, sy, su, sr, se, cl, mb, dl⟩ := st
  simp only at h hcmd
  subst h hcmd
  obtain ⟨f1, _, f3, _⟩ := tryExecCmd_fields env (.move cmd)
    { mState := .MOVING, mCmdMoveSelectedItems := none, symbol := sy, submitted := su,
      selectionRect := sr, selected := se, clipboard := cl, messageBoxes := mb,
      dialogs := dl }
  simp only [processGraphicsSceneLeftMouseButtonReleased]
  exact ⟨trivial, trivial, f1, f3⟩

theorem getLast?_scenePos (m : MouseEvent) (ms : List MouseEvent) (d : Point) :
    ∃ last, (m :: ms).getLast? = some last ∧
      (((m :: ms).map MouseEvent.scenePos).getLast?).getD d = last.scenePos := by
  induction ms generalizing m with
  | nil => exact ⟨m, rfl, rfl⟩
  | cons r rs ih =>
    obtain ⟨last, h1, h2⟩ := ih r
    refine ⟨last, by rw [List.getLast?_cons_cons]; exact h1, ?_⟩
    simp only [List.map_cons, List.getLast?_cons_cons] at h2 ⊢
    exact h2

/-- C20 fails on the code: a press at p = (0, 0) on the selected pin "A", one
move event at (5, 5) and the release at q = (7, 7) hand one move command to
the undo stack, from (0, 0) to (5, 5): its displacement is (5, 5), not
q - p = (7, 7). -/
theorem C20_counterexample :
    idlePinASelected.selected (.pin pinA) = true ∧
    ∃ st1 st3,
      processGraphicsSceneLeftMouseButtonPressed eventAtOrigin hitPinA idlePinASelected
        = .ok (true, st1) ∧
      processGraphicsSceneLeftMouseButtonReleased editorEnvOk eventAt7
          (processMoves editorEnvOk [eventAt5] st1) = (true, st3) ∧
      st3.submitted = [.move ⟨⟨0, 0⟩, ⟨5, 5⟩⟩] ∧
      CmdMoveSelectedSymbolItems.displacement ⟨⟨0, 0⟩, ⟨5, 5⟩⟩ = ⟨5, 5⟩ ∧
      eventAt7.scenePos - eventAtOrigin.scenePos = ⟨7, 7⟩ ∧
      CmdMoveSelectedSymbolItems.displacement ⟨⟨0, 0⟩, ⟨5, 5⟩⟩
        ≠ eventAt7.scenePos - eventAtOrigin.scenePos := by
  refine ⟨by decide, _, _, rfl, rfl, rfl, by decide, by decide, by decide⟩

/-- C20, as the code has it: from Idle (no move command pending), a press that
starts a move, one or more pointer-move events and the release hand exactly
one command to the undo stack, a move command, and leave the tool idle
without a pending command. The start position of that command is the
button-down position reported by the first move event and its current
position is the position of the last move event; the release event is not
read. The displacement is therefore the last move position minus that
button-down position, which is q - p when the first move event reports the
down position p and the last move event is at the up position q. -/
theorem C20_drag_commits_one_move (env : EditorEnv) (e0 er m : MouseEvent)
    (ms : List MouseEvent) (hit : HitResult) (st st1 : EditorState)
    (hidle : st.mState = .IDLE) (hcmd : st.mCmdMoveSelectedItems = none)
    (hpress : processGraphicsSceneLeftMouseButtonPressed e0 hit st = .ok (true, st1))
    (hmoving : st1.mState = .MOVING) :
    ∃ cmd last,
      (m :: ms).getLast? = some last ∧
      (processGraphicsSceneLeftMouseButtonReleased env er
          (processMoves env (m :: ms) st1)).2.submitted = st.submitted ++ [.move cmd] ∧
      (processGraphicsSceneLeftMouseButtonReleased env er
          (processMoves env (m :: ms) st1)).2.mState = .IDLE ∧
      (processGraphicsSceneLeftMouseButtonReleased env er
          (processMoves env (m :: ms) st1)).2.mCmdMoveSelectedItems = none ∧
      cmd.startPos = m.buttonDownScenePos ∧ cmd.currentPos = last.scenePos ∧
      cmd.displacement = last.scenePos - m.buttonDownScenePos ∧
      (m.buttonDownScenePos = e0.scenePos → last.scenePos = er.scenePos →
        cmd.displacement = er.scenePos - e0.scenePos) := by
  obtain ⟨hnone, hsub⟩ := press_to_moving e0 hit st st1 hidle hcmd hpress hmoving
  obtain ⟨a1, a2, _, a4, _⟩ := moved_in_moving env m st1 hmoving
  obtain ⟨b1, b2, b3⟩ := processMoves_moving env ms (processGraphicsSceneMouseMoved env m st1).2
    ⟨m.buttonDownScenePos, m.scenePos⟩ a1 (a4 hnone)
  have hstep : processMoves env (m :: ms) st1
      = processMoves env ms (processGraphicsSceneMouseMoved env m st1).2 := rfl
  obtain ⟨last, hlast, hpos⟩ := getLast?_scenePos m ms m.scenePos
  have hcur : ((ms.map MouseEvent.scenePos).getLast?).getD m.scenePos = last.scenePos := by
    rw [← hpos]
    cases ms with
    | nil => rfl
    | cons r rs =>
      simp only [List.map_cons, List.getLast?_cons_cons]
  rw [← hstep] at b1 b2 b3
  obtain ⟨_, c2, c3, c4⟩ := release_moving_pending env er _ _ b1 b3
  refine ⟨⟨m.buttonDownScenePos, ((ms.map MouseEvent.scenePos).getLast?).getD m.scenePos⟩,
    last, hlast, ?_, c2, c4, rfl, hcur, ?_, ?_⟩
  · rw [c3, b2, a2, hsub]
  · simp only [CmdMoveSelectedSymbolItems.displacement, hcur]
  · intro hp hq
    simp only [CmdMoveSelectedSymbolItems.displacement, hcur, hp, hq]

/-- Witness of C20: a drag of the pin "A" from (0, 0) over (5, 5) to (7, 7),
released at (7, 7). -/
theorem C20_drag_commits_one_move_witness :
    ∃ st1 cmd,
      processGraphicsSceneLeftMouseButtonPressed eventAtOrigin hitPinA idlePinASelected
        = .ok (true, st1) ∧
      (processGraphicsSceneLeftMouseButtonReleased editorEnvOk eventAt7
          (processMoves editorEnvOk [eventAt5, eventAt7] st1)).2.submitted
        = idlePinASelected.submitted ++ [.move cmd] ∧
      cmd.displacement = eventAt7.scenePos - eventAtOrigin.scenePos := by
  have hpress : processGraphicsSceneLeftMouseButtonPressed eventAtOrigin hitPinA
      idlePinASelected = .ok (true, { idlePinASelected with mState := .MOVING }) := rfl
  obtain ⟨cmd, last, hlast, h2, _, _, _, _, _, h8⟩ :=
    C20_drag_commits_one_move editorEnvOk eventAtOrigin eventAt7 eventAt5 [eventAt7] hitPinA
      idlePinASelected _ rfl rfl hpress rfl
  have hl : last = eventAt7 := by
    have h : [eventAt5, eventAt7].getLast? = some eventAt7 := rfl
    rw [h] at hlast
    exact (Option.some.inj hlast).symm
  exact ⟨_, cmd, hpress, h2, h8 rfl (by rw [hl])⟩

/-! ## The design rule check settings: claims -/

theorem AllowedSlots.deserialize_serialize (v : AllowedSlots) :
    AllowedSlots.deserialize v.serialize = .ok v := by
  cases v <;> rfl

theorem AllowedSlots.deserialize_ok_iff (t : String) :
    (∃ v, AllowedSlots.deserialize t = .ok v) ↔
      t ∈ ["none", "single_segment_straight", "multi_segment_straight", "any"] := by
  simp only [List.mem_cons, List.mem_singleton, List.not_mem_nil, or_false]
  unfold AllowedSlots.deserialize
  by_cases h1 : t = "none"
  · simp [h1]
  · by_cases h2 : t = "single_segment_straight"
    · simp [h2]
    · by_cases h3 : t = "multi_segment_straight"
      · simp [h3]
      · by_cases h4 : t = "any"
        · simp [h4]
        · simp [h1, h2, h3, h4]

theorem AllowedSlots.deserialize_other (t : String)
    (h : t ∉ ["none", "single_segment_straight", "multi_segment_straight", "any"]) :
    AllowedSlots.deserialize t = .error (.unknownAllowedSlots t) := by
  simp only [List.mem_cons, List.mem_singleton, List.not_mem_nil, or_false, not_or] at h
  obtain ⟨h1, h2, h3, h4⟩ := h
  simp [AllowedSlots.deserialize, h1, h2, h3, h4]

/-- C21: `serialize` maps None, SingleSegmentStraight, MultiSegmentStraight
and Any to the tokens "none", "single_segment_straight",
"multi_segment_straight" and "any", which are pairwise distinct; for every
value `v`, `deserialize (serialize v) = v`; and for every string `t`,
`deserialize t` succeeds if and only if `t` is one of the four tokens and
fails with the unknown-value error on every other string, such as a token in
another letter case or the empty string. -/
theorem C21_allowed_slots_codec :
    (AllowedSlots.serialize .None = "none" ∧
      AllowedSlots.serialize .SingleSegmentStraight = "single_segment_straight" ∧
      AllowedSlots.serialize .MultiSegmentStraight = "multi_segment_straight" ∧
      AllowedSlots.serialize .Any = "any") ∧
    (["none", "single_segment_straight", "multi_segment_straight", "any"].Nodup) ∧
    Function.Injective AllowedSlots.serialize ∧
    (∀ v, AllowedSlots.deserialize (AllowedSlots.serialize v) = .ok v) ∧
    (∀ t, (∃ v, AllowedSlots.deserialize t = .ok v) ↔
      t ∈ ["none", "single_segment_straight", "multi_segment_straight", "any"]) ∧
    (∀ t, t ∉ ["none", "single_segment_straight", "multi_segment_straight", "any"] →
      AllowedSlots.deserialize t = .error (.unknownAllowedSlots t)) ∧
    AllowedSlots.deserialize "None" = .error (.unknownAllowedSlots "None") ∧
    AllowedSlots.deserialize "ANY" = .error (.unknownAllowedSlots "ANY") ∧
    AllowedSlots.deserialize "" = .error (.unknownAllowedSlots "") := by
  refine ⟨⟨rfl, rfl, rfl, rfl⟩, by decide, ?_, AllowedSlots.deserialize_serialize,
    AllowedSlots.deserialize_ok_iff, AllowedSlots.deserialize_other, rfl, rfl, rfl⟩
  intro a b h
  have ha := AllowedSlots.deserialize_serialize a
  rw [h, AllowedSlots.deserialize_serialize b] at ha
  exact (Except.ok.inj ha).symm

/-- Witness of C21: "any" is read as Any, "Any" is rejected. -/
theorem C21_allowed_slots_codec_witness :
    (∃ v, AllowedSlots.deserialize "any" = .ok v) ∧
    "Any" ∉ ["none", "single_segment_straight", "multi_segment_straight", "any"] ∧
    AllowedSlots.deserialize "Any" = .error (.unknownAllowedSlots "Any") :=
  ⟨(C21_allowed_slots_codec.2.2.2.2.1 "any").2 (by decide), by decide,
    C21_allowed_slots_codec.2.2.2.2.2.1 "Any" (by decide)⟩

theorem settings_serialize_children (s : BoardDesignRuleCheckSettings) :
    (s.serialize ⟨[]⟩).children =
      [("min_copper_copper_clearance", .length s.mMinCopperCopperClearance),
       ("min_copper_board_clearance", .length s.mMinCopperBoardClearance),
       ("min_copper_npth_clearance", .length s.mMinCopperNpthClearance),
       ("min_drill_drill_clearance", .length s.mMinDrillDrillClearance),
       ("min_drill_board_clearance", .length s.mMinDrillBoardClearance),
       ("min_silkscreen_stopmask_clearance", .length s.mMinSilkscreenStopmaskClearance),
       ("min_copper_width", .length s.mMinCopperWidth),
       ("min_annular_ring", .length s.mMinPthAnnularRing),
       ("min_npth_drill_diameter", .length s.mMinNpthDrillDiameter),
       ("min_pth_drill_diameter", .length s.mMinPthDrillDiameter),
       ("min_npth_slot_width", .length s.mMinNpthSlotWidth),
       ("min_pth_slot_width", .length s.mMinPthSlotWidth),
       ("min_silkscreen_width", .length s.mMinSilkscreenWidth),
       ("min_silkscreen_text_height", .length s.mMinSilkscreenTextHeight),
       ("min_outline_tool_diameter", .length s.mMinOutlineToolDiameter),
       ("blind_vias_allowed", .bool s.mBlindViasAllowed),
       ("buried_vias_allowed", .bool s.mBuriedViasAllowed),
       ("allowed_npth_slots", .token s.mAllowedNpthSlots.serialize),
       ("allowed_pth_slots", .token s.mAllowedPthSlots.serialize)] := by
  simp only [BoardDesignRuleCheckSettings.serialize, SettingsNode.appendChild, List.nil_append,
    List.cons_append, List.singleton_append]

theorem settings_getChild (s : BoardDesignRuleCheckSettings) :
    (s.serialize ⟨[]⟩).getChild "min_copper_copper_clearance" = .ok (.length s.mMinCopperCopperClearance) ∧
    (s.serialize ⟨[]⟩).getChild "min_copper_board_clearance" = .ok (.length s.mMinCopperBoardClearance) ∧
    (s.serialize ⟨[]⟩).getChild "min_copper_npth_clearance" = .ok (.length s.mMinCopperNpthClearance) ∧
    (s.serialize ⟨[]⟩).getChild "min_drill_drill_clearance" = .ok (.length s.mMinDrillDrillClearance) ∧
    (s.serialize ⟨[]⟩).getChild "min_drill_board_clearance" = .ok (.length s.mMinDrillBoardClearance) ∧
    (s.serialize ⟨[]⟩).getChild "min_silkscreen_stopmask_clearance" = .ok (.length s.mMinSilkscreenStopmaskClearance) ∧
    (s.serialize ⟨[]⟩).getChild "min_copper_width" = .ok (.length s.mMinCopperWidth) ∧
    (s.serialize ⟨[]⟩).getChild "min_annular_ring" = .ok (.length s.mMinPthAnnularRing) ∧
    (s.serialize ⟨[]⟩).getChild "min_npth_drill_diameter" = .ok (.length s.mMinNpthDrillDiameter) ∧
    (s.serialize ⟨[]⟩).getChild "min_pth_drill_diameter" = .ok (.length s.mMinPthDrillDiameter) ∧
    (s.serialize ⟨[]⟩).getChild "min_npth_slot_width" = .ok (.length s.mMinNpthSlotWidth) ∧
    (s.serialize ⟨[]⟩).getChild "min_pth_slot_width" = .ok (.length s.mMinPthSlotWidth) ∧
    (s.serialize ⟨[]⟩).getChild "min_silkscreen_width" = .ok (.length s.mMinSilkscreenWidth) ∧
    (s.serialize ⟨[]⟩).getChild "min_silkscreen_text_height" = .ok (.length s.mMinSilkscreenTextHeight) ∧
    (s.serialize ⟨[]⟩).getChild "min_outline_tool_diameter" = .ok (.length s.mMinOutlineToolDiameter) ∧
    (s.serialize ⟨[]⟩).getChild "blind_vias_allowed" = .ok (.bool s.mBlindViasAllowed) ∧
    (s.serialize ⟨[]⟩).getChild "buried_vias_allowed" = .ok (.bool s.mBuriedViasAllowed) ∧
    (s.serialize ⟨[]⟩).getChild "allowed_npth_slots" = .ok (.token s.mAllowedNpthSlots.serialize) ∧
    (s.serialize ⟨[]⟩).getChild "allowed_pth_slots" = .ok (.token s.mAllowedPthSlots.serialize) := by
  refine ⟨?_, ?_, ?_, ?_, ?_, ?_, ?_, ?_, ?_, ?_, ?_, ?_, ?_, ?_, ?_, ?_, ?_, ?_, ?_⟩ <;>
    (unfold SettingsNode.getChild
     rw [settings_serialize_children]
     simp only [List.find?_cons, String.reduceBEq, beq_self_eq_true])

theorem deserializeUnsignedLength_cast (n : Nat) :
    deserializeUnsignedLength (.length (n : Int)) = .ok n := rfl

theorem ofNode_serialize (s : BoardDesignRuleCheckSettings) :
    BoardDesignRuleCheckSettings.ofNode (s.serialize ⟨[]⟩) = .ok s := by
  obtain ⟨h1, h2, h3, h4, h5, h6, h7, h8, h9, h10, h11, h12, h13, h14, h15, h16, h17, h18,
    h19⟩ := settings_getChild s
  simp only [BoardDesignRuleCheckSettings.ofNode, readLength, readBool, readAllowedSlots,
    h1, h2, h3, h4, h5, h6, h7, h8, h9, h10, h11, h12, h13, h14, h15, h16, h17, h18, h19,
    deserializeUnsignedLength_cast, deserializeBool, deserializeAllowedSlots,
    Literal.getValue,
    AllowedSlots.deserialize_serialize, bind, Except.bind, pure, Except.pure]

theorem except_bind_ok {ε α β : Type} {x : Except ε α} {f : α → Except ε β} {b : β}
    (h : (x >>= f) = .ok b) : ∃ a, x = .ok a ∧ f a = .ok b := by
  cases x with
  | error e => simp [bind, Except.bind] at h
  | ok a => exact ⟨a, rfl, h⟩

theorem settings_eq_iff (a b : BoardDesignRuleCheckSettings) : a.eq b = true ↔ a = b := by
  constructor
  · intro h
    unfold BoardDesignRuleCheckSettings.eq at h
    obtain ⟨a1, a2, a3, a4, a5, a6, a7, a8, a9, a10, a11, a12, a13, a14, a15, b1, b2,
      s1, s2⟩ := a
    obtain ⟨c1, c2, c3, c4, c5, c6, c7, c8, c9, c10, c11, c12, c13, c14, c15, d1, d2,
      t1, t2⟩ := b
    simp only [bne_iff_ne, ne_eq, ite_not, Bool.if_false_right, Bool.and_true,
      Bool.and_eq_true, decide_eq_true_eq, Bool.if_false_left, Bool.not_eq_true'] at h
    simp only [BoardDesignRuleCheckSettings.mk.injEq]
    simp_all
  · intro h
    subst h
    simp [BoardDesignRuleCheckSettings.eq]

theorem ofNode_reads_keys (node : SettingsNode) (s : BoardDesignRuleCheckSettings)
    (h : BoardDesignRuleCheckSettings.ofNode node = .ok s) :
    readLength node "min_copper_copper_clearance" = .ok s.mMinCopperCopperClearance ∧
    readLength node "min_copper_board_clearance" = .ok s.mMinCopperBoardClearance ∧
    readLength node "min_copper_npth_clearance" = .ok s.mMinCopperNpthClearance ∧
    readLength node "min_drill_drill_clearance" = .ok s.mMinDrillDrillClearance ∧
    readLength node "min_drill_board_clearance" = .ok s.mMinDrillBoardClearance ∧
    readLength node "min_silkscreen_stopmask_clearance"
      = .ok s.mMinSilkscreenStopmaskClearance ∧
    readLength node "min_copper_width" = .ok s.mMinCopperWidth ∧
    readLength node "min_annular_ring" = .ok s.mMinPthAnnularRing ∧
    readLength node "min_npth_drill_diameter" = .ok s.mMinNpthDrillDiameter ∧
    readLength node "min_pth_drill_diameter" = .ok s.mMinPthDrillDiameter ∧
    readLength node "min_npth_slot_width" = .ok s.mMinNpthSlotWidth ∧
    readLength node "min_pth_slot_width" = .ok s.mMinPthSlotWidth ∧
    readLength node "min_silkscreen_width" = .ok s.mMinSilkscreenWidth ∧
    readLength node "min_silkscreen_text_height" = .ok s.mMinSilkscreenTextHeight ∧
    readLength node "min_outline_tool_diameter" = .ok s.mMinOutlineToolDiameter ∧
    readBool node "blind_vias_allowed" = .ok s.mBlindViasAllowed ∧
    readBool node "buried_vias_allowed" = .ok s.mBuriedViasAllowed ∧
    readAllowedSlots node "allowed_npth_slots" = .ok s.mAllowedNpthSlots ∧
    readAllowedSlots node "allowed_pth_slots" = .ok s.mAllowedPthSlots := by
  unfold BoardDesignRuleCheckSettings.ofNode at h
  obtain ⟨a1, h1, h⟩ := except_bind_ok h
  obtain ⟨a2, h2, h⟩ := except_bind_ok h
  obtain ⟨a3, h3, h⟩ := except_bind_ok h
  obtain ⟨a4, h4, h⟩ := except_bind_ok h
  obtain ⟨a5, h5, h⟩ := except_bind_ok h
  obtain ⟨a6, h6, h⟩ := except_bind_ok h
  obtain ⟨a7, h7, h⟩ := except_bind_ok h
  obtain ⟨a8, h8, h⟩ := except_bind_ok h
  obtain ⟨a9, h9, h⟩ := except_bind_ok h
  obtain ⟨a10, h10, h⟩ := except_bind_ok h
  obtain ⟨a11, h11, h⟩ := except_bind_ok h
  obtain ⟨a12, h12, h⟩ := except_bind_ok h
  obtain ⟨a13, h13, h⟩ := except_bind_ok h
  obtain ⟨a14, h14, h⟩ := except_bind_ok h
  obtain ⟨a15, h15, h⟩ := except_bind_ok h
  obtain ⟨b1, h16, h⟩ := except_bind_ok h
  obtain ⟨b2, h17, h⟩ := except_bind_ok h
  obtain ⟨s1, h18, h⟩ := except_bind_ok h
  obtain ⟨s2, h19, h⟩ := except_bind_ok h
  simp only [pure, Except.pure, Except.ok.injEq] at h
  subst h
  exact ⟨h1, h2, h3, h4, h5, h6, h7, h8, h9, h10, h11, h12, h13, h14, h15, h16, h17, h18,
    h19⟩

/-- C22: for every settings value `s`, serializing `s` into an empty node and constructing
settings from that node succeeds with a value that `operator==` reports equal to `s` (and
`operator==` is equality of the 19 members); the node holds the 19 values under the 19 keys in
the written order, and the constructor from a node, whenever it succeeds on any node, has
read each member from the key `serialize` writes it under (the PTH annular ring under
"min_annular_ring"); the default-constructed settings round-trip to themselves. -/
theorem C22_settings_round_trip (s : BoardDesignRuleCheckSettings) :
    (∃ r, BoardDesignRuleCheckSettings.ofNode (s.serialize ⟨[]⟩) = .ok r ∧ r.eq s = true) ∧
    BoardDesignRuleCheckSettings.ofNode (s.serialize ⟨[]⟩) = .ok s ∧
    (∀ a b : BoardDesignRuleCheckSettings, a.eq b = true ↔ a = b) ∧
    (s.serialize ⟨[]⟩).children =
      [("min_copper_copper_clearance", .length s.mMinCopperCopperClearance),
       ("min_copper_board_clearance", .length s.mMinCopperBoardClearance),
       ("min_copper_npth_clearance", .length s.mMinCopperNpthClearance),
       ("min_drill_drill_clearance", .length s.mMinDrillDrillClearance),
       ("min_drill_board_clearance", .length s.mMinDrillBoardClearance),
       ("min_silkscreen_stopmask_clearance", .length s.mMinSilkscreenStopmaskClearance),
       ("min_copper_width", .length s.mMinCopperWidth),
       ("min_annular_ring", .length s.mMinPthAnnularRing),
       ("min_npth_drill_diameter", .length s.mMinNpthDrillDiameter),
       ("min_pth_drill_diameter", .length s.mMinPthDrillDiameter),
       ("min_npth_slot_width", .length s.mMinNpthSlotWidth),
       ("min_pth_slot_width", .length s.mMinPthSlotWidth),
       ("min_silkscreen_width", .length s.mMinSilkscreenWidth),
       ("min_silkscreen_text_height", .length s.mMinSilkscreenTextHeight),
       ("min_outline_tool_diameter", .length s.mMinOutlineToolDiameter),
       ("blind_vias_allowed", .bool s.mBlindViasAllowed),
       ("buried_vias_allowed", .bool s.mBuriedViasAllowed),
       ("allowed_npth_slots", .token s.mAllowedNpthSlots.serialize),
       ("allowed_pth_slots", .token s.mAllowedPthSlots.serialize)] ∧
    (∀ (node : SettingsNode) (r : BoardDesignRuleCheckSettings),
      BoardDesignRuleCheckSettings.ofNode node = .ok r →
      readLength node "min_copper_copper_clearance" = .ok r.mMinCopperCopperClearance ∧
      readLength node "min_copper_board_clearance" = .ok r.mMinCopperBoardClearance ∧
      readLength node "min_copper_npth_clearance" = .ok r.mMinCopperNpthClearance ∧
      readLength node "min_drill_drill_clearance" = .ok r.mMinDrillDrillClearance ∧
      readLength node "min_drill_board_clearance" = .ok r.mMinDrillBoardClearance ∧
      readLength node "min_silkscreen_stopmask_clearance"
        = .ok r.mMinSilkscreenStopmaskClearance ∧
      readLength node "min_copper_width" = .ok r.mMinCopperWidth ∧
      readLength node "min_annular_ring" = .ok r.mMinPthAnnularRing ∧
      readLength node "min_npth_drill_diameter" = .ok r.mMinNpthDrillDiameter ∧
      readLength node "min_pth_drill_diameter" = .ok r.mMinPthDrillDiameter ∧
      readLength node "min_npth_slot_width" = .ok r.mMinNpthSlotWidth ∧
      readLength node "min_pth_slot_width" = .ok r.mMinPthSlotWidth ∧
      readLength node "min_silkscreen_width" = .ok r.mMinSilkscreenWidth ∧
      readLength node "min_silkscreen_text_height" = .ok r.mMinSilkscreenTextHeight ∧
      readLength node "min_outline_tool_diameter" = .ok r.mMinOutlineToolDiameter ∧
      readBool node "blind_vias_allowed" = .ok r.mBlindViasAllowed ∧
      readBool node "buried_vias_allowed" = .ok r.mBuriedViasAllowed ∧
      readAllowedSlots node "allowed_npth_slots" = .ok r.mAllowedNpthSlots ∧
      readAllowedSlots node "allowed_pth_slots" = .ok r.mAllowedPthSlots) ∧
    BoardDesignRuleCheckSettings.ofNode
        (BoardDesignRuleCheckSettings.default.serialize ⟨[]⟩)
      = .ok BoardDesignRuleCheckSettings.default ∧
    BoardDesignRuleCheckSettings.default.eq BoardDesignRuleCheckSettings.default = true :=
  ⟨⟨s, ofNode_serialize s, (settings_eq_iff s s).2 rfl⟩, ofNode_serialize s, settings_eq_iff,
    settings_serialize_children s, ofNode_reads_keys,
    ofNode_serialize _, (settings_eq_iff _ _).2 rfl⟩

/-- Witness of C22: the default settings are read back from their own node, and the PTH
annular ring of the result (200000 nm) is the value found under "min_annular_ring". -/
theorem C22_settings_round_trip_witness :
    BoardDesignRuleCheckSettings.ofNode
        (BoardDesignRuleCheckSettings.default.serialize ⟨[]⟩)
      = .ok BoardDesignRuleCheckSettings.default ∧
    readLength (BoardDesignRuleCheckSettings.default.serialize ⟨[]⟩) "min_annular_ring"
      = .ok 200000 :=
  ⟨(C22_settings_round_trip BoardDesignRuleCheckSettings.default).2.1,
    ((C22_settings_round_trip BoardDesignRuleCheckSettings.default).2.2.2.2.1 _ _
      (C22_settings_round_trip BoardDesignRuleCheckSettings.default).2.1).2.2.2.2.2.2.2.1⟩

/-! ## Return values in Idle, the assertion of the press handler, pointer moves -/

theorem pasteFromClipboard_fst (env : EditorEnv) (posOffset : Point) (rnd : Nat → Uuid)
    (st : EditorState) : (pasteFromClipboard env posOffset rnd st).1 = true := by
  unfold pasteFromClipboard
  cases SymbolClipboardData.fromMimeData env.symbolUuid0 st.clipboard with
  | error e => rfl
  | ok d =>
    cases d with
    | none => rfl
    | some data => rfl

theorem copySelectedItemsToClipboard_fst (env : EditorEnv) (st : EditorState) :
    (copySelectedItemsToClipboard env st).1 = true := by
  unfold copySelectedItemsToClipboard
  by_cases h : env.toMimeDataThrows
      (copySelectedItemsToClipboard_data st.symbol (selectedItems st.symbol st.selected)) = true
  · simp [h]
  · simp [h]

theorem tryExecCmd_throws (env : EditorEnv) (cmd : UndoCmd) (st : EditorState)
    (h : env.execCmdThrows cmd st.symbol = true) :
    tryExecCmd env cmd st
      = { st with submitted := st.submitted ++ [cmd], messageBoxes := st.messageBoxes + 1 } := by
  simp [tryExecCmd, UndoStack.execCmd, h]

/-- C23: in Idle, `processRotateCw`, `processRotateCcw`, `processRemove`, `processCopy` and
`processPaste` return true, whatever the selection and the clipboard hold and whatever the
collaborators do. When the undo stack throws on the rotate or remove command, the handler
shows a message box, leaves the symbol as it was and still returns true. -/
theorem C23_idle_handlers_return_true (env : EditorEnv) (posOffset : Point)
    (rnd : Nat → Uuid) (st : EditorState) (hidle : st.mState = .IDLE) :
    (processRotateCw env st).1 = true ∧
    (processRotateCcw env st).1 = true ∧
    (processRemove env st).1 = true ∧
    (processCopy env st).1 = true ∧
    (processPaste env posOffset rnd st).1 = true ∧
    (env.execCmdThrows (.rotate (-deg90)) st.symbol = true →
      processRotateCw env st
        = (true, { st with submitted := st.submitted ++ [.rotate (-deg90)],
                           messageBoxes := st.messageBoxes + 1 })) ∧
    (env.execCmdThrows (.rotate deg90) st.symbol = true →
      processRotateCcw env st
        = (true, { st with submitted := st.submitted ++ [.rotate deg90],
                           messageBoxes := st.messageBoxes + 1 })) ∧
    (env.execCmdThrows .remove st.symbol = true →
      processRemove env st
        = (true, { st with submitted := st.submitted ++ [.remove],
                           messageBoxes := st.messageBoxes + 1 })) := by
  obtain ⟨ms, mc, sy, su, sr, se, cl, mb, dl⟩ := st
  simp only at hidle
  subst hidle
  refine ⟨rfl, rfl, rfl, ?_, ?_, ?_, ?_, ?_⟩
  · exact copySelectedItemsToClipboard_fst env _
  · exact pasteFromClipboard_fst env posOffset rnd _
  · intro h
    simp only [processRotateCw, rotateSelectedItems]
    rw [tryExecCmd_throws env _ _ h]
  · intro h
    simp only [processRotateCcw, rotateSelectedItems]
    rw [tryExecCmd_throws env _ _ h]
  · intro h
    simp only [processRemove, removeSelectedItems]
    rw [tryExecCmd_throws env _ _ h]

/-- Witness of C23: the idle tool with nothing selected and an undo stack that throws on
every command. -/
theorem C23_idle_handlers_return_true_witness :
    idleState.mState = .IDLE ∧
    (selectedItems idleState.symbol idleState.selected).pins = [] ∧
    (processRotateCw editorEnvExecFails idleState).1 = true ∧
    (processRotateCcw editorEnvExecFails idleState).1 = true ∧
    (processRemove editorEnvExecFails idleState).1 = true ∧
    (processCopy editorEnvExecFails idleState).1 = true ∧
    (processPaste editorEnvExecFails ⟨1, 1⟩ rndFrom100 idleState).1 = true ∧
    processRemove editorEnvExecFails idleState
      = (true, { idleState with submitted := [.remove], messageBoxes := 1 }) :=
  have h := C23_idle_handlers_return_true editorEnvExecFails ⟨1, 1⟩ rndFrom100 idleState rfl
  ⟨rfl, rfl, h.1, h.2.1, h.2.2.1, h.2.2.2.1, h.2.2.2.2.1, h.2.2.2.2.2.2.2 rfl⟩

/-- C24: when the count of the hit-test equals the number of candidates in the four lists and
is not zero, one of the four lists is not empty and a topmost item is determined, so a press
in Idle does not reach the `Q_ASSERT(false)` branch: it reads the selection flag of that item
and, no move command being pending, returns true in Moving. A result with a non-zero count
and four empty lists has no topmost item, and a press in Idle then fails the assertion. -/
theorem C24_assertion_branch_unreachable (e : MouseEvent) (st : EditorState)
    (hidle : st.mState = .IDLE) :
    (∀ hit : HitResult, hit.count = hit.total → hit.count ≠ 0 →
      (hit.pins ≠ [] ∨ hit.circles ≠ [] ∨ hit.polygons ≠ [] ∨ hit.texts ≠ []) ∧
      ∃ top, topMostItem hit = some top ∧
        (st.mCmdMoveSelectedItems = none →
          processGraphicsSceneLeftMouseButtonPressed e hit st
            = .ok (true,
                { (if e.ctrl then setSelected top (!st.selected top) st
                    else if !st.selected top then
                      setSelected top true (clearSelectionRect true st)
                    else st) with mState := .MOVING }))) ∧
    (∀ hit : HitResult, hit.count = hit.total →
      processGraphicsSceneLeftMouseButtonPressed e hit st = .error .assertionFailed →
      st.mCmdMoveSelectedItems ≠ none) ∧
    (∀ n : Nat, n ≠ 0 →
      topMostItem ⟨n, [], [], [], []⟩ = none ∧
      processGraphicsSceneLeftMouseButtonPressed e ⟨n, [], [], [], []⟩ st
        = .error .assertionFailed) := by
  refine ⟨?_, ?_, ?_⟩
  · intro hit hcontract hcount
    have htotal : 0 < hit.total := by omega
    obtain ⟨top, htop⟩ := topMostItem_isSome hit htotal
    refine ⟨?_, top, htop, fun hcmd => press_idle_hit e hit st top hidle hcmd hcount htop⟩
    by_contra hne
    simp only [not_or, not_not] at hne
    obtain ⟨h1, h2, h3, h4⟩ := hne
    simp [HitResult.total, h1, h2, h3, h4] at htotal
  · intro hit hcontract herr hcmd
    by_cases hcount : hit.count = 0
    · simp [processGraphicsSceneLeftMouseButtonPressed, hidle, hcount] at herr
    · obtain ⟨top, htop⟩ := topMostItem_isSome hit (by omega)
      rw [press_idle_hit e hit st top hidle hcmd hcount htop] at herr
      exact absurd herr (by simp)
  · intro n hn
    refine ⟨rfl, ?_⟩
    simp [processGraphicsSceneLeftMouseButtonPressed, hidle, hn, topMostItem]

/-- Witness of C24: in the idle tool a press on the pin "A" above a circle and a text
(count 3) selects the pin and enters Moving, and a press with count 1 and four empty lists
fails the assertion. -/
theorem C24_assertion_branch_unreachable_witness :
    idleState.mState = .IDLE ∧ hitPinA.count = hitPinA.total ∧
    (∃ top, topMostItem hitPinA = some top ∧
      (idleState.mCmdMoveSelectedItems = none →
        processGraphicsSceneLeftMouseButtonPressed eventAtOrigin hitPinA idleState
          = .ok (true,
              { (if eventAtOrigin.ctrl then setSelected top (!idleState.selected top) idleState
                  else if !idleState.selected top then
                    setSelected top true (clearSelectionRect true idleState)
                  else idleState) with mState := .MOVING }))) ∧
    processGraphicsSceneLeftMouseButtonPressed eventAtOrigin hitInconsistent idleState
      = .error .assertionFailed :=
  ⟨rfl, rfl,
    ((C24_assertion_branch_unreachable eventAtOrigin idleState rfl).1 hitPinA rfl
      (by decide)).2,
    ((C24_assertion_branch_unreachable eventAtOrigin idleState rfl).2.2 1 (by decide)).2⟩

/-- C27 fails on the code: in the middle of a drag (Moving, pending move command from (0, 0)
to (5, 5)) a pointer move to (7, 7) updates the pending command to end at (7, 7), yet the
handler returns false, because the `MOVING` case of the switch has no `return true` and
falls through to `default`. In Selecting the handler updates the rectangle and returns true;
in Idle it returns false and changes nothing. The return value in Moving is false for every
state, event and collaborator. -/
theorem C27_moving_move_returns_false :
    movingState.mState = .MOVING ∧
    movingState.mCmdMoveSelectedItems = some ⟨⟨0, 0⟩, ⟨5, 5⟩⟩ ∧
    (processGraphicsSceneMouseMoved editorEnvOk eventAt7 movingState).2.mCmdMoveSelectedItems
      = some ⟨⟨0, 0⟩, ⟨7, 7⟩⟩ ∧
    (processGraphicsSceneMouseMoved editorEnvOk eventAt7 movingState).1 = false ∧
    (processGraphicsSceneMouseMoved editorEnvOk eventAt7 selectingState).1 = true ∧
    (processGraphicsSceneMouseMoved editorEnvOk eventAt7 selectingState).2.selectionRect
      = (⟨0, 0⟩, ⟨7, 7⟩) ∧
    processGraphicsSceneMouseMoved editorEnvOk eventAt7 idleState = (false, idleState) ∧
    (∀ (env : EditorEnv) (e : MouseEvent) (mc : Option CmdMoveSelectedSymbolItems)
        (sy : Symbol) (su : List UndoCmd) (sr : Point × Point) (se : GraphicsItem → Bool)
        (cl : Option SExpression) (mb : Nat) (dl : List GraphicsItem),
      (processGraphicsSceneMouseMoved env e ⟨.MOVING, mc, sy, su, sr, se, cl, mb, dl⟩).1
        = false ∧
      ∃ cmd,
        (processGraphicsSceneMouseMoved env e
            ⟨.MOVING, mc, sy, su, sr, se, cl, mb, dl⟩).2.mCmdMoveSelectedItems = some cmd ∧
        cmd.currentPos = e.scenePos) := by
  refine ⟨rfl, rfl, rfl, rfl, rfl, rfl, rfl, ?_⟩
  intro env e mc sy su sr se cl mb dl
  exact ⟨rfl, _, rfl, rfl⟩

/-! ## The pending move command along runs of the state machine -/

theorem openPropertiesDialog_fields (hit : HitResult) (st : EditorState) :
    (openPropertiesDialogOfItemAtPos hit st).2.mState = st.mState ∧
    (openPropertiesDialogOfItemAtPos hit st).2.mCmdMoveSelectedItems
      = st.mCmdMoveSelectedItems := by
  unfold openPropertiesDialogOfItemAtPos
  cases hit.pins <;> cases hit.texts <;> cases hit.polygons <;> cases hit.circles <;>
    exact ⟨rfl, rfl⟩

theorem rotateSelectedItems_fields (env : EditorEnv) (angle : Int) (st : EditorState) :
    (rotateSelectedItems env angle st).2.mState = st.mState ∧
    (rotateSelectedItems env angle st).2.mCmdMoveSelectedItems
      = st.mCmdMoveSelectedItems := by
  obtain ⟨_, f2, f3, _⟩ := tryExecCmd_fields env (.rotate angle) st
  exact ⟨f2, f3⟩

theorem removeSelectedItems_fields (env : EditorEnv) (st : EditorState) :
    (removeSelectedItems env st).2.mState = st.mState ∧
    (removeSelectedItems env st).2.mCmdMoveSelectedItems = st.mCmdMoveSelectedItems := by
  obtain ⟨_, f2, f3, _⟩ := tryExecCmd_fields env .remove st
  exact ⟨f2, f3⟩

theorem copySelectedItemsToClipboard_fields (env : EditorEnv) (st : EditorState) :
    (copySelectedItemsToClipboard env st).2.mState = st.mState ∧
    (copySelectedItemsToClipboard env st).2.mCmdMoveSelectedItems
      = st.mCmdMoveSelectedItems := by
  unfold copySelectedItemsToClipboard
  by_cases h : env.toMimeDataThrows
      (copySelectedItemsToClipboard_data st.symbol (selectedItems st.symbol st.selected)) = true
  · simp [h]
  · simp [h]

theorem pasteFromClipboard_fields (env : EditorEnv) (posOffset : Point) (rnd : Nat → Uuid)
    (st : EditorState) :
    (pasteFromClipboard env posOffset rnd st).2.mState = st.mState ∧
    (pasteFromClipboard env posOffset rnd st).2.mCmdMoveSelectedItems
      = st.mCmdMoveSelectedItems := by
  unfold pasteFromClipboard
  cases SymbolClipboardData.fromMimeData env.symbolUuid0 st.clipboard with
  | error e => exact ⟨rfl, rfl⟩
  | ok d =>
    cases d with
    | none => exact ⟨rfl, rfl⟩
    | some data =>
      obtain ⟨_, f2, f3, _⟩ := tryExecCmd_fields env (.paste data posOffset rnd) st
      exact ⟨f2, f3⟩

theorem processCut_fields (env : EditorEnv) (st : EditorState) :
    (processCut env st).2.mState = st.mState ∧
    (processCut env st).2.mCmdMoveSelectedItems = st.mCmdMoveSelectedItems := by
  unfold processCut
  cases hs : st.mState with
  | IDLE =>
    simp only [copySelectedItemsToClipboard_fst, if_true]
    obtain ⟨c1, c2⟩ := copySelectedItemsToClipboard_fields env st
    obtain ⟨r1, r2⟩ := removeSelectedItems_fields env (copySelectedItemsToClipboard env st).2
    exact ⟨r1.trans (c1.trans hs), r2.trans c2⟩
  | SELECTING => exact ⟨hs, rfl⟩
  | MOVING => exact ⟨hs, rfl⟩

theorem moved_invariant (env : EditorEnv) (e : MouseEvent) (st : EditorState)
    (hinv : st.mState ≠ .MOVING → st.mCmdMoveSelectedItems = none)
    (h : (processGraphicsSceneMouseMoved env e st).2.mState ≠ .MOVING) :
    (processGraphicsSceneMouseMoved env e st).2.mCmdMoveSelectedItems = none := by
  obtain ⟨ms, mc, sy, su, sr, se, cl, mb, dl⟩ := st
  cases ms with
  | IDLE => exact hinv (by simp)
  | SELECTING => exact hinv (by simp)
  | MOVING => exact absurd rfl h

theorem pressed_invariant (e : MouseEvent) (hit : HitResult) (st : EditorState)
    (r : Bool × EditorState)
    (hinv : st.mState ≠ .MOVING → st.mCmdMoveSelectedItems = none)
    (hr : processGraphicsSceneLeftMouseButtonPressed e hit st = .ok r)
    (h : r.2.mState ≠ .MOVING) : r.2.mCmdMoveSelectedItems = none := by
  cases hs : st.mState with
  | IDLE =>
    have hcmd : st.mCmdMoveSelectedItems = none := hinv (by simp [hs])
    by_cases hcount : hit.count = 0
    · simp only [processGraphicsSceneLeftMouseButtonPressed, hs, hcount, if_true,
        Except.ok.injEq] at hr
      rw [← hr]
      simpa [clearSelectionRect] using hcmd
    · cases htop : topMostItem hit with
      | none =>
        simp [processGraphicsSceneLeftMouseButtonPressed, hs, hcount, htop] at hr
      | some top =>
        rw [press_idle_hit e hit st top hs hcmd hcount htop] at hr
        simp only [Except.ok.injEq] at hr
        rw [← hr] at h
        exact absurd rfl h
  | SELECTING =>
    simp only [processGraphicsSceneLeftMouseButtonPressed, hs, Except.ok.injEq] at hr
    rw [← hr]
    exact hinv (by simp [hs])
  | MOVING =>
    simp only [processGraphicsSceneLeftMouseButtonPressed, hs, Except.ok.injEq] at hr
    rw [← hr] at h
    exact absurd hs h

theorem released_invariant (env : EditorEnv) (e : MouseEvent) (st : EditorState)
    (hinv : st.mState ≠ .MOVING → st.mCmdMoveSelectedItems = none) :
    (processGraphicsSceneLeftMouseButtonReleased env e st).2.mCmdMoveSelectedItems = none := by
  obtain ⟨ms, mc, sy, su, sr, se, cl, mb, dl⟩ := st
  cases ms with
  | IDLE => exact hinv (by simp)
  | SELECTING =>
    have : mc = none := hinv (by simp)
    subst this
    rfl
  | MOVING =>
    cases mc with
    | none => rfl
    | some cmd =>
      exact (release_moving_pending env e
        { mState := .MOVING, mCmdMoveSelectedItems := some cmd, symbol := sy, submitted := su,
          selectionRect := sr, selected := se, clipboard := cl, messageBoxes := mb,
          dialogs := dl } cmd rfl rfl).2.2.2

theorem fields_invariant {st st' : EditorState}
    (hinv : st.mState ≠ .MOVING → st.mCmdMoveSelectedItems = none)
    (hf : st'.mState = st.mState ∧ st'.mCmdMoveSelectedItems = st.mCmdMoveSelectedItems)
    (h : st'.mState ≠ .MOVING) : st'.mCmdMoveSelectedItems = none := by
  rw [hf.2]
  exact hinv (by rw [← hf.1]; exact h)

theorem idle_guard_fields (st : EditorState) (r : Bool × EditorState)
    (hr : r.2.mState = st.mState ∧ r.2.mCmdMoveSelectedItems = st.mCmdMoveSelectedItems) :
    ((match st.mState with
      | .IDLE => r
      | _ => (false, st)).2.mState = st.mState) ∧
    ((match st.mState with
      | .IDLE => r
      | _ => (false, st)).2.mCmdMoveSelectedItems = st.mCmdMoveSelectedItems) := by
  cases hs : st.mState with
  | IDLE => exact ⟨hr.1.trans hs, hr.2⟩
  | SELECTING => exact ⟨hs, rfl⟩
  | MOVING => exact ⟨hs, rfl⟩

theorem processEvent_invariant (env : EditorEnv) (ev : Event) (st : EditorState)
    (r : Bool × EditorState)
    (hinv : st.mState ≠ .MOVING → st.mCmdMoveSelectedItems = none)
    (hr : processEvent env ev st = .ok r) (h : r.2.mState ≠ .MOVING) :
    r.2.mCmdMoveSelectedItems = none := by
  cases ev with
  | mouseMoved e =>
    simp only [processEvent, Except.ok.injEq] at hr
    subst hr
    exact moved_invariant env e st hinv h
  | leftMouseButtonPressed e hit => exact pressed_invariant e hit st r hinv hr h
  | leftMouseButtonReleased e =>
    simp only [processEvent, Except.ok.injEq] at hr
    subst hr
    exact released_invariant env e st hinv
  | leftMouseButtonDoubleClicked e hit =>
    simp only [processEvent, Except.ok.injEq] at hr
    subst hr
    refine fields_invariant hinv ?_ h
    unfold processGraphicsSceneLeftMouseButtonDoubleClicked
    by_cases hs : st.mState = .IDLE
    · simp only [hs, if_true]
      rw [← hs]
      exact openPropertiesDialog_fields hit st
    · simp only [hs, if_false]
      exact ⟨trivial, trivial⟩
  | rightMouseButtonReleased e action hit =>
    simp only [processEvent, Except.ok.injEq] at hr
    subst hr
    refine fields_invariant hinv ?_ h
    unfold processGraphicsSceneRightMouseButtonReleased
    by_cases hs : st.mState = .IDLE
    · simp only [hs, if_true]
      rw [← hs]
      unfold openContextMenuAtPos
      cases action with
      | none => exact ⟨rfl, rfl⟩
      | some a =>
        cases a with
        | rotateCCW => exact rotateSelectedItems_fields env deg90 st
        | remove => exact removeSelectedItems_fields env st
        | properties => exact openPropertiesDialog_fields hit st
    · simp only [hs, if_false]
      exact ⟨trivial, trivial⟩
  | cut =>
    simp only [processEvent, Except.ok.injEq] at hr
    subst hr
    exact fields_invariant hinv (processCut_fields env st) h
  | copy =>
    simp only [processEvent, Except.ok.injEq] at hr
    subst hr
    exact fields_invariant hinv
      (idle_guard_fields st _ (copySelectedItemsToClipboard_fields env st)) h
  | paste posOffset rnd =>
    simp only [processEvent, Except.ok.injEq] at hr
    subst hr
    exact fields_invariant hinv
      (idle_guard_fields st _ (pasteFromClipboard_fields env posOffset rnd st)) h
  | rotateCw =>
    simp only [processEvent, Except.ok.injEq] at hr
    subst hr
    exact fields_invariant hinv
      (idle_guard_fields st _ (rotateSelectedItems_fields env (-deg90) st)) h
  | rotateCcw =>
    simp only [processEvent, Except.ok.injEq] at hr
    subst hr
    exact fields_invariant hinv
      (idle_guard_fields st _ (rotateSelectedItems_fields env deg90 st)) h
  | remove =>
    simp only [processEvent, Except.ok.injEq] at hr
    subst hr
    exact fields_invariant hinv
      (idle_guard_fields st _ (removeSelectedItems_fields env st)) h

theorem processEvents_invariant (env : EditorEnv) :
    ∀ (events : List Event) (st st' : EditorState),
      (st.mState ≠ .MOVING → st.mCmdMoveSelectedItems = none) →
      processEvents env events st = .ok st' →
      (st'.mState ≠ .MOVING → st'.mCmdMoveSelectedItems = none) := by
  intro events
  induction events with
  | nil =>
    intro st st' hinv h
    simp only [processEvents, Except.ok.injEq] at h
    rw [← h]
    exact hinv
  | cons ev rest ih =>
    intro st st' hinv h
    simp only [processEvents] at h
    cases hr : processEvent env ev st with
    | error err => simp [hr] at h
    | ok r =>
      simp only [hr] at h
      exact ih r.2 st' (processEvent_invariant env ev st r hinv hr) h

theorem pressed_total (e : MouseEvent) (hit : HitResult) (st : EditorState)
    (hinv : st.mState ≠ .MOVING → st.mCmdMoveSelectedItems = none)
    (hcontract : hit.count = hit.total) :
    ∃ r, processGraphicsSceneLeftMouseButtonPressed e hit st = .ok r := by
  cases hs : st.mState with
  | IDLE =>
    have hcmd : st.mCmdMoveSelectedItems = none := hinv (by simp [hs])
    by_cases hcount : hit.count = 0
    · simp only [processGraphicsSceneLeftMouseButtonPressed, hs, hcount, if_true]
      exact ⟨_, rfl⟩
    · obtain ⟨top, htop⟩ := topMostItem_isSome hit (by omega)
      exact ⟨_, press_idle_hit e hit st top hs hcmd hcount htop⟩
  | SELECTING =>
    simp only [processGraphicsSceneLeftMouseButtonPressed, hs]
    exact ⟨_, rfl⟩
  | MOVING =>
    simp only [processGraphicsSceneLeftMouseButtonPressed, hs]
    exact ⟨_, rfl⟩

theorem processEvent_total (env : EditorEnv) (ev : Event) (st : EditorState)
    (hinv : st.mState ≠ .MOVING → st.mCmdMoveSelectedItems = none)
    (hcontract : ev.HitContract) : ∃ r, processEvent env ev st = .ok r := by
  cases ev with
  | leftMouseButtonPressed e hit => exact pressed_total e hit st hinv hcontract
  | _ => exact ⟨_, rfl⟩

theorem processEvents_total (env : EditorEnv) :
    ∀ (events : List Event) (st : EditorState),
      (st.mState ≠ .MOVING → st.mCmdMoveSelectedItems = none) →
      (∀ ev ∈ events, ev.HitContract) →
      ∃ st', processEvents env events st = .ok st' := by
  intro events
  induction events with
  | nil => intro st _ _; exact ⟨st, rfl⟩
  | cons ev rest ih =>
    intro st hinv hc
    obtain ⟨r, hr⟩ := processEvent_total env ev st hinv (hc ev (List.mem_cons_self _ _))
    obtain ⟨st', h⟩ := ih r.2 (processEvent_invariant env ev st r hinv hr)
      (fun ev' hev => hc ev' (List.mem_cons_of_mem _ hev))
    exact ⟨st', by simp only [processEvents, hr, h]⟩

/-- C25: in every state reached from the initial state of the tool (Idle, no pending move
command) by a sequence of press, move, release, double-click, right-click, cut, copy, paste,
rotate and remove events, a pending move command exists only in Moving: in Idle and in
Selecting there is none. Hence the destructor's assertion holds when the tool is destroyed in
Idle or Selecting, and a further press whose hit-test keeps its contract passes the
assertions of the press handler. A sequence all of whose presses keep the hit-test contract
fails no assertion, so it does reach a state. -/
theorem C25_pending_move_only_in_moving (env : EditorEnv) (events : List Event)
    (ctx : EditorState) :
    (∀ st, processEvents env events (SymbolEditorState_Select.new ctx) = .ok st →
      (st.mCmdMoveSelectedItems.isSome = true → st.mState = .MOVING) ∧
      (st.mState = .IDLE → st.mCmdMoveSelectedItems = none) ∧
      (st.mState = .SELECTING → st.mCmdMoveSelectedItems = none) ∧
      (st.mState ≠ .MOVING → SymbolEditorState_Select.destroy st = .ok ()) ∧
      (∀ e hit, hit.count = hit.total →
        ∃ r, processGraphicsSceneLeftMouseButtonPressed e hit st = .ok r)) ∧
    ((∀ ev ∈ events, ev.HitContract) →
      ∃ st, processEvents env events (SymbolEditorState_Select.new ctx) = .ok st) := by
  have h0 : (SymbolEditorState_Select.new ctx).mState ≠ .MOVING →
      (SymbolEditorState_Select.new ctx).mCmdMoveSelectedItems = none := fun _ => rfl
  refine ⟨?_, processEvents_total env events _ h0⟩
  intro st hrun
  have hinv := processEvents_invariant env events _ st h0 hrun
  refine ⟨?_, ?_, ?_, ?_, ?_⟩
  · intro hsome
    by_contra hne
    rw [hinv hne] at hsome
    exact absurd hsome (by simp)
  · intro hs
    exact hinv (by simp [hs])
  · intro hs
    exact hinv (by simp [hs])
  · intro hne
    simp [SymbolEditorState_Select.destroy, hinv hne]
  · intro e hit hcontract
    exact pressed_total e hit st hinv hcontract

/-- Witness of C25: a drag of the pin "A", a rubber-band selection, a copy and a paste, from
the initial state on `symbolFull`, end in a state without pending move command outside of
Moving. -/
theorem C25_pending_move_only_in_moving_witness :
    ∃ st, processEvents editorEnvOk gestureEvents (SymbolEditorState_Select.new idleState)
        = .ok st ∧
      (st.mState = .IDLE → st.mCmdMoveSelectedItems = none) ∧
      (st.mState ≠ .MOVING → SymbolEditorState_Select.destroy st = .ok ()) := by
  have hc : ∀ ev ∈ gestureEvents, ev.HitContract := by
    intro ev hev
    simp only [gestureEvents, List.mem_cons, List.mem_singleton, List.not_mem_nil,
      or_false] at hev
    rcases hev with rfl | rfl | rfl | rfl | rfl | rfl | rfl | rfl | rfl <;> trivial
  obtain ⟨st, hst⟩ := (C25_pending_move_only_in_moving editorEnvOk gestureEvents idleState).2 hc
  have h := (C25_pending_move_only_in_moving editorEnvOk gestureEvents idleState).1 st hst
  exact ⟨st, hst, h.2.1, h.2.2.2.1⟩

/-! ## Identifier uniqueness after a paste -/

theorem pasteEach_uuids_nodup {α β : Type} (rnd : Nat → Uuid) (su du : Uuid)
    (contains : Uuid → Bool) (uuidOf : α → Uuid)
    (copy : Uuid → α → Except PasteError β) (uuidB : β → Uuid)
    (huuid : ∀ u a b, copy u a = .ok b → uuidB b = u) (N : Nat)
    (hinj : ∀ i j : Nat, i < N → j < N → rnd i = rnd j → i = j) :
    ∀ (l : List α) (n : Nat) (bs : List β) (m : Nat),
      pasteEach rnd su du contains uuidOf copy l n = .ok (bs, m) →
      (l.map uuidOf).Nodup → n + l.length ≤ N →
      (∀ k : Nat, k < N → rnd k ∉ l.map uuidOf) →
      n ≤ m ∧ m ≤ n + l.length ∧
      (∀ u ∈ bs.map uuidB, (u ∈ l.map uuidOf ∧ contains u = false) ∨
        ∃ k : Nat, n ≤ k ∧ k < m ∧ u = rnd k) ∧
      (bs.map uuidB).Nodup := by
  intro l
  induction l with
  | nil =>
    intro n bs m h _ _ _
    simp only [pasteEach, Except.ok.injEq, Prod.mk.injEq] at h
    obtain ⟨h1, h2⟩ := h
    subst h1 h2
    simp
  | cons a rest ih =>
    intro n bs m h hnd hN hfresh
    simp only [pasteEach] at h
    split at h
    · exact absurd h (by simp)
    · rename_i b hb
      split at h
      · exact absurd h (by simp)
      · rename_i bs' m' hrest
        simp only [Except.ok.injEq, Prod.mk.injEq] at h
        obtain ⟨h1, h2⟩ := h
        subst h1 h2
        have hub := huuid _ _ _ hb
        simp only [List.map_cons, List.nodup_cons] at hnd
        simp only [List.length_cons] at hN
        have hfresh' : ∀ k : Nat, k < N → rnd k ∉ rest.map uuidOf := by
          intro k hk hmem
          exact hfresh k hk (by simp only [List.map_cons]; exact List.mem_cons_of_mem _ hmem)
        by_cases hk : su = du ∧ contains (uuidOf a) = false
        · rw [chooseUuid_kept rnd su du _ _ n hk.2 hk.1] at hb hrest hub
          obtain ⟨i1, i2, i3, i4⟩ := ih n bs' m' hrest hnd.2 (by omega) hfresh'
          refine ⟨i1, by simp only [List.length_cons]; omega, ?_, ?_⟩
          · intro u hu
            simp only [List.map_cons, List.mem_cons] at hu
            rcases hu with hu | hu
            · left
              rw [hu, hub]
              exact ⟨by simp, hk.2⟩
            · rcases i3 u hu with ⟨hm, hc⟩ | ⟨k, k1, k2, k3⟩
              · left
                exact ⟨by simp only [List.map_cons]; exact List.mem_cons_of_mem _ hm, hc⟩
              · right
                exact ⟨k, k1, k2, k3⟩
          · simp only [List.map_cons, List.nodup_cons]
            refine ⟨?_, i4⟩
            rw [hub]
            intro hmem
            rcases i3 _ hmem with ⟨hm, _⟩ | ⟨k, _, k2, k3⟩
            · exact hnd.1 hm
            · refine hfresh k (by omega) ?_
              rw [← k3]
              simp
        · have hf : contains (uuidOf a) = true ∨ su ≠ du := by
            by_cases hs : su = du
            · left
              cases hc : contains (uuidOf a) with
              | true => rfl
              | false => exact absurd ⟨hs, hc⟩ hk
            · right; exact hs
          rw [chooseUuid_fresh rnd su du _ _ n hf] at hb hrest hub
          obtain ⟨i1, i2, i3, i4⟩ := ih (n + 1) bs' m' hrest hnd.2 (by omega) hfresh'
          refine ⟨by omega, by simp only [List.length_cons]; omega, ?_, ?_⟩
          · intro u hu
            simp only [List.map_cons, List.mem_cons] at hu
            rcases hu with hu | hu
            · right
              exact ⟨n, le_refl n, by omega, by rw [hu, hub]⟩
            · rcases i3 u hu with ⟨hm, hc⟩ | ⟨k, k1, k2, k3⟩
              · left
                exact ⟨by simp only [List.map_cons]; exact List.mem_cons_of_mem _ hm, hc⟩
              · right
                exact ⟨k, by omega, k2, k3⟩
          · simp only [List.map_cons, List.nodup_cons]
            refine ⟨?_, i4⟩
            rw [hub]
            intro hmem
            rcases i3 _ hmem with ⟨hm, _⟩ | ⟨k, k1, k2, k3⟩
            · exact hfresh' n (by omega) hm
            · have := hinj n k (by omega) (by omega) k3
              omega

theorem pasteEach_nodup_append {α β : Type} (rnd : Nat → Uuid) (su du : Uuid)
    (contains : Uuid → Bool) (uuidOf : α → Uuid)
    (copy : Uuid → α → Except PasteError β) (uuidB : β → Uuid)
    (huuid : ∀ u a b, copy u a = .ok b → uuidB b = u) (N : Nat)
    (hinj : ∀ i j : Nat, i < N → j < N → rnd i = rnd j → i = j)
    (D : List Uuid) (hD : D.Nodup) (hcontains : ∀ u, contains u = false → u ∉ D)
    (hfreshD : ∀ k : Nat, k < N → rnd k ∉ D)
    (l : List α) (n : Nat) (bs : List β) (m : Nat)
    (h : pasteEach rnd su du contains uuidOf copy l n = .ok (bs, m))
    (hl : (l.map uuidOf).Nodup) (hN : n + l.length ≤ N)
    (hfreshL : ∀ k : Nat, k < N → rnd k ∉ l.map uuidOf) :
    m ≤ n + l.length ∧ (D ++ bs.map uuidB).Nodup := by
  obtain ⟨_, i2, i3, i4⟩ :=
    pasteEach_uuids_nodup rnd su du contains uuidOf copy uuidB huuid N hinj l n bs m h hl hN
      hfreshL
  refine ⟨i2, List.Nodup.append hD i4 ?_⟩
  intro u huD hub
  rcases i3 u hub with ⟨_, hc⟩ | ⟨k, _, k2, k3⟩
  · exact hcontains u hc huD
  · exact hfreshD k (by omega) (k3 ▸ huD)

theorem performExecute_error_restores {env : Env} {rnd : Nat → Uuid} {sym : Symbol}
    {data : SymbolClipboardData} {offset : Point} {e : PasteError} {s : Symbol}
    (h : CmdPasteSymbolItems.performExecute env rnd sym data offset = (.error e, s)) :
    s = sym := by
  unfold CmdPasteSymbolItems.performExecute at h
  split at h
  · simp only [Prod.mk.injEq] at h
    exact h.2.symm
  · exact group_error_restores env sym _ [] sym rfl e s h

/-- C26: let the identifiers within each of the four collections of the destination symbol
be pairwise distinct, and likewise within each of the four lists of the snapshot, and let the
identifiers the random source can hand out during this paste (at most one per snapshot
element) be pairwise distinct and differ from every identifier of the destination and of the
snapshot. Then, whether `CmdPasteSymbolItems::performExecute` succeeds or throws, the
identifiers within each of the four collections of the destination are pairwise distinct
afterwards. -/
theorem C26_paste_preserves_unique_identifiers (env : Env) (rnd : Nat → Uuid) (sym : Symbol)
    (data : SymbolClipboardData) (offset : Point)
    (hsym : (sym.pins.map SymbolPin.uuid).Nodup ∧ (sym.circles.map Circle.uuid).Nodup ∧
      (sym.polygons.map Polygon.uuid).Nodup ∧ (sym.texts.map Text.uuid).Nodup)
    (hdata : (data.pins.map SymbolPin.uuid).Nodup ∧ (data.circles.map Circle.uuid).Nodup ∧
      (data.polygons.map Polygon.uuid).Nodup ∧ (data.texts.map Text.uuid).Nodup)
    (hinj : ∀ i j : Nat, i < data.uuids.length → j < data.uuids.length →
      rnd i = rnd j → i = j)
    (hfresh : ∀ k : Nat, k < data.uuids.length → rnd k ∉ sym.uuids ∧ rnd k ∉ data.uuids)
    (r : Except PasteError Unit) (s : Symbol)
    (hexec : CmdPasteSymbolItems.performExecute env rnd sym data offset = (r, s)) :
    (s.pins.map SymbolPin.uuid).Nodup ∧ (s.circles.map Circle.uuid).Nodup ∧
    (s.polygons.map Polygon.uuid).Nodup ∧ (s.texts.map Text.uuid).Nodup := by
  cases r with
  | error e =>
    rw [performExecute_error_restores hexec]
    exact hsym
  | ok u =>
    obtain ⟨ps, n1, cs, n2, gs, n3, ts, n4, hp, hc, hg, ht, hs⟩ := performExecute_ok hexec
    have hN : data.uuids.length = data.pins.length + data.circles.length
        + data.polygons.length + data.texts.length := by
      simp only [SymbolClipboardData.uuids, List.length_append, List.length_map]
    have hfs : ∀ k : Nat, k < data.uuids.length →
        rnd k ∉ sym.pins.map SymbolPin.uuid ∧ rnd k ∉ sym.circles.map Circle.uuid ∧
        rnd k ∉ sym.polygons.map Polygon.uuid ∧ rnd k ∉ sym.texts.map Text.uuid := by
      intro k hk
      have h := (hfresh k hk).1
      simp only [Symbol.uuids, List.mem_append, not_or] at h
      exact ⟨h.1.1.1, h.1.1.2, h.1.2, h.2⟩
    have hfd : ∀ k : Nat, k < data.uuids.length →
        rnd k ∉ data.pins.map SymbolPin.uuid ∧ rnd k ∉ data.circles.map Circle.uuid ∧
        rnd k ∉ data.polygons.map Polygon.uuid ∧ rnd k ∉ data.texts.map Text.uuid := by
      intro k hk
      have h := (hfresh k hk).2
      simp only [SymbolClipboardData.uuids, List.mem_append, not_or] at h
      exact ⟨h.1.1.1, h.1.1.2, h.1.2, h.2⟩
    obtain ⟨b1, d1⟩ := pasteEach_nodup_append rnd sym.uuid data.symbolUuid sym.containsPin
      SymbolPin.uuid (copyPin env sym offset) SymbolPin.uuid (fun _ _ _ h => copyPin_uuid h)
      data.uuids.length hinj (sym.pins.map SymbolPin.uuid) hsym.1
      (fun _ h => containsPin_eq_false.1 h) (fun k hk => (hfs k hk).1)
      data.pins 0 ps n1 hp hdata.1 (by omega) (fun k hk => (hfd k hk).1)
    obtain ⟨b2, d2⟩ := pasteEach_nodup_append rnd sym.uuid data.symbolUuid sym.containsCircle
      Circle.uuid (copyCircle offset) Circle.uuid (fun _ _ _ h => copyCircle_uuid h)
      data.uuids.length hinj (sym.circles.map Circle.uuid) hsym.2.1
      (fun _ h => containsCircle_eq_false.1 h) (fun k hk => (hfs k hk).2.1)
      data.circles n1 cs n2 hc hdata.2.1 (by omega) (fun k hk => (hfd k hk).2.1)
    obtain ⟨b3, d3⟩ := pasteEach_nodup_append rnd sym.uuid data.symbolUuid sym.containsPolygon
      Polygon.uuid (copyPolygon offset) Polygon.uuid (fun _ _ _ h => copyPolygon_uuid h)
      data.uuids.length hinj (sym.polygons.map Polygon.uuid) hsym.2.2.1
      (fun _ h => containsPolygon_eq_false.1 h) (fun k hk => (hfs k hk).2.2.1)
      data.polygons n2 gs n3 hg hdata.2.2.1 (by omega) (fun k hk => (hfd k hk).2.2.1)
    obtain ⟨_, d4⟩ := pasteEach_nodup_append rnd sym.uuid data.symbolUuid sym.containsText
      Text.uuid (copyText offset) Text.uuid (fun _ _ _ h => copyText_uuid h)
      data.uuids.length hinj (sym.texts.map Text.uuid) hsym.2.2.2
      (fun _ h => containsText_eq_false.1 h) (fun k hk => (hfs k hk).2.2.2)
      data.texts n3 ts n4 ht hdata.2.2.2 (by omega) (fun k hk => (hfd k hk).2.2.2)
    rw [hs]
    simp only [List.map_append]
    exact ⟨d1, d2, d3, d4⟩

/-- Witness of C26: pasting the pin "A" (identifier 1) into a symbol that already holds it,
with the random source handing out 100, leaves the pins with the identifiers 1 and 100. -/
theorem C26_paste_preserves_unique_identifiers_witness :
    ∃ s, CmdPasteSymbolItems.performExecute envOk rndFrom100 symbolWithA snapshotA ⟨0, 0⟩
        = (.ok (), s) ∧
      s.pins.map SymbolPin.uuid = [1, 100] ∧
      (s.pins.map SymbolPin.uuid).Nodup ∧ (s.circles.map Circle.uuid).Nodup ∧
      (s.polygons.map Polygon.uuid).Nodup ∧ (s.texts.map Text.uuid).Nodup := by
  have hlen : snapshotA.uuids.length = 1 := rfl
  refine ⟨_, rfl, rfl, ?_⟩
  exact C26_paste_preserves_unique_identifiers envOk rndFrom100 symbolWithA snapshotA ⟨0, 0⟩
    (by decide) (by decide)
    (by intro i j hi hj _; omega)
    (by
      intro k hk
      have hk0 : k = 0 := by omega
      subst hk0
      exact ⟨by decide, by decide⟩)
    _ _ rfl

/-- C1 fails as stated: the destination symbol 10 holds a circle with the identifier 1, and a
snapshot captured from symbol 10 holds the pin "A" with the identifier 1. The identifier is
present in the destination symbol, so the claim lets the copy have a fresh identifier; the
code looks for it among the pins only, finds none, and the pasted pin keeps the identifier 1,
which no allocator call returned. -/
theorem C1_counterexample :
    symbolWithCircle1.uuid = snapshotA.symbolUuid ∧
    snapshotA.pins.map SymbolPin.uuid = [1] ∧
    (1 : Uuid) ∈ symbolWithCircle1.uuids ∧
    (1 : Uuid) ∉ symbolWithCircle1.pins.map SymbolPin.uuid ∧
    (∀ k : Nat, rndFrom100 k ≠ 1) ∧
    ∃ s, CmdPasteSymbolItems.performExecute envOk rndFrom100 symbolWithCircle1 snapshotA ⟨0, 0⟩
        = (.ok (), s) ∧
      s.pins.map SymbolPin.uuid = [1] ∧ s.circles.map Circle.uuid = [1] := by
  refine ⟨rfl, rfl, by decide, by decide, ?_, _, rfl, rfl, rfl⟩
  intro (k : Nat) (h : (100 : Nat) + k = 1)
  omega

/-- C9 fails on the code: the tool is idle on a symbol with the identifier 10 whose pin "A"
(identifier 1), circle 2 and text 4 are selected. `processCut` captures them, puts the
payload on the clipboard and removes them; `processPaste` with offset zero reads the payload
back and pastes it without any error. The payload does not hold the origin-symbol identifier,
so the snapshot read back carries the value the constructor leaves in the member (here 0)
instead of 10, the paste takes the symbols for different ones, and the three elements come
back under the fresh identifiers 100, 101 and 102 instead of 1, 2 and 4. -/
theorem C9_cut_paste_renews_identifiers :
    idleSomeSelected.mState = .IDLE ∧
    idleSomeSelected.symbol = symbolFull ∧
    selectedItems symbolFull idleSomeSelected.selected = itemsSome ∧
    symbolFull.pins.map SymbolPin.uuid = [1, 5] ∧
    symbolFull.circles.map Circle.uuid = [2, 6] ∧
    symbolFull.texts.map Text.uuid = [4] ∧
    (processCut editorEnvOk idleSomeSelected).1 = true ∧
    (processCut editorEnvOk idleSomeSelected).2.symbol
      = CmdRemoveSelectedSymbolItems.performExecute symbolFull selectionSome ∧
    (processCut editorEnvOk idleSomeSelected).2.clipboard
      = some (copySelectedItemsToClipboard_data symbolFull itemsSome).toMimeData ∧
    SymbolClipboardData.fromMimeData editorEnvOk.symbolUuid0
        (processCut editorEnvOk idleSomeSelected).2.clipboard
      = .ok (some { copySelectedItemsToClipboard_data symbolFull itemsSome with
                    symbolUuid := 0 }) ∧
    (processPaste editorEnvOk ⟨0, 0⟩ rndFrom100
        (processCut editorEnvOk idleSomeSelected).2).1 = true ∧
    (processPaste editorEnvOk ⟨0, 0⟩ rndFrom100
        (processCut editorEnvOk idleSomeSelected).2).2.messageBoxes = 0 ∧
    (processPaste editorEnvOk ⟨0, 0⟩ rndFrom100
        (processCut editorEnvOk idleSomeSelected).2).2.symbol.pins.map SymbolPin.uuid
      = [5, 100] ∧
    (processPaste editorEnvOk ⟨0, 0⟩ rndFrom100
        (processCut editorEnvOk idleSomeSelected).2).2.symbol.circles.map Circle.uuid
      = [6, 101] ∧
    (processPaste editorEnvOk ⟨0, 0⟩ rndFrom100
        (processCut editorEnvOk idleSomeSelected).2).2.symbol.polygons.map Polygon.uuid
      = [3] ∧
    (processPaste editorEnvOk ⟨0, 0⟩ rndFrom100
        (processCut editorEnvOk idleSomeSelected).2).2.symbol.texts.map Text.uuid
      = [102] ∧
    (processPaste editorEnvOk ⟨0, 0⟩ rndFrom100
        (processCut editorEnvOk idleSomeSelected).2).2.symbol.pins.map SymbolPin.name
      = ["A1", "A"] := by
  refine ⟨rfl, rfl, rfl, rfl, rfl, rfl, rfl, rfl, rfl, rfl, rfl, rfl, rfl, rfl, rfl, rfl, rfl⟩

end LibrePCB
